import Mathlib

/-!
# chip8cpp: a shallow embedding of the interpreter core

The development follows `src/include/chip8.h` and `src/chip8.cpp`.

Modelling conventions.

* The fixed-size arrays of `class Chip8` (`keys_`, `gfx_`, `stack_`, `mem_`, `V_`) are total
  functions on indices.  Only the indices below the array size are meaningful; an access with
  an index outside the array is undefined behaviour in the source and makes the operation
  return `Fault.outOfBounds`.
* `uint8_t` and `uint16_t` values are natural numbers; every assignment of a wider `int`
  expression to such a variable reduces it modulo `2 ^ 8` resp. `2 ^ 16`.  Expressions in which
  the source subtracts promoted `int` values are computed in `Int`.
* `assert(false)` makes the operation return `Fault.unimplemented`.
* The random engine is the stream `rng_` of the bytes it is going to produce.
* The bell characters written to the standard output are counted in `beeps`.
-/

namespace chip8

/-! ## Constants of `chip8.h` -/

def SCREEN_WIDTH : Nat := 64
def SCREEN_HEIGHT : Nat := 32
def NUM_KEYS : Nat := 16
def NUM_REGISTERS : Nat := 16
def MEMORY_LIMIT : Nat := 4096
def STACK_LIMIT : Nat := 16
def ROM_LOCATION : Nat := 0x200

/-- Built-in font: sixteen glyphs of five bytes. -/
def FONTSET : List Nat :=
  [ 0xF0, 0x90, 0x90, 0x90, 0xF0,
    0x20, 0x60, 0x20, 0x20, 0x70,
    0xF0, 0x10, 0xF0, 0x80, 0xF0,
    0xF0, 0x10, 0xF0, 0x10, 0xF0,
    0x90, 0x90, 0xF0, 0x10, 0x10,
    0xF0, 0x80, 0xF0, 0x10, 0xF0,
    0xF0, 0x80, 0xF0, 0x90, 0xF0,
    0xF0, 0x10, 0x20, 0x40, 0x40,
    0xF0, 0x90, 0xF0, 0x90, 0xF0,
    0xF0, 0x90, 0xF0, 0x10, 0xF0,
    0xF0, 0x90, 0xF0, 0x90, 0x90,
    0xE0, 0x90, 0xE0, 0x90, 0xE0,
    0xF0, 0x80, 0x80, 0x80, 0xF0,
    0xE0, 0x90, 0x90, 0x90, 0xE0,
    0xF0, 0x80, 0xF0, 0x80, 0xF0,
    0xF0, 0x80, 0xF0, 0x80, 0x80 ]

/-! ## Machine state -/

/-- The two ways in which an operation of the interpreter does not complete. -/
inductive Fault where
  /-- Reached `assert(false)`: the fetched word is no implemented instruction. -/
  | unimplemented
  /-- Indexed an array outside its bounds. -/
  | outOfBounds
  deriving DecidableEq, Repr

/-- Data members of `class Chip8`. -/
structure Chip8 where
  keys_ : Nat → Bool
  gfx_ : Nat → Nat
  stack_ : Nat → Nat
  mem_ : Nat → Nat
  V_ : Nat → Nat
  I_ : Nat
  sp_ : Nat
  pc_ : Nat
  opcode_ : Nat
  delay_timer_ : Nat
  sound_timer_ : Nat
  rng_ : Nat → Nat
  should_redraw_ : Bool
  beeps : Nat

/-- Array element assignment `a[i] = v`. -/
def store {α : Type} (a : Nat → α) (i : Nat) (v : α) : Nat → α :=
  fun j => if j = i then v else a j

/-- The call `std::copy(src.begin(), src.end(), dst.begin() + result)` for a sequence `src`. -/
def copy : List Nat → (Nat → Nat) → Nat → (Nat → Nat)
  | [], dst, _ => dst
  | b :: bs, dst, result => copy bs (store dst result b) (result + 1)

/-- The call `std::copy_n(src.begin() + first, count, dst.begin() + result)`. -/
def copy_n (src : Nat → Nat) (first : Nat) : Nat → (Nat → Nat) → Nat → (Nat → Nat)
  | 0, dst, _ => dst
  | count + 1, dst, result =>
      copy_n src (first + 1) count (store dst result (src first)) (result + 1)

/-! ## `Chip8::Reset` and `Chip8::Load` -/

/-- The function `Chip8::Reset`; `rd` is the byte stream of the freshly seeded random engine. -/
def Reset (rd : Nat → Nat) (s : Chip8) : Chip8 :=
  { s with
    keys_ := fun _ => false
    gfx_ := fun _ => 0
    stack_ := fun _ => 0
    mem_ := copy FONTSET (fun _ => 0) 0
    V_ := fun _ => 0
    I_ := 0
    sp_ := 0
    pc_ := ROM_LOCATION
    opcode_ := 0
    delay_timer_ := 0
    sound_timer_ := 0
    should_redraw_ := true
    rng_ := rd }

/-- The function `Chip8::Load`; `file` is `none` when the file cannot be opened and the
sequence of its bytes otherwise. -/
def Load (rd : Nat → Nat) (file : Option (List Nat)) (s : Chip8) : Bool × Chip8 :=
  let s1 := Reset rd s
  match file with
  | none => (false, s1)
  | some rom =>
      if rom.length > MEMORY_LIMIT - ROM_LOCATION then (false, s1)
      else (true, { s1 with mem_ := copy rom s1.mem_ ROM_LOCATION })

/-! ## `ShouldRedraw`, `Redraw`, `KeyDown`, `KeyUp` -/

/-- The function `Chip8::ShouldRedraw`. -/
def ShouldRedraw (s : Chip8) : Bool := s.should_redraw_

/-- The function `Chip8::Redraw`: the new contents of `buf` and the new state. -/
def Redraw (s : Chip8) (buf : Nat → Nat) : (Nat → Nat) × Chip8 :=
  (fun i => if i < SCREEN_WIDTH * SCREEN_HEIGHT
            then ((0x00FFFFFF * s.gfx_ i) % 4294967296 ||| 0xFF000000) % 4294967296
            else buf i,
   { s with should_redraw_ := false })

/-- The function `Chip8::KeyDown`; `key_index` is the position handed to `keys_[...]`. -/
def KeyDown (key_index : Nat) (s : Chip8) : Except Fault Chip8 :=
  if key_index < NUM_KEYS then .ok { s with keys_ := store s.keys_ key_index true }
  else .error .outOfBounds

/-- The function `Chip8::KeyUp`; `key_index` is the position handed to `keys_[...]`. -/
def KeyUp (key_index : Nat) (s : Chip8) : Except Fault Chip8 :=
  if key_index < NUM_KEYS then .ok { s with keys_ := store s.keys_ key_index false }
  else .error .outOfBounds

/-! ## `Chip8::Step` -/

/-- The statement `pc_ += 2`. -/
def advance (s : Chip8) : Chip8 :=
  { s with pc_ := (s.pc_ + 2) % 65536 }

/-- The statements `if (buf_pix == 1) { VF = 1; } buf_pix ^= 1;` for `buf_pix = gfx_[idx]`. -/
def togglePixel (idx : Nat) (s : Chip8) : Chip8 :=
  { s with
    V_ := if s.gfx_ idx = 1 then store s.V_ 0xF 1 else s.V_
    gfx_ := store s.gfx_ idx ((s.gfx_ idx ^^^ 1) % 256) }

/-- Body of the inner loop of `DXYN` for column `xl` of sprite row `yl`, whose byte is `pixel`.
The registers `VX` and `VY` are references into `V_` and are read at every use. -/
def drawPixel (X Y yl pixel : Nat) (s : Chip8) (xl : Nat) : Except Fault Chip8 :=
  if pixel &&& (0x80 >>> xl) ≠ 0 then
    if s.V_ X + xl + (s.V_ Y + yl) * 64 < SCREEN_WIDTH * SCREEN_HEIGHT then
      .ok (togglePixel (s.V_ X + xl + (s.V_ Y + yl) * 64) s)
    else .error .outOfBounds
  else .ok s

/-- Body of the outer loop of `DXYN` for sprite row `yl`. -/
def drawRow (X Y : Nat) (s : Chip8) (yl : Nat) : Except Fault Chip8 :=
  if s.I_ + yl < MEMORY_LIMIT then
    (List.range 8).foldlM (drawPixel X Y yl (s.mem_ (s.I_ + yl))) s
  else .error .outOfBounds

/-- The two nested loops of `DXYN`. -/
def drawSprite (X Y N : Nat) (s : Chip8) : Except Fault Chip8 :=
  (List.range N).foldlM (drawRow X Y) s

/-! The bodies of the `case` labels.  `X` and `Y` are the indices of the registers that the
references `VX` and `VY` denote; `VF` denotes register `0xF`.  Register reads after a write
see the write, as reads through the references do. -/

/-- Case `00E0`: Clear the screen. -/
def op_00E0 (s : Chip8) : Except Fault Chip8 :=
  .ok (advance { s with gfx_ := fun _ => 0, should_redraw_ := true })

/-- Case `00EE`: Return from a subroutine: `pc_ = stack_[--sp_]; pc_ += 2`. -/
def op_00EE (s : Chip8) : Except Fault Chip8 :=
  let sp := (s.sp_ + 65535) % 65536
  if sp < STACK_LIMIT then .ok (advance { s with sp_ := sp, pc_ := s.stack_ sp })
  else .error .outOfBounds

/-- Case `1NNN`: Jump to address NNN. -/
def op_1NNN (NNN : Nat) (s : Chip8) : Except Fault Chip8 :=
  .ok { s with pc_ := NNN }

/-- Case `2NNN`: Execute subroutine starting at address NNN: `stack_[sp_++] = pc_; pc_ = NNN`. -/
def op_2NNN (NNN : Nat) (s : Chip8) : Except Fault Chip8 :=
  if s.sp_ < STACK_LIMIT then
    .ok { s with stack_ := store s.stack_ s.sp_ s.pc_, sp_ := (s.sp_ + 1) % 65536, pc_ := NNN }
  else .error .outOfBounds

/-- Case `3XNN`: Skip the following instruction if VX equals NN. -/
def op_3XNN (X NN : Nat) (s : Chip8) : Except Fault Chip8 :=
  .ok (advance (if s.V_ X = NN then advance s else s))

/-- Case `4XNN`: Skip the following instruction if VX is not equal to NN. -/
def op_4XNN (X NN : Nat) (s : Chip8) : Except Fault Chip8 :=
  .ok (advance (if s.V_ X ≠ NN then advance s else s))

/-- Case `5XY0`: Skip the following instruction if VX is equal to VY. -/
def op_5XY0 (X Y : Nat) (s : Chip8) : Except Fault Chip8 :=
  .ok (advance (if s.V_ X = s.V_ Y then advance s else s))

/-- Case `6XNN`: Store number NN in register VX. -/
def op_6XNN (X NN : Nat) (s : Chip8) : Except Fault Chip8 :=
  .ok (advance { s with V_ := store s.V_ X NN })

/-- Case `7XNN`: Add the value NN to register VX. -/
def op_7XNN (X NN : Nat) (s : Chip8) : Except Fault Chip8 :=
  .ok (advance { s with V_ := store s.V_ X ((s.V_ X + NN) % 256) })

/-- Case `8XY0`: Store the value of register VY in register VX. -/
def op_8XY0 (X Y : Nat) (s : Chip8) : Except Fault Chip8 :=
  .ok (advance { s with V_ := store s.V_ X (s.V_ Y) })

/-- Case `8XY1`: Set VX to VX OR VY. -/
def op_8XY1 (X Y : Nat) (s : Chip8) : Except Fault Chip8 :=
  .ok (advance { s with V_ := store s.V_ X ((s.V_ X ||| s.V_ Y) % 256) })

/-- Case `8XY2`: Set VX to VX AND VY. -/
def op_8XY2 (X Y : Nat) (s : Chip8) : Except Fault Chip8 :=
  .ok (advance { s with V_ := store s.V_ X ((s.V_ X &&& s.V_ Y) % 256) })

/-- Case `8XY3`: Set VX to VX XOR VY. -/
def op_8XY3 (X Y : Nat) (s : Chip8) : Except Fault Chip8 :=
  .ok (advance { s with V_ := store s.V_ X ((s.V_ X ^^^ s.V_ Y) % 256) })

/-- Case `8XY4`: Add VY to VX:
`if (VY > (0xFF - VX)) { VF = 1; } else { VF = 0; } VX = VX + VY;`. -/
def op_8XY4 (X Y : Nat) (s : Chip8) : Except Fault Chip8 :=
  let V1 := store s.V_ 0xF (if (s.V_ Y : Int) > 0xFF - (s.V_ X : Int) then 1 else 0)
  .ok (advance { s with V_ := store V1 X ((V1 X + V1 Y) % 256) })

/-- Case `8XY5`: Subtract VY from VX:
`if (VY > VX) { VF = 0; } else { VF = 1; } VX = VX - VY;`. -/
def op_8XY5 (X Y : Nat) (s : Chip8) : Except Fault Chip8 :=
  let V1 := store s.V_ 0xF (if s.V_ Y > s.V_ X then 0 else 1)
  .ok (advance { s with V_ := store V1 X (((V1 X : Int) - (V1 Y : Int)) % 256).toNat })

/-- Case `8XY6`: Shift right: `VF = static_cast<uint8_t>(VX & 0x1u); VX >>= 1;`. -/
def op_8XY6 (X : Nat) (s : Chip8) : Except Fault Chip8 :=
  let V1 := store s.V_ 0xF ((s.V_ X &&& 0x1) % 256)
  .ok (advance { s with V_ := store V1 X (V1 X >>> 1) })

/-- Case `8XY7`: Set VX to VY minus VX:
`if (VX > VY) { VF = 0; } else { VF = 1; } VX = VY - VX;`. -/
def op_8XY7 (X Y : Nat) (s : Chip8) : Except Fault Chip8 :=
  let V1 := store s.V_ 0xF (if s.V_ X > s.V_ Y then 0 else 1)
  .ok (advance { s with V_ := store V1 X (((V1 Y : Int) - (V1 X : Int)) % 256).toNat })

/-- Case `8XYE`: Shift left: `VF = static_cast<uint8_t>(VX >> 0x7u); VX <<= 1;`. -/
def op_8XYE (X : Nat) (s : Chip8) : Except Fault Chip8 :=
  let V1 := store s.V_ 0xF ((s.V_ X >>> 0x7) % 256)
  .ok (advance { s with V_ := store V1 X ((V1 X <<< 1) % 256) })

/-- Case `9XY0`: Skip the following instruction if VX is not equal to VY. -/
def op_9XY0 (X Y : Nat) (s : Chip8) : Except Fault Chip8 :=
  .ok (advance (if s.V_ X ≠ s.V_ Y then advance s else s))

/-- Case `ANNN`: Store memory address NNN in register I. -/
def op_ANNN (NNN : Nat) (s : Chip8) : Except Fault Chip8 :=
  .ok (advance { s with I_ := NNN })

/-- Case `BNNN`: Jump to address NNN + V0. -/
def op_BNNN (NNN : Nat) (s : Chip8) : Except Fault Chip8 :=
  .ok { s with pc_ := (NNN + s.V_ 0) % 65536 }

/-- Case `CXNN`: Set VX to a random number with a mask of NN. -/
def op_CXNN (X NN : Nat) (s : Chip8) : Except Fault Chip8 :=
  .ok (advance { s with V_ := store s.V_ X ((s.rng_ 0 &&& NN) % 256),
                        rng_ := fun n => s.rng_ (n + 1) })

/-- Case `DXYN`: Draw a sprite at position VX, VY with N bytes of sprite data starting at the
address stored in I. -/
def op_DXYN (X Y N : Nat) (s : Chip8) : Except Fault Chip8 :=
  match drawSprite X Y N { s with V_ := store s.V_ 0xF 0 } with
  | .ok s1 => .ok (advance { s1 with should_redraw_ := true })
  | .error e => .error e

/-- Case `EX9E`: Skip the following instruction if the key with the value of VX is pressed. -/
def op_EX9E (X : Nat) (s : Chip8) : Except Fault Chip8 :=
  if s.V_ X < NUM_KEYS then .ok (advance (if s.keys_ (s.V_ X) then advance s else s))
  else .error .outOfBounds

/-- Case `EXA1`: Skip the following instruction if the key with the value of VX is not pressed. -/
def op_EXA1 (X : Nat) (s : Chip8) : Except Fault Chip8 :=
  if s.V_ X < NUM_KEYS then .ok (advance (if !s.keys_ (s.V_ X) then advance s else s))
  else .error .outOfBounds

/-- Case `FX07`: Store the current value of the delay timer in register VX. -/
def op_FX07 (X : Nat) (s : Chip8) : Except Fault Chip8 :=
  .ok (advance { s with V_ := store s.V_ X s.delay_timer_ })

/-- Case `FX0A`: Wait for a keypress and store the result in register VX: inside
`if (keys_.any())`, the loop over `i` from 0 that stops at the first pressed key. -/
def op_FX0A (X : Nat) (s : Chip8) : Except Fault Chip8 :=
  if (List.range NUM_KEYS).any s.keys_ then
    match (List.range NUM_KEYS).find? s.keys_ with
    | some i => .ok (advance { s with V_ := store s.V_ X i })
    | none => .ok s
  else .ok s

/-- Case `FX15`: Set the delay timer to the value of register VX. -/
def op_FX15 (X : Nat) (s : Chip8) : Except Fault Chip8 :=
  .ok (advance { s with delay_timer_ := s.V_ X })

/-- Case `FX18`: Set the sound timer to the value of register VX. -/
def op_FX18 (X : Nat) (s : Chip8) : Except Fault Chip8 :=
  .ok (advance { s with sound_timer_ := s.V_ X })

/-- Case `FX1E`: Add VX to I: `if (I_ + VX > 0xFFF) { VF = 1; } else { VF = 0; } I_ += VX;`. -/
def op_FX1E (X : Nat) (s : Chip8) : Except Fault Chip8 :=
  let V1 := store s.V_ 0xF (if s.I_ + s.V_ X > 0xFFF then 1 else 0)
  .ok (advance { s with V_ := V1, I_ := (s.I_ + V1 X) % 65536 })

/-- Case `FX29`: Set I to the address of the sprite of the digit in VX. -/
def op_FX29 (X : Nat) (s : Chip8) : Except Fault Chip8 :=
  .ok (advance { s with I_ := (s.V_ X * 5) % 65536 })

/-- Case `FX33`: Store the binary-coded decimal equivalent of VX at addresses I, I+1, and I+2. -/
def op_FX33 (X : Nat) (s : Chip8) : Except Fault Chip8 :=
  if s.I_ + 2 < MEMORY_LIMIT then
    let m1 := store s.mem_ s.I_ ((s.V_ X / 100) % 256)
    let m2 := store m1 (s.I_ + 1) (((s.V_ X / 10) % 10) % 256)
    let m3 := store m2 (s.I_ + 2) (((s.V_ X % 100) % 10) % 256)
    .ok (advance { s with mem_ := m3 })
  else .error .outOfBounds

/-- Case `FX55`: Store V0 to VX inclusive in memory starting at address I; I is set to I + X + 1. -/
def op_FX55 (s : Chip8) : Except Fault Chip8 :=
  let xval := (s.opcode_ &&& 0x0F00) >>> 8
  if s.I_ + xval + 1 ≤ MEMORY_LIMIT then
    .ok (advance { s with mem_ := copy_n s.V_ 0 (xval + 1) s.mem_ s.I_,
                          I_ := (s.I_ + xval + 1) % 65536 })
  else .error .outOfBounds

/-- Case `FX65`: Fill V0 to VX inclusive from memory starting at address I; I is set to
I + X + 1. -/
def op_FX65 (s : Chip8) : Except Fault Chip8 :=
  let xval := (s.opcode_ &&& 0x0F00) >>> 8
  if s.I_ + xval + 1 ≤ MEMORY_LIMIT then
    .ok (advance { s with V_ := copy_n s.mem_ s.I_ (xval + 1) s.V_ 0,
                          I_ := (s.I_ + xval + 1) % 65536 })
  else .error .outOfBounds

/-- The inner `switch (NN)` of `case 0x0000`. -/
def dispatch0 (NN : Nat) (s : Chip8) : Except Fault Chip8 :=
  if NN = 0xE0 then op_00E0 s
  else if NN = 0xEE then op_00EE s
  else .error .unimplemented

/-- The inner `switch (N)` of `case 0x8000`. -/
def dispatch8 (X Y N : Nat) (s : Chip8) : Except Fault Chip8 :=
  if N = 0x0 then op_8XY0 X Y s
  else if N = 0x1 then op_8XY1 X Y s
  else if N = 0x2 then op_8XY2 X Y s
  else if N = 0x3 then op_8XY3 X Y s
  else if N = 0x4 then op_8XY4 X Y s
  else if N = 0x5 then op_8XY5 X Y s
  else if N = 0x6 then op_8XY6 X s
  else if N = 0x7 then op_8XY7 X Y s
  else if N = 0xE then op_8XYE X s
  else .error .unimplemented

/-- The inner `switch (NN)` of `case 0xE000`. -/
def dispatchE (X NN : Nat) (s : Chip8) : Except Fault Chip8 :=
  if NN = 0x9E then op_EX9E X s
  else if NN = 0xA1 then op_EXA1 X s
  else .error .unimplemented

/-- The inner `switch (NN)` of `case 0xF000`. -/
def dispatchF (X NN : Nat) (s : Chip8) : Except Fault Chip8 :=
  if NN = 0x07 then op_FX07 X s
  else if NN = 0x0A then op_FX0A X s
  else if NN = 0x15 then op_FX15 X s
  else if NN = 0x18 then op_FX18 X s
  else if NN = 0x1E then op_FX1E X s
  else if NN = 0x29 then op_FX29 X s
  else if NN = 0x33 then op_FX33 X s
  else if NN = 0x55 then op_FX55 s
  else if NN = 0x65 then op_FX65 s
  else .error .unimplemented

/-- The outer `switch (instruction)` of `Chip8::Step` for the decoded fields `instruction`,
`NNN`, `NN` and `N` and the register indices `X` and `Y`. -/
def dispatch (instruction X Y NNN NN N : Nat) (s : Chip8) : Except Fault Chip8 :=
  if instruction = 0x0000 then dispatch0 NN s
  else if instruction = 0x1000 then op_1NNN NNN s
  else if instruction = 0x2000 then op_2NNN NNN s
  else if instruction = 0x3000 then op_3XNN X NN s
  else if instruction = 0x4000 then op_4XNN X NN s
  else if instruction = 0x5000 then op_5XY0 X Y s
  else if instruction = 0x6000 then op_6XNN X NN s
  else if instruction = 0x7000 then op_7XNN X NN s
  else if instruction = 0x8000 then dispatch8 X Y N s
  else if instruction = 0x9000 then op_9XY0 X Y s
  else if instruction = 0xA000 then op_ANNN NNN s
  else if instruction = 0xB000 then op_BNNN NNN s
  else if instruction = 0xC000 then op_CXNN X NN s
  else if instruction = 0xD000 then op_DXYN X Y N s
  else if instruction = 0xE000 then dispatchE X NN s
  else if instruction = 0xF000 then dispatchF X NN s
  else .error .unimplemented

/-- The decoding of `opcode_` at the head of `Chip8::Step`, followed by the `switch`. -/
def execute (s : Chip8) : Except Fault Chip8 :=
  dispatch (s.opcode_ &&& 0xF000) ((s.opcode_ &&& 0x0F00) >>> 8) ((s.opcode_ &&& 0x00F0) >>> 4)
    (s.opcode_ &&& 0x0FFF) (s.opcode_ &&& 0x00FF) (s.opcode_ &&& 0x000F) s

/-- The statement `if (delay_timer_ > 0) { delay_timer_--; }`. -/
def tickDelay (s : Chip8) : Chip8 :=
  if s.delay_timer_ > 0 then { s with delay_timer_ := s.delay_timer_ - 1 } else s

/-- The statement `if (sound_timer_ > 0) { std::cout << '\a'; sound_timer_--; }`. -/
def tickSound (s : Chip8) : Chip8 :=
  if s.sound_timer_ > 0 then
    { s with beeps := s.beeps + 1, sound_timer_ := s.sound_timer_ - 1 }
  else s

/-- The two timer updates that end `Chip8::Step`. -/
def updateTimers (s : Chip8) : Chip8 :=
  tickSound (tickDelay s)

/-- The 16-bit word `mem[a] << 8u | mem[a + 1]`. -/
def wordAt (mem : Nat → Nat) (a : Nat) : Nat :=
  (mem a <<< 8 ||| mem (a + 1)) % 65536

/-- The word `mem_[pc_] << 8u | mem_[pc_ + 1]` assigned to `opcode_`. -/
def fetch (s : Chip8) : Nat :=
  wordAt s.mem_ s.pc_

/-- The function `Chip8::Step`. -/
def Step (s : Chip8) : Except Fault Chip8 :=
  if s.pc_ + 1 < MEMORY_LIMIT then
    match execute { s with opcode_ := fetch s } with
    | .ok s1 => .ok (updateTimers s1)
    | .error e => .error e
  else .error .outOfBounds

/-- Repeated calls of `Step` with no key event in between, as the host loop makes them; the
first fault ends the run. -/
def steps : Nat → Chip8 → Except Fault Chip8
  | 0, s => .ok s
  | n + 1, s =>
      match Step s with
      | .ok s1 => steps n s1
      | .error e => .error e

/-! ## Concrete machines used to instantiate the theorems -/

/-- A machine whose members are all zero, standing for the members before the constructor
runs `Reset`. -/
def blank : Chip8 :=
  { keys_ := fun _ => false, gfx_ := fun _ => 0, stack_ := fun _ => 0, mem_ := fun _ => 0,
    V_ := fun _ => 0, I_ := 0, sp_ := 0, pc_ := 0, opcode_ := 0, delay_timer_ := 0,
    sound_timer_ := 0, rng_ := fun _ => 0, should_redraw_ := false, beeps := 0 }

/-- The machine after the ROM `rom` has been loaded into a freshly constructed interpreter. -/
def loaded (rom : List Nat) : Chip8 :=
  (Load (fun _ => 0) (some rom) (Reset (fun _ => 0) blank)).2

/-! ## Classification of instruction words -/

/-- The words that are no instruction: family `0` with a low byte other than `E0`, `EE`; family
`8` with a low nibble other than `0`-`7`, `E`; family `E` with a low byte other than `9E`,
`A1`; family `F` with a low byte other than `07`, `0A`, `15`, `18`, `1E`, `29`, `33`, `55`,
`65`. -/
def undefinedWord (w : Nat) : Prop :=
  (w / 4096 = 0x0 ∧ w % 256 ∉ [0xE0, 0xEE]) ∨
  (w / 4096 = 0x8 ∧ w % 16 ∉ [0x0, 0x1, 0x2, 0x3, 0x4, 0x5, 0x6, 0x7, 0xE]) ∨
  (w / 4096 = 0xE ∧ w % 256 ∉ [0x9E, 0xA1]) ∨
  (w / 4096 = 0xF ∧ w % 256 ∉ [0x07, 0x0A, 0x15, 0x18, 0x1E, 0x29, 0x33, 0x55, 0x65])

instance : DecidablePred undefinedWord :=
  fun w => by unfold undefinedWord; infer_instance

/-- The body that `execute` runs on `s`, by the family and subfamily of `s.opcode_`. -/
inductive Decoded (s : Chip8) : Except Fault Chip8 → Prop
  | i00E0 : s.opcode_ / 4096 = 0x0 → s.opcode_ % 256 = 0xE0 → Decoded s (op_00E0 s)
  | i00EE : s.opcode_ / 4096 = 0x0 → s.opcode_ % 256 = 0xEE → Decoded s (op_00EE s)
  | i1NNN : s.opcode_ / 4096 = 0x1 → Decoded s (op_1NNN (s.opcode_ % 4096) s)
  | i2NNN : s.opcode_ / 4096 = 0x2 → Decoded s (op_2NNN (s.opcode_ % 4096) s)
  | i3XNN : s.opcode_ / 4096 = 0x3 →
      Decoded s (op_3XNN (s.opcode_ / 256 % 16) (s.opcode_ % 256) s)
  | i4XNN : s.opcode_ / 4096 = 0x4 →
      Decoded s (op_4XNN (s.opcode_ / 256 % 16) (s.opcode_ % 256) s)
  | i5XY0 : s.opcode_ / 4096 = 0x5 →
      Decoded s (op_5XY0 (s.opcode_ / 256 % 16) (s.opcode_ / 16 % 16) s)
  | i6XNN : s.opcode_ / 4096 = 0x6 →
      Decoded s (op_6XNN (s.opcode_ / 256 % 16) (s.opcode_ % 256) s)
  | i7XNN : s.opcode_ / 4096 = 0x7 →
      Decoded s (op_7XNN (s.opcode_ / 256 % 16) (s.opcode_ % 256) s)
  | i8XY0 : s.opcode_ / 4096 = 0x8 → s.opcode_ % 16 = 0x0 →
      Decoded s (op_8XY0 (s.opcode_ / 256 % 16) (s.opcode_ / 16 % 16) s)
  | i8XY1 : s.opcode_ / 4096 = 0x8 → s.opcode_ % 16 = 0x1 →
      Decoded s (op_8XY1 (s.opcode_ / 256 % 16) (s.opcode_ / 16 % 16) s)
  | i8XY2 : s.opcode_ / 4096 = 0x8 → s.opcode_ % 16 = 0x2 →
      Decoded s (op_8XY2 (s.opcode_ / 256 % 16) (s.opcode_ / 16 % 16) s)
  | i8XY3 : s.opcode_ / 4096 = 0x8 → s.opcode_ % 16 = 0x3 →
      Decoded s (op_8XY3 (s.opcode_ / 256 % 16) (s.opcode_ / 16 % 16) s)
  | i8XY4 : s.opcode_ / 4096 = 0x8 → s.opcode_ % 16 = 0x4 →
      Decoded s (op_8XY4 (s.opcode_ / 256 % 16) (s.opcode_ / 16 % 16) s)
  | i8XY5 : s.opcode_ / 4096 = 0x8 → s.opcode_ % 16 = 0x5 →
      Decoded s (op_8XY5 (s.opcode_ / 256 % 16) (s.opcode_ / 16 % 16) s)
  | i8XY6 : s.opcode_ / 4096 = 0x8 → s.opcode_ % 16 = 0x6 →
      Decoded s (op_8XY6 (s.opcode_ / 256 % 16) s)
  | i8XY7 : s.opcode_ / 4096 = 0x8 → s.opcode_ % 16 = 0x7 →
      Decoded s (op_8XY7 (s.opcode_ / 256 % 16) (s.opcode_ / 16 % 16) s)
  | i8XYE : s.opcode_ / 4096 = 0x8 → s.opcode_ % 16 = 0xE →
      Decoded s (op_8XYE (s.opcode_ / 256 % 16) s)
  | i9XY0 : s.opcode_ / 4096 = 0x9 →
      Decoded s (op_9XY0 (s.opcode_ / 256 % 16) (s.opcode_ / 16 % 16) s)
  | iANNN : s.opcode_ / 4096 = 0xA → Decoded s (op_ANNN (s.opcode_ % 4096) s)
  | iBNNN : s.opcode_ / 4096 = 0xB → Decoded s (op_BNNN (s.opcode_ % 4096) s)
  | iCXNN : s.opcode_ / 4096 = 0xC →
      Decoded s (op_CXNN (s.opcode_ / 256 % 16) (s.opcode_ % 256) s)
  | iDXYN : s.opcode_ / 4096 = 0xD →
      Decoded s (op_DXYN (s.opcode_ / 256 % 16) (s.opcode_ / 16 % 16) (s.opcode_ % 16) s)
  | iEX9E : s.opcode_ / 4096 = 0xE → s.opcode_ % 256 = 0x9E →
      Decoded s (op_EX9E (s.opcode_ / 256 % 16) s)
  | iEXA1 : s.opcode_ / 4096 = 0xE → s.opcode_ % 256 = 0xA1 →
      Decoded s (op_EXA1 (s.opcode_ / 256 % 16) s)
  | iFX07 : s.opcode_ / 4096 = 0xF → s.opcode_ % 256 = 0x07 →
      Decoded s (op_FX07 (s.opcode_ / 256 % 16) s)
  | iFX0A : s.opcode_ / 4096 = 0xF → s.opcode_ % 256 = 0x0A →
      Decoded s (op_FX0A (s.opcode_ / 256 % 16) s)
  | iFX15 : s.opcode_ / 4096 = 0xF → s.opcode_ % 256 = 0x15 →
      Decoded s (op_FX15 (s.opcode_ / 256 % 16) s)
  | iFX18 : s.opcode_ / 4096 = 0xF → s.opcode_ % 256 = 0x18 →
      Decoded s (op_FX18 (s.opcode_ / 256 % 16) s)
  | iFX1E : s.opcode_ / 4096 = 0xF → s.opcode_ % 256 = 0x1E →
      Decoded s (op_FX1E (s.opcode_ / 256 % 16) s)
  | iFX29 : s.opcode_ / 4096 = 0xF → s.opcode_ % 256 = 0x29 →
      Decoded s (op_FX29 (s.opcode_ / 256 % 16) s)
  | iFX33 : s.opcode_ / 4096 = 0xF → s.opcode_ % 256 = 0x33 →
      Decoded s (op_FX33 (s.opcode_ / 256 % 16) s)
  | iFX55 : s.opcode_ / 4096 = 0xF → s.opcode_ % 256 = 0x55 → Decoded s (op_FX55 s)
  | iFX65 : s.opcode_ / 4096 = 0xF → s.opcode_ % 256 = 0x65 → Decoded s (op_FX65 s)
  | undefined : undefinedWord s.opcode_ → Decoded s (.error .unimplemented)

/-- The machine `loaded rom` with the registers `V0`, `V1`, ... set to the values `regs`. -/
def machine (rom regs : List Nat) : Chip8 :=
  { loaded rom with V_ := fun i => regs.getD i 0 }

/-- The registers, `I_`, the memory, the stack and the frame buffer of `s1` are those of
`s`. -/
def sameData (s s1 : Chip8) : Prop :=
  s1.V_ = s.V_ ∧ s1.I_ = s.I_ ∧ s1.mem_ = s.mem_ ∧ s1.stack_ = s.stack_ ∧ s1.gfx_ = s.gfx_

/-- The machine `s` with exactly the keys `ks` held down. -/
def withKeys (ks : List Nat) (s : Chip8) : Chip8 :=
  { s with keys_ := fun k => ks.contains k }

/-- The machine `s` with the delay timer set to `d` and the sound timer to `t`. -/
def withTimers (d t : Nat) (s : Chip8) : Chip8 :=
  { s with delay_timer_ := d, sound_timer_ := t }

/-! ## One sprite row as a function of the frame buffer -/

/-- The state `s` with frame buffer `g` and registers `v`. -/
def drawn (s : Chip8) (g v : Nat → Nat) : Chip8 :=
  { s with gfx_ := g, V_ := v }

/-- The frame buffer `g` after the first `n` columns of a sprite row with byte `pixel` have
been drawn from flat index `base`. -/
def rowGfx (g : Nat → Nat) (base pixel n : Nat) : Nat → Nat :=
  fun k => if base ≤ k ∧ k < base + n ∧ pixel &&& (0x80 >>> (k - base)) ≠ 0
    then (g k ^^^ 1) % 256 else g k

/-- The registers `v` after the first `n` columns of a sprite row with byte `pixel` have been
drawn from flat index `base` onto the frame buffer `g`. -/
def rowV (v g : Nat → Nat) (base pixel n : Nat) : Nat → Nat :=
  if ∃ xl, xl < n ∧ pixel &&& (0x80 >>> xl) ≠ 0 ∧ g (base + xl) = 1 then store v 0xF 1 else v

/-- The machine `s` with the address register set to `i`. -/
def withI (i : Nat) (s : Chip8) : Chip8 :=
  { s with I_ := i }

/-! ## A whole sprite as a function of the frame buffer -/

/-- The frame buffer `g` after the first `n` rows of the sprite at `mem[I ..]` have been drawn
from the origin `(x, y)`. -/
def spriteGfx (g : Nat → Nat) (x y : Nat) (mem : Nat → Nat) (I : Nat) : Nat → (Nat → Nat)
  | 0 => g
  | n + 1 => rowGfx (spriteGfx g x y mem I n) (x + (y + n) * 64) (mem (I + n)) 8

/-- The registers `v` after the first `n` rows of the sprite at `mem[I ..]` have been drawn
from the origin `(x, y)` onto the frame buffer `g`. -/
def spriteV (v g : Nat → Nat) (x y : Nat) (mem : Nat → Nat) (I : Nat) : Nat → (Nat → Nat)
  | 0 => v
  | n + 1 => rowV (spriteV v g x y mem I n) (spriteGfx g x y mem I n) (x + (y + n) * 64)
      (mem (I + n)) 8

/-- The flat index `k` is a pixel of the sprite that `DXYN` draws in state `s`: it is
`x + c + 64 * (y + r)` for a row `r < N` and a column `c < 8` whose bit `7 - c` of `mem[I + r]`
is set, where `x = V[X]` and `y = V[Y]`. -/
def spritePixel (s : Chip8) (X Y N k : Nat) : Prop :=
  ∃ r c, r < N ∧ c < 8 ∧ k = s.V_ X + c + 64 * (s.V_ Y + r) ∧
    (s.mem_ (s.I_ + r)).testBit (7 - c) = true

/-- The flat index `k` lies in row `r` of the sprite at `mem[I ..]` drawn from `(x, y)`, on a
column whose sprite bit is set. -/
def rowPixel (x y : Nat) (mem : Nat → Nat) (I r k : Nat) : Prop :=
  x + (y + r) * 64 ≤ k ∧ k < x + (y + r) * 64 + 8 ∧
    mem (I + r) &&& (0x80 >>> (k - (x + (y + r) * 64))) ≠ 0

/-- Register contents with `V0 = v0`, `VF = vf` and every other register 0. -/
def flagRegs (v0 vf : Nat) : List Nat :=
  [v0, 0, 0, 0, 0, 0, 0, 0, 0, 0, 0, 0, 0, 0, 0, vf]

/-! # Theorems -/

/-! ## Facts about `store`, `copy` and `copy_n` -/

theorem store_same {α : Type} (a : Nat → α) (i : Nat) (v : α) : store a i v i = v := by
  simp [store]

theorem store_other {α : Type} (a : Nat → α) (i j : Nat) (v : α) (h : j ≠ i) :
    store a i v j = a j := by
  simp [store, h]

theorem copy_below (l : List Nat) :
    ∀ (dst : Nat → Nat) (r a : Nat), a < r → copy l dst r a = dst a := by
  induction l with
  | nil => intro dst r a _; rfl
  | cons b bs ih =>
    intro dst r a h
    rw [copy, ih _ _ _ (by omega)]
    exact store_other _ _ _ _ (by omega)

theorem copy_above (l : List Nat) :
    ∀ (dst : Nat → Nat) (r a : Nat), r + l.length ≤ a → copy l dst r a = dst a := by
  induction l with
  | nil => intro dst r a _; rfl
  | cons b bs ih =>
    intro dst r a h
    simp only [List.length_cons] at h
    rw [copy, ih _ _ _ (by omega)]
    exact store_other _ _ _ _ (by omega)

theorem copy_at (l : List Nat) :
    ∀ (dst : Nat → Nat) (r i : Nat) (hi : i < l.length), copy l dst r (r + i) = l[i] := by
  induction l with
  | nil => intro dst r i hi; simp at hi
  | cons b bs ih =>
    intro dst r i hi
    rw [copy]
    cases i with
    | zero =>
      rw [Nat.add_zero, copy_below _ _ _ _ (by omega)]
      simp [store]
    | succ j =>
      simp only [List.length_cons] at hi
      have := ih (store dst r b) (r + 1) j (by omega)
      rw [show r + (j + 1) = r + 1 + j by omega, this]
      simp

/-! ## Program loading -/

/-- Claim C1: a ROM of at most 3584 bytes read from a file that opens is loaded: `Load`
returns true, `pc_` is `0x200`, the ROM bytes lie verbatim from address `0x200`, the 80 bytes
from address 0 are the font, and all other memory bytes, all registers, `I_`, `sp_`, all stack
slots and both timers are zero. -/
theorem C1_load_success (rd : Nat → Nat) (s : Chip8) (b : List Nat) (hb : b.length ≤ 3584) :
    ∃ s1, Load rd (some b) s = (true, s1) ∧
      s1.pc_ = 0x200 ∧
      (∀ i (hi : i < b.length), s1.mem_ (0x200 + i) = b[i]) ∧
      (∀ a, a < 80 → FONTSET[a]? = some (s1.mem_ a)) ∧
      (∀ a, 80 ≤ a → a < 0x200 → s1.mem_ a = 0) ∧
      (∀ a, 0x200 + b.length ≤ a → a < 4096 → s1.mem_ a = 0) ∧
      (∀ i, i < 16 → s1.V_ i = 0) ∧ s1.I_ = 0 ∧ s1.sp_ = 0 ∧
      (∀ i, i < 16 → s1.stack_ i = 0) ∧
      s1.delay_timer_ = 0 ∧ s1.sound_timer_ = 0 := by
  have hlen : ¬ b.length > MEMORY_LIMIT - ROM_LOCATION := by
    simp only [MEMORY_LIMIT, ROM_LOCATION]; omega
  have hfont : FONTSET.length = 80 := rfl
  refine ⟨{ Reset rd s with mem_ := copy b (Reset rd s).mem_ ROM_LOCATION },
    by simp only [Load, hlen, if_false], rfl, ?_, ?_, ?_, ?_, ?_, rfl, rfl, ?_, rfl, rfl⟩
  · intro i hi
    exact copy_at b _ ROM_LOCATION i hi
  · intro a ha
    show FONTSET[a]? = some (copy b (copy FONTSET (fun _ => 0) 0) ROM_LOCATION a)
    rw [copy_below b _ _ _ (by simp only [ROM_LOCATION]; omega)]
    have h := copy_at FONTSET (fun _ => 0) 0 a (by omega)
    rw [Nat.zero_add] at h
    rw [h]
    exact List.getElem?_eq_getElem (by omega)
  · intro a h1 h2
    show copy b (copy FONTSET (fun _ => 0) 0) ROM_LOCATION a = 0
    rw [copy_below b _ _ _ (by simp only [ROM_LOCATION]; omega),
      copy_above FONTSET _ _ _ (by omega)]
  · intro a h1 h2
    show copy b (copy FONTSET (fun _ => 0) 0) ROM_LOCATION a = 0
    rw [copy_above b _ _ _ (by simp only [ROM_LOCATION]; omega),
      copy_above FONTSET _ _ _ (by omega)]
  · intro i _; rfl
  · intro i _; rfl

/-- Instance of C1 at the two-byte ROM `[0x00, 0xE0]` loaded into a fresh machine. -/
theorem C1_load_success_witness :
    [0x00, 0xE0].length ≤ 3584 ∧
    ∃ s1, Load (fun _ => 0) (some [0x00, 0xE0]) blank = (true, s1) ∧
      s1.pc_ = 0x200 ∧
      (∀ i (hi : i < [0x00, 0xE0].length), s1.mem_ (0x200 + i) = [0x00, 0xE0][i]) ∧
      (∀ a, a < 80 → FONTSET[a]? = some (s1.mem_ a)) ∧
      (∀ a, 80 ≤ a → a < 0x200 → s1.mem_ a = 0) ∧
      (∀ a, 0x200 + [0x00, 0xE0].length ≤ a → a < 4096 → s1.mem_ a = 0) ∧
      (∀ i, i < 16 → s1.V_ i = 0) ∧ s1.I_ = 0 ∧ s1.sp_ = 0 ∧
      (∀ i, i < 16 → s1.stack_ i = 0) ∧
      s1.delay_timer_ = 0 ∧ s1.sound_timer_ = 0 :=
  ⟨by decide, C1_load_success (fun _ => 0) blank [0x00, 0xE0] (by decide)⟩

/-- Claim C2: for a ROM of more than 3584 bytes and any starting state, `Load` returns false
and its state is the one `Reset` produces: no byte of the ROM reaches memory. -/
theorem C2_load_oversized (rd : Nat → Nat) (s : Chip8) (b : List Nat) (hb : b.length > 3584) :
    Load rd (some b) s = (false, Reset rd s) := by
  have hlen : b.length > MEMORY_LIMIT - ROM_LOCATION := by
    simp only [MEMORY_LIMIT, ROM_LOCATION]; omega
  simp only [Load, hlen, if_true]

/-- Instance of C2 at a ROM of 3585 zero bytes. -/
theorem C2_load_oversized_witness :
    (List.replicate 3585 0).length > 3584 ∧
    Load (fun _ => 0) (some (List.replicate 3585 0)) blank = (false, Reset (fun _ => 0) blank) :=
  ⟨by simp only [List.length_replicate]; decide,
    C2_load_oversized (fun _ => 0) blank (List.replicate 3585 0)
      (by simp only [List.length_replicate]; decide)⟩

/-! ## Decoding -/

theorem shiftRight_and (a b k : Nat) : (a &&& b) >>> k = a >>> k &&& b >>> k := by
  apply Nat.eq_of_testBit_eq
  intro i
  simp

theorem and_F000 (w : Nat) (h : w < 65536) : w &&& 0xF000 = w / 4096 * 4096 := by
  have h1 : (w &&& 0xF000) >>> 12 = w / 4096 % 16 := by
    rw [shiftRight_and]
    show w >>> 12 &&& (2 ^ 4 - 1) = _
    rw [Nat.and_pow_two_sub_one_eq_mod, Nat.shiftRight_eq_div_pow]
  have h2 : (w &&& 0xF000) % 4096 = 0 := by
    have h3 : (w &&& 0xF000) % 2 ^ 12 = (w &&& 0xF000) &&& (2 ^ 12 - 1) :=
      (Nat.and_pow_two_sub_one_eq_mod _ _).symm
    rw [Nat.and_assoc] at h3
    have e : (0xF000 &&& (2 ^ 12 - 1) : Nat) = 0 := by decide
    rw [e, Nat.and_zero] at h3
    simpa using h3
  rw [Nat.shiftRight_eq_div_pow] at h1
  omega

theorem and_0F00 (w : Nat) : (w &&& 0x0F00) >>> 8 = w / 256 % 16 := by
  rw [shiftRight_and]
  show w >>> 8 &&& (2 ^ 4 - 1) = _
  rw [Nat.and_pow_two_sub_one_eq_mod, Nat.shiftRight_eq_div_pow]

theorem and_00F0 (w : Nat) : (w &&& 0x00F0) >>> 4 = w / 16 % 16 := by
  rw [shiftRight_and]
  show w >>> 4 &&& (2 ^ 4 - 1) = _
  rw [Nat.and_pow_two_sub_one_eq_mod, Nat.shiftRight_eq_div_pow]

theorem and_0FFF (w : Nat) : w &&& 0x0FFF = w % 4096 :=
  Nat.and_pow_two_sub_one_eq_mod w 12

theorem and_00FF (w : Nat) : w &&& 0x00FF = w % 256 :=
  Nat.and_pow_two_sub_one_eq_mod w 8

theorem and_000F (w : Nat) : w &&& 0x000F = w % 16 :=
  Nat.and_pow_two_sub_one_eq_mod w 4

theorem wordAt_lt (mem : Nat → Nat) (a : Nat) : wordAt mem a < 65536 :=
  Nat.mod_lt _ (by decide)

theorem fetch_lt (s : Chip8) : fetch s < 65536 :=
  wordAt_lt _ _

theorem dispatch0_decoded (s : Chip8) (ht : s.opcode_ / 4096 = 0) :
    Decoded s (dispatch0 (s.opcode_ % 256) s) := by
  unfold dispatch0
  by_cases h1 : s.opcode_ % 256 = 0xE0
  · rw [if_pos h1]; exact .i00E0 ht h1
  rw [if_neg h1]
  by_cases h2 : s.opcode_ % 256 = 0xEE
  · rw [if_pos h2]; exact .i00EE ht h2
  rw [if_neg h2]
  exact .undefined (Or.inl ⟨ht, by simp [h1, h2]⟩)

theorem dispatch8_decoded (s : Chip8) (ht : s.opcode_ / 4096 = 8) :
    Decoded s (dispatch8 (s.opcode_ / 256 % 16) (s.opcode_ / 16 % 16) (s.opcode_ % 16) s) := by
  unfold dispatch8
  by_cases h0 : s.opcode_ % 16 = 0x0
  · rw [if_pos h0]; exact .i8XY0 ht h0
  rw [if_neg h0]
  by_cases h1 : s.opcode_ % 16 = 0x1
  · rw [if_pos h1]; exact .i8XY1 ht h1
  rw [if_neg h1]
  by_cases h2 : s.opcode_ % 16 = 0x2
  · rw [if_pos h2]; exact .i8XY2 ht h2
  rw [if_neg h2]
  by_cases h3 : s.opcode_ % 16 = 0x3
  · rw [if_pos h3]; exact .i8XY3 ht h3
  rw [if_neg h3]
  by_cases h4 : s.opcode_ % 16 = 0x4
  · rw [if_pos h4]; exact .i8XY4 ht h4
  rw [if_neg h4]
  by_cases h5 : s.opcode_ % 16 = 0x5
  · rw [if_pos h5]; exact .i8XY5 ht h5
  rw [if_neg h5]
  by_cases h6 : s.opcode_ % 16 = 0x6
  · rw [if_pos h6]; exact .i8XY6 ht h6
  rw [if_neg h6]
  by_cases h7 : s.opcode_ % 16 = 0x7
  · rw [if_pos h7]; exact .i8XY7 ht h7
  rw [if_neg h7]
  by_cases hE : s.opcode_ % 16 = 0xE
  · rw [if_pos hE]; exact .i8XYE ht hE
  rw [if_neg hE]
  exact .undefined (Or.inr (Or.inl ⟨ht, by simp [h0, h1, h2, h3, h4, h5, h6, h7, hE]⟩))


theorem dispatchE_decoded (s : Chip8) (ht : s.opcode_ / 4096 = 0xE) :
    Decoded s (dispatchE (s.opcode_ / 256 % 16) (s.opcode_ % 256) s) := by
  unfold dispatchE
  by_cases h1 : s.opcode_ % 256 = 0x9E
  · rw [if_pos h1]; exact .iEX9E ht h1
  rw [if_neg h1]
  by_cases h2 : s.opcode_ % 256 = 0xA1
  · rw [if_pos h2]; exact .iEXA1 ht h2
  rw [if_neg h2]
  exact .undefined (Or.inr (Or.inr (Or.inl ⟨ht, by simp [h1, h2]⟩)))

theorem dispatchF_decoded (s : Chip8) (ht : s.opcode_ / 4096 = 0xF) :
    Decoded s (dispatchF (s.opcode_ / 256 % 16) (s.opcode_ % 256) s) := by
  unfold dispatchF
  by_cases h1 : s.opcode_ % 256 = 0x07
  · rw [if_pos h1]; exact .iFX07 ht h1
  rw [if_neg h1]
  by_cases h2 : s.opcode_ % 256 = 0x0A
  · rw [if_pos h2]; exact .iFX0A ht h2
  rw [if_neg h2]
  by_cases h3 : s.opcode_ % 256 = 0x15
  · rw [if_pos h3]; exact .iFX15 ht h3
  rw [if_neg h3]
  by_cases h4 : s.opcode_ % 256 = 0x18
  · rw [if_pos h4]; exact .iFX18 ht h4
  rw [if_neg h4]
  by_cases h5 : s.opcode_ % 256 = 0x1E
  · rw [if_pos h5]; exact .iFX1E ht h5
  rw [if_neg h5]
  by_cases h6 : s.opcode_ % 256 = 0x29
  · rw [if_pos h6]; exact .iFX29 ht h6
  rw [if_neg h6]
  by_cases h7 : s.opcode_ % 256 = 0x33
  · rw [if_pos h7]; exact .iFX33 ht h7
  rw [if_neg h7]
  by_cases h8 : s.opcode_ % 256 = 0x55
  · rw [if_pos h8]; exact .iFX55 ht h8
  rw [if_neg h8]
  by_cases h9 : s.opcode_ % 256 = 0x65
  · rw [if_pos h9]; exact .iFX65 ht h9
  rw [if_neg h9]
  exact .undefined (Or.inr (Or.inr (Or.inr
    ⟨ht, by simp [h1, h2, h3, h4, h5, h6, h7, h8, h9]⟩)))

theorem dispatch_fam0 (X Y NNN NN N : Nat) (s : Chip8) :
    dispatch (0 * 4096) X Y NNN NN N s = dispatch0 NN s := by
  unfold dispatch
  exact if_pos rfl

theorem dispatch_fam1 (X Y NNN NN N : Nat) (s : Chip8) :
    dispatch (1 * 4096) X Y NNN NN N s = op_1NNN NNN s := rfl

theorem dispatch_fam2 (X Y NNN NN N : Nat) (s : Chip8) :
    dispatch (2 * 4096) X Y NNN NN N s = op_2NNN NNN s := rfl

theorem dispatch_fam3 (X Y NNN NN N : Nat) (s : Chip8) :
    dispatch (3 * 4096) X Y NNN NN N s = op_3XNN X NN s := rfl

theorem dispatch_fam4 (X Y NNN NN N : Nat) (s : Chip8) :
    dispatch (4 * 4096) X Y NNN NN N s = op_4XNN X NN s := rfl

theorem dispatch_fam5 (X Y NNN NN N : Nat) (s : Chip8) :
    dispatch (5 * 4096) X Y NNN NN N s = op_5XY0 X Y s := rfl

theorem dispatch_fam6 (X Y NNN NN N : Nat) (s : Chip8) :
    dispatch (6 * 4096) X Y NNN NN N s = op_6XNN X NN s := rfl

theorem dispatch_fam7 (X Y NNN NN N : Nat) (s : Chip8) :
    dispatch (7 * 4096) X Y NNN NN N s = op_7XNN X NN s := rfl

theorem dispatch_fam8 (X Y NNN NN N : Nat) (s : Chip8) :
    dispatch (8 * 4096) X Y NNN NN N s = dispatch8 X Y N s := rfl

theorem dispatch_fam9 (X Y NNN NN N : Nat) (s : Chip8) :
    dispatch (9 * 4096) X Y NNN NN N s = op_9XY0 X Y s := rfl

theorem dispatch_famA (X Y NNN NN N : Nat) (s : Chip8) :
    dispatch (10 * 4096) X Y NNN NN N s = op_ANNN NNN s := rfl

theorem dispatch_famB (X Y NNN NN N : Nat) (s : Chip8) :
    dispatch (11 * 4096) X Y NNN NN N s = op_BNNN NNN s := rfl

theorem dispatch_famC (X Y NNN NN N : Nat) (s : Chip8) :
    dispatch (12 * 4096) X Y NNN NN N s = op_CXNN X NN s := rfl

theorem dispatch_famD (X Y NNN NN N : Nat) (s : Chip8) :
    dispatch (13 * 4096) X Y NNN NN N s = op_DXYN X Y N s := rfl

theorem dispatch_famE (X Y NNN NN N : Nat) (s : Chip8) :
    dispatch (14 * 4096) X Y NNN NN N s = dispatchE X NN s := rfl

theorem dispatch_famF (X Y NNN NN N : Nat) (s : Chip8) :
    dispatch (15 * 4096) X Y NNN NN N s = dispatchF X NN s := rfl

/-- Every run of `execute` on a 16-bit word is the run of the body of one `case` label, or of
an `assert(false)` for a word that is no instruction. -/
theorem execute_decoded (s : Chip8) (hw : s.opcode_ < 65536) : Decoded s (execute s) := by
  unfold execute
  rw [and_F000 _ hw, and_0F00, and_00F0, and_0FFF, and_00FF, and_000F]
  obtain ⟨t, ht⟩ : ∃ t, s.opcode_ / 4096 = t := ⟨_, rfl⟩
  have htlt : t < 16 := by omega
  rw [ht]
  interval_cases t
  · rw [dispatch_fam0]; exact dispatch0_decoded s ht
  · rw [dispatch_fam1]; exact .i1NNN ht
  · rw [dispatch_fam2]; exact .i2NNN ht
  · rw [dispatch_fam3]; exact .i3XNN ht
  · rw [dispatch_fam4]; exact .i4XNN ht
  · rw [dispatch_fam5]; exact .i5XY0 ht
  · rw [dispatch_fam6]; exact .i6XNN ht
  · rw [dispatch_fam7]; exact .i7XNN ht
  · rw [dispatch_fam8]; exact dispatch8_decoded s ht
  · rw [dispatch_fam9]; exact .i9XY0 ht
  · rw [dispatch_famA]; exact .iANNN ht
  · rw [dispatch_famB]; exact .iBNNN ht
  · rw [dispatch_famC]; exact .iCXNN ht
  · rw [dispatch_famD]; exact .iDXYN ht
  · rw [dispatch_famE]; exact dispatchE_decoded s ht
  · rw [dispatch_famF]; exact dispatchF_decoded s ht

theorem Step_eq (s : Chip8) (hpc : s.pc_ + 1 < 4096) :
    Step s = match execute { s with opcode_ := fetch s } with
      | .ok s1 => .ok (updateTimers s1)
      | .error e => .error e := by
  unfold Step
  rw [if_pos (by simpa only [MEMORY_LIMIT] using hpc)]

/-! ## Faults -/

theorem foldlM_fault {α : Type} (f : Chip8 → α → Except Fault Chip8)
    (hf : ∀ s a e, f s a = .error e → e = .outOfBounds) :
    ∀ (l : List α) (s : Chip8) (e : Fault), l.foldlM f s = .error e → e = .outOfBounds := by
  intro l
  induction l with
  | nil => intro s e h; simp [List.foldlM, pure, Except.pure] at h
  | cons a l ih =>
    intro s e h
    rw [List.foldlM_cons] at h
    cases hfa : f s a with
    | error e1 =>
      rw [hfa] at h
      simp only [bind, Except.bind] at h
      cases h
      exact hf s a e hfa
    | ok s1 =>
      rw [hfa] at h
      exact ih s1 e h

theorem drawPixel_fault (X Y yl pixel : Nat) (s : Chip8) (xl : Nat) (e : Fault)
    (h : drawPixel X Y yl pixel s xl = .error e) : e = .outOfBounds := by
  unfold drawPixel at h
  split_ifs at h
  cases h; rfl

theorem drawRow_fault (X Y : Nat) (s : Chip8) (yl : Nat) (e : Fault)
    (h : drawRow X Y s yl = .error e) : e = .outOfBounds := by
  unfold drawRow at h
  split_ifs at h
  · exact foldlM_fault _ (fun s a e => drawPixel_fault X Y yl _ s a e) _ _ _ h
  · cases h; rfl

theorem drawSprite_fault (X Y N : Nat) (s : Chip8) (e : Fault)
    (h : drawSprite X Y N s = .error e) : e = .outOfBounds :=
  foldlM_fault _ (drawRow_fault X Y) _ _ _ h

theorem op_DXYN_fault (X Y N : Nat) (s : Chip8) (e : Fault)
    (h : op_DXYN X Y N s = .error e) : e = .outOfBounds := by
  unfold op_DXYN at h
  split at h
  · cases h
  · next e1 h1 => cases h; exact drawSprite_fault _ _ _ _ _ h1

theorem decoded_unimplemented (s : Chip8) (r : Except Fault Chip8) (h : Decoded s r) :
    r = .error .unimplemented ↔ undefinedWord s.opcode_ := by
  cases h
  case undefined h => simp [h]
  case iDXYN h =>
    constructor
    · intro h1; have := op_DXYN_fault _ _ _ _ _ h1; cases this
    · intro h1; simp [undefinedWord, h] at h1
  case iFX0A h1 h2 =>
    unfold op_FX0A
    constructor
    · intro h; split_ifs at h; split at h <;> cases h
    · intro h; simp [undefinedWord, h1, h2] at h
  all_goals
    simp [undefinedWord, op_00E0, op_00EE, op_1NNN, op_2NNN, op_3XNN, op_4XNN, op_5XY0, op_6XNN,
      op_7XNN, op_8XY0, op_8XY1, op_8XY2, op_8XY3, op_8XY4, op_8XY5, op_8XY6, op_8XY7, op_8XYE,
      op_9XY0, op_ANNN, op_BNNN, op_CXNN, op_EX9E, op_EXA1, op_FX07, op_FX15, op_FX18,
      op_FX1E, op_FX29, op_FX33, op_FX55, op_FX65, *]
  all_goals split_ifs <;> simp

/-- Claim C3: `Step` ends in the `assert(false)` fault exactly when a word is fetched and that
word is in no defined family or subfamily (family 0 with low byte outside E0, EE; family 8
with low nibble outside 0-7, E; family E with low byte outside 9E, A1; family F with low byte
outside 07, 0A, 15, 18, 1E, 29, 33, 55, 65); the words of the families 1-7, 9 and A-D never
reach that fault. -/
theorem C3_unimplemented_iff (s : Chip8) :
    (Step s = .error .unimplemented ↔ s.pc_ + 1 < 4096 ∧ undefinedWord (fetch s)) ∧
    (fetch s / 4096 ∈ [0x1, 0x2, 0x3, 0x4, 0x5, 0x6, 0x7, 0x9, 0xA, 0xB, 0xC, 0xD] →
      Step s ≠ .error .unimplemented) := by
  have key : Step s = .error .unimplemented ↔ s.pc_ + 1 < 4096 ∧ undefinedWord (fetch s) := by
    by_cases hpc : s.pc_ + 1 < 4096
    · rw [Step_eq s hpc]
      have hd := decoded_unimplemented _ _ (execute_decoded { s with opcode_ := fetch s }
        (fetch_lt s))
      simp only [hpc, true_and]
      rw [← hd]
      cases execute { s with opcode_ := fetch s } with
      | ok s1 => simp
      | error e => simp
    · unfold Step
      rw [if_neg (by simpa only [MEMORY_LIMIT] using hpc)]
      simp [hpc]
  refine ⟨key, ?_⟩
  intro hfam hstep
  have hu := (key.mp hstep).2
  unfold undefinedWord at hu
  simp only [List.mem_cons, List.mem_singleton, List.not_mem_nil, or_false] at hfam
  omega

/-- Instances of C3: the word `8018` is fetched and faults, the word `1200` is fetched and does
not. -/
theorem C3_unimplemented_iff_witness :
    Step (loaded [0x80, 0x18]) = .error .unimplemented ∧
    Step (loaded [0x12, 0x00]) ≠ .error .unimplemented :=
  ⟨(C3_unimplemented_iff (loaded [0x80, 0x18])).1.mpr ⟨by decide, by decide⟩,
   (C3_unimplemented_iff (loaded [0x12, 0x00])).2 (by decide)⟩

/-! ## Executing a given word -/

theorem execute_nibbles (s : Chip8) (a b c d : Nat) (ha : a < 16) (hb : b < 16) (hc : c < 16)
    (hd : d < 16) (h : s.opcode_ = a * 4096 + b * 256 + c * 16 + d) :
    execute s = dispatch (a * 4096) b c (b * 256 + c * 16 + d) (c * 16 + d) d s := by
  unfold execute
  rw [and_F000 _ (by omega), and_0F00, and_00F0, and_0FFF, and_00FF, and_000F]
  rw [show s.opcode_ / 4096 * 4096 = a * 4096 by omega, show s.opcode_ / 256 % 16 = b by omega,
    show s.opcode_ / 16 % 16 = c by omega, show s.opcode_ % 4096 = b * 256 + c * 16 + d by omega,
    show s.opcode_ % 256 = c * 16 + d by omega, show s.opcode_ % 16 = d by omega]

theorem Step_of_execute (s s1 : Chip8) (hpc : s.pc_ + 1 < 4096)
    (h : execute { s with opcode_ := fetch s } = .ok s1) : Step s = .ok (updateTimers s1) := by
  rw [Step_eq s hpc, h]

theorem updateTimers_V (s : Chip8) : (updateTimers s).V_ = s.V_ := by
  unfold updateTimers tickSound tickDelay; split_ifs <;> rfl

theorem updateTimers_pc (s : Chip8) : (updateTimers s).pc_ = s.pc_ := by
  unfold updateTimers tickSound tickDelay; split_ifs <;> rfl

theorem updateTimers_I (s : Chip8) : (updateTimers s).I_ = s.I_ := by
  unfold updateTimers tickSound tickDelay; split_ifs <;> rfl

theorem updateTimers_sp (s : Chip8) : (updateTimers s).sp_ = s.sp_ := by
  unfold updateTimers tickSound tickDelay; split_ifs <;> rfl

theorem updateTimers_mem (s : Chip8) : (updateTimers s).mem_ = s.mem_ := by
  unfold updateTimers tickSound tickDelay; split_ifs <;> rfl

theorem updateTimers_stack (s : Chip8) : (updateTimers s).stack_ = s.stack_ := by
  unfold updateTimers tickSound tickDelay; split_ifs <;> rfl

theorem updateTimers_gfx (s : Chip8) : (updateTimers s).gfx_ = s.gfx_ := by
  unfold updateTimers tickSound tickDelay; split_ifs <;> rfl

theorem updateTimers_keys (s : Chip8) : (updateTimers s).keys_ = s.keys_ := by
  unfold updateTimers tickSound tickDelay; split_ifs <;> rfl

theorem updateTimers_should_redraw (s : Chip8) :
    (updateTimers s).should_redraw_ = s.should_redraw_ := by
  unfold updateTimers tickSound tickDelay; split_ifs <;> rfl

theorem updateTimers_opcode (s : Chip8) : (updateTimers s).opcode_ = s.opcode_ := by
  unfold updateTimers tickSound tickDelay; split_ifs <;> rfl

theorem updateTimers_delay (s : Chip8) :
    (updateTimers s).delay_timer_ = s.delay_timer_ - 1 := by
  have h1 : ∀ u : Chip8, (tickSound u).delay_timer_ = u.delay_timer_ := by
    intro u; unfold tickSound; split_ifs <;> rfl
  have h2 : (tickDelay s).delay_timer_ = s.delay_timer_ - 1 := by
    unfold tickDelay
    split_ifs with h
    · rfl
    · show s.delay_timer_ = _; omega
  rw [updateTimers, h1, h2]

theorem updateTimers_sound (s : Chip8) :
    (updateTimers s).sound_timer_ = s.sound_timer_ - 1 := by
  have h1 : ∀ u : Chip8, (tickSound u).sound_timer_ = u.sound_timer_ - 1 := by
    intro u; unfold tickSound
    split_ifs with h
    · rfl
    · show u.sound_timer_ = _; omega
  have h2 : (tickDelay s).sound_timer_ = s.sound_timer_ := by
    unfold tickDelay; split_ifs <;> rfl
  rw [updateTimers, h1, h2]

/-! ## Arithmetic with carry and borrow -/

theorem op_8XY4_spec (s : Chip8) (X Y : Nat) (hX : X ≠ 15) (hY : Y ≠ 15) :
    ∃ s1, op_8XY4 X Y s = .ok s1 ∧
      s1.V_ X = (s.V_ X + s.V_ Y) % 256 ∧
      s1.V_ 15 = (if s.V_ X + s.V_ Y > 255 then 1 else 0) ∧
      s1.pc_ = (s.pc_ + 2) % 65536 := by
  refine ⟨_, rfl, ?_, ?_, rfl⟩
  · show store (store s.V_ 15 _) X _ X = _
    rw [store_same, store_other _ _ _ _ hX, store_other _ _ _ _ hY]
  · show store (store s.V_ 15 _) X _ 15 = _
    rw [store_other _ _ _ _ (Ne.symm hX), store_same]
    by_cases h : s.V_ X + s.V_ Y > 255
    · rw [if_pos h, if_pos (by omega)]
    · rw [if_neg h, if_neg (by omega)]

/-- Claim C4: `8XY4` with `X` and `Y` below 15 leaves `(vx + vy) mod 256` in `V[X]`, the carry
in `V[15]` (1 when `vx + vy > 255`, else 0) and advances `pc_` by 2; so `(0xFF, 0x01)` gives
`0x00` with flag 1 and `(0x01, 0x01)` gives `0x02` with flag 0. -/
theorem C4_add_with_carry (s : Chip8) (X Y : Nat) (hX : X < 15) (hY : Y < 15)
    (hpc : s.pc_ + 1 < 4096) (hop : fetch s = 0x8004 + 256 * X + 16 * Y) :
    ∃ s1, Step s = .ok s1 ∧
      s1.V_ X = (s.V_ X + s.V_ Y) % 256 ∧
      s1.V_ 15 = (if s.V_ X + s.V_ Y > 255 then 1 else 0) ∧
      s1.pc_ = s.pc_ + 2 ∧
      (s.V_ X = 0xFF → s.V_ Y = 0x01 → s1.V_ X = 0x00 ∧ s1.V_ 15 = 1) ∧
      (s.V_ X = 0x01 → s.V_ Y = 0x01 → s1.V_ X = 0x02 ∧ s1.V_ 15 = 0) := by
  have hex : execute { s with opcode_ := fetch s } =
      op_8XY4 X Y { s with opcode_ := fetch s } := by
    rw [execute_nibbles _ 8 X Y 4 (by omega) (by omega) (by omega) (by omega)
      (by show fetch s = _; omega), dispatch_fam8]
    rfl
  obtain ⟨s1, h1, hx, hf, hp⟩ :=
    op_8XY4_spec { s with opcode_ := fetch s } X Y (by omega) (by omega)
  have hx1 : (updateTimers s1).V_ X = (s.V_ X + s.V_ Y) % 256 := by
    rw [updateTimers_V]; exact hx
  have hf1 : (updateTimers s1).V_ 15 = (if s.V_ X + s.V_ Y > 255 then 1 else 0) := by
    rw [updateTimers_V]; exact hf
  refine ⟨updateTimers s1, Step_of_execute s _ hpc (hex.trans h1), hx1, hf1, ?_, ?_, ?_⟩
  · rw [updateTimers_pc, hp]
    show (s.pc_ + 2) % 65536 = s.pc_ + 2
    omega
  · intro h1 h2
    rw [hx1, hf1, h1, h2]
    exact ⟨by decide, by decide⟩
  · intro h1 h2
    rw [hx1, hf1, h1, h2]
    exact ⟨by decide, by decide⟩

/-- Instance of C4: `8124` on `V1 = 0xFF`, `V2 = 0x01` leaves `V1 = 0x00` and `VF = 1`. -/
theorem C4_add_with_carry_witness :
    ∃ s1, Step (machine [0x81, 0x24] [0, 0xFF, 0x01]) = .ok s1 ∧ s1.V_ 1 = 0x00 ∧ s1.V_ 15 = 1 := by
  obtain ⟨s1, h, _, _, _, h5, _⟩ := C4_add_with_carry (machine [0x81, 0x24] [0, 0xFF, 0x01]) 1 2
    (by decide) (by decide) (by decide) (by decide)
  exact ⟨s1, h, h5 (by decide) (by decide)⟩

theorem op_8XY5_spec (s : Chip8) (X Y : Nat) (hX : X ≠ 15) (hY : Y ≠ 15) :
    ∃ s1, op_8XY5 X Y s = .ok s1 ∧
      (s1.V_ X : Int) = ((s.V_ X : Int) - (s.V_ Y : Int)) % 256 ∧
      s1.V_ 15 = (if s.V_ X ≥ s.V_ Y then 1 else 0) ∧
      s1.pc_ = (s.pc_ + 2) % 65536 := by
  refine ⟨_, rfl, ?_, ?_, rfl⟩
  · show ((store (store s.V_ 15 _) X _ X : Nat) : Int) = _
    rw [store_same, store_other _ _ _ _ hX, store_other _ _ _ _ hY]
    exact Int.toNat_of_nonneg (Int.emod_nonneg _ (by decide))
  · show store (store s.V_ 15 _) X _ 15 = _
    rw [store_other _ _ _ _ (Ne.symm hX), store_same]
    by_cases h : s.V_ X ≥ s.V_ Y
    · rw [if_pos h, if_neg (by omega)]
    · rw [if_neg h, if_pos (by omega)]

theorem op_8XY7_spec (s : Chip8) (X Y : Nat) (hX : X ≠ 15) (hY : Y ≠ 15) :
    ∃ s1, op_8XY7 X Y s = .ok s1 ∧
      (s1.V_ X : Int) = ((s.V_ Y : Int) - (s.V_ X : Int)) % 256 ∧
      s1.V_ 15 = (if s.V_ Y ≥ s.V_ X then 1 else 0) ∧
      s1.pc_ = (s.pc_ + 2) % 65536 := by
  refine ⟨_, rfl, ?_, ?_, rfl⟩
  · show ((store (store s.V_ 15 _) X _ X : Nat) : Int) = _
    rw [store_same, store_other _ _ _ _ hX, store_other _ _ _ _ hY]
    exact Int.toNat_of_nonneg (Int.emod_nonneg _ (by decide))
  · show store (store s.V_ 15 _) X _ 15 = _
    rw [store_other _ _ _ _ (Ne.symm hX), store_same]
    by_cases h : s.V_ Y ≥ s.V_ X
    · rw [if_pos h, if_neg (by omega)]
    · rw [if_neg h, if_pos (by omega)]

/-- Claim C5: with `X` and `Y` below 15, `8XY5` leaves `(vx - vy) mod 256` in `V[X]` and the
flag 1 when `vx >= vy` (no borrow), 0 when `vx < vy`; `8XY7` leaves `(vy - vx) mod 256` and
the flag 1 when `vy >= vx`, else 0.  So `8XY5` on `(0x01, 0x02)` gives `0xFF` with flag 0 and
on `(0x05, 0x02)` gives `0x03` with flag 1. -/
theorem C5_subtract_with_borrow (s : Chip8) (X Y : Nat) (hX : X < 15) (hY : Y < 15)
    (hpc : s.pc_ + 1 < 4096) :
    (fetch s = 0x8005 + 256 * X + 16 * Y →
      ∃ s1, Step s = .ok s1 ∧
        (s1.V_ X : Int) = ((s.V_ X : Int) - (s.V_ Y : Int)) % 256 ∧
        s1.V_ 15 = (if s.V_ X ≥ s.V_ Y then 1 else 0) ∧
        (s.V_ X = 0x01 → s.V_ Y = 0x02 → s1.V_ X = 0xFF ∧ s1.V_ 15 = 0) ∧
        (s.V_ X = 0x05 → s.V_ Y = 0x02 → s1.V_ X = 0x03 ∧ s1.V_ 15 = 1)) ∧
    (fetch s = 0x8007 + 256 * X + 16 * Y →
      ∃ s1, Step s = .ok s1 ∧
        (s1.V_ X : Int) = ((s.V_ Y : Int) - (s.V_ X : Int)) % 256 ∧
        s1.V_ 15 = (if s.V_ Y ≥ s.V_ X then 1 else 0)) := by
  constructor
  · intro hop
    have hex : execute { s with opcode_ := fetch s } =
        op_8XY5 X Y { s with opcode_ := fetch s } := by
      rw [execute_nibbles _ 8 X Y 5 (by omega) (by omega) (by omega) (by omega)
        (by show fetch s = _; omega), dispatch_fam8]
      rfl
    obtain ⟨s1, h1, hx, hf, _⟩ :=
      op_8XY5_spec { s with opcode_ := fetch s } X Y (by omega) (by omega)
    have hx1 : ((updateTimers s1).V_ X : Int) = ((s.V_ X : Int) - (s.V_ Y : Int)) % 256 := by
      rw [updateTimers_V]; exact hx
    have hf1 : (updateTimers s1).V_ 15 = (if s.V_ X ≥ s.V_ Y then 1 else 0) := by
      rw [updateTimers_V]; exact hf
    refine ⟨updateTimers s1, Step_of_execute s _ hpc (hex.trans h1), hx1, hf1, ?_, ?_⟩
    · intro h1 h2
      rw [h1, h2] at hx1 hf1
      refine ⟨?_, hf1⟩
      have : ((updateTimers s1).V_ X : Int) = 255 := by rw [hx1]; decide
      exact_mod_cast this
    · intro h1 h2
      rw [h1, h2] at hx1 hf1
      refine ⟨?_, hf1⟩
      have : ((updateTimers s1).V_ X : Int) = 3 := by rw [hx1]; decide
      exact_mod_cast this
  · intro hop
    have hex : execute { s with opcode_ := fetch s } =
        op_8XY7 X Y { s with opcode_ := fetch s } := by
      rw [execute_nibbles _ 8 X Y 7 (by omega) (by omega) (by omega) (by omega)
        (by show fetch s = _; omega), dispatch_fam8]
      rfl
    obtain ⟨s1, h1, hx, hf, _⟩ :=
      op_8XY7_spec { s with opcode_ := fetch s } X Y (by omega) (by omega)
    refine ⟨updateTimers s1, Step_of_execute s _ hpc (hex.trans h1), ?_, ?_⟩
    · rw [updateTimers_V]; exact hx
    · rw [updateTimers_V]; exact hf

/-- Instances of C5: `8125` on `V1 = 0x01`, `V2 = 0x02` leaves `V1 = 0xFF` and `VF = 0`;
`8127` on the same registers leaves `V1 = 0x01` and `VF = 1`. -/
theorem C5_subtract_with_borrow_witness :
    (∃ s1, Step (machine [0x81, 0x25] [0, 0x01, 0x02]) = .ok s1 ∧
      s1.V_ 1 = 0xFF ∧ s1.V_ 15 = 0) ∧
    (∃ s1, Step (machine [0x81, 0x27] [0, 0x01, 0x02]) = .ok s1 ∧
      (s1.V_ 1 : Int) = 1 ∧ s1.V_ 15 = 1) := by
  constructor
  · obtain ⟨s1, h, _, _, h5, _⟩ := (C5_subtract_with_borrow (machine [0x81, 0x25] [0, 0x01, 0x02])
      1 2 (by decide) (by decide) (by decide)).1 (by decide)
    exact ⟨s1, h, h5 (by decide) (by decide)⟩
  · obtain ⟨s1, h, hx, hf⟩ := (C5_subtract_with_borrow (machine [0x81, 0x27] [0, 0x01, 0x02])
      1 2 (by decide) (by decide) (by decide)).2 (by decide)
    exact ⟨s1, h, hx, hf⟩

/-! ## Conditional skips -/

theorem skip_spec (s : Chip8) (c : Prop) [Decidable c] (hpc : s.pc_ + 1 < 4096) :
    (updateTimers (advance (if c then advance s else s))).pc_ =
        (if c then s.pc_ + 4 else s.pc_ + 2) ∧
      sameData s (updateTimers (advance (if c then advance s else s))) := by
  unfold sameData
  rw [updateTimers_pc, updateTimers_V, updateTimers_I, updateTimers_mem, updateTimers_stack,
    updateTimers_gfx]
  by_cases h : c
  · simp only [if_pos h]
    refine ⟨?_, rfl, rfl, rfl, rfl, rfl⟩
    show ((s.pc_ + 2) % 65536 + 2) % 65536 = _
    omega
  · simp only [if_neg h]
    refine ⟨?_, rfl, rfl, rfl, rfl, rfl⟩
    show (s.pc_ + 2) % 65536 = _
    omega

/-- Claim C6: each of `3XNN`, `4XNN`, `5XY0`, `9XY0` sets `pc_` to `pc_ + 4` when its condition
holds (`V[X] = NN`, `V[X] != NN`, `V[X] = V[Y]`, `V[X] != V[Y]`) and to `pc_ + 2` when not, and
changes no register, memory byte, stack slot or pixel, nor `I_`.  So `3XNN` on `V[X] = 0x05`
advances by 4 for `NN = 0x05` and by 2 for `NN = 0x06`. -/
theorem C6_conditional_skip (s : Chip8) (X Y NN : Nat) (hX : X < 16) (hY : Y < 16)
    (hNN : NN < 256) (hpc : s.pc_ + 1 < 4096) :
    (fetch s = 0x3000 + 256 * X + NN →
      ∃ s1, Step s = .ok s1 ∧ s1.pc_ = (if s.V_ X = NN then s.pc_ + 4 else s.pc_ + 2) ∧
        sameData s s1) ∧
    (fetch s = 0x4000 + 256 * X + NN →
      ∃ s1, Step s = .ok s1 ∧ s1.pc_ = (if s.V_ X ≠ NN then s.pc_ + 4 else s.pc_ + 2) ∧
        sameData s s1) ∧
    (fetch s = 0x5000 + 256 * X + 16 * Y →
      ∃ s1, Step s = .ok s1 ∧ s1.pc_ = (if s.V_ X = s.V_ Y then s.pc_ + 4 else s.pc_ + 2) ∧
        sameData s s1) ∧
    (fetch s = 0x9000 + 256 * X + 16 * Y →
      ∃ s1, Step s = .ok s1 ∧ s1.pc_ = (if s.V_ X ≠ s.V_ Y then s.pc_ + 4 else s.pc_ + 2) ∧
        sameData s s1) ∧
    (fetch s = 0x3005 + 256 * X → s.V_ X = 0x05 → ∃ s1, Step s = .ok s1 ∧ s1.pc_ = s.pc_ + 4) ∧
    (fetch s = 0x3006 + 256 * X → s.V_ X = 0x05 → ∃ s1, Step s = .ok s1 ∧ s1.pc_ = s.pc_ + 2) := by
  have h3 : ∀ M, M < 256 → fetch s = 0x3000 + 256 * X + M →
      ∃ s1, Step s = .ok s1 ∧ s1.pc_ = (if s.V_ X = M then s.pc_ + 4 else s.pc_ + 2) ∧
        sameData s s1 := by
    intro M hM hop
    have hex : execute { s with opcode_ := fetch s } =
        op_3XNN X M { s with opcode_ := fetch s } := by
      rw [execute_nibbles _ 3 X (M / 16) (M % 16) (by omega) (by omega) (by omega) (by omega)
        (by show fetch s = _; omega), dispatch_fam3, show M / 16 * 16 + M % 16 = M by omega]
    exact ⟨_, Step_of_execute s _ hpc (hex.trans rfl),
      skip_spec { s with opcode_ := fetch s } _ hpc⟩
  refine ⟨h3 NN hNN, ?_, ?_, ?_, ?_, ?_⟩
  · intro hop
    have hex : execute { s with opcode_ := fetch s } =
        op_4XNN X NN { s with opcode_ := fetch s } := by
      rw [execute_nibbles _ 4 X (NN / 16) (NN % 16) (by omega) (by omega) (by omega) (by omega)
        (by show fetch s = _; omega), dispatch_fam4, show NN / 16 * 16 + NN % 16 = NN by omega]
    exact ⟨_, Step_of_execute s _ hpc (hex.trans rfl),
      skip_spec { s with opcode_ := fetch s } _ hpc⟩
  · intro hop
    have hex : execute { s with opcode_ := fetch s } =
        op_5XY0 X Y { s with opcode_ := fetch s } := by
      rw [execute_nibbles _ 5 X Y 0 (by omega) (by omega) (by omega) (by omega)
        (by show fetch s = _; omega), dispatch_fam5]
    exact ⟨_, Step_of_execute s _ hpc (hex.trans rfl),
      skip_spec { s with opcode_ := fetch s } _ hpc⟩
  · intro hop
    have hex : execute { s with opcode_ := fetch s } =
        op_9XY0 X Y { s with opcode_ := fetch s } := by
      rw [execute_nibbles _ 9 X Y 0 (by omega) (by omega) (by omega) (by omega)
        (by show fetch s = _; omega), dispatch_fam9]
    exact ⟨_, Step_of_execute s _ hpc (hex.trans rfl),
      skip_spec { s with opcode_ := fetch s } _ hpc⟩
  · intro hop hv
    obtain ⟨s1, h1, h2, _⟩ := h3 0x05 (by decide) (by omega)
    exact ⟨s1, h1, by rw [h2, if_pos hv]⟩
  · intro hop hv
    obtain ⟨s1, h1, h2, _⟩ := h3 0x06 (by decide) (by omega)
    exact ⟨s1, h1, by rw [h2, if_neg (by omega)]⟩

/-- Instances of C6: `3105` on `V1 = 0x05` moves `pc_` from `0x200` to `0x204`, and `9120` on
`V1 = 0x05`, `V2 = 0x05` moves it to `0x202`. -/
theorem C6_conditional_skip_witness :
    (∃ s1, Step (machine [0x31, 0x05] [0, 0x05]) = .ok s1 ∧ s1.pc_ = 0x204) ∧
    (∃ s1, Step (machine [0x91, 0x20] [0, 0x05, 0x05]) = .ok s1 ∧ s1.pc_ = 0x202 ∧
      sameData (machine [0x91, 0x20] [0, 0x05, 0x05]) s1) := by
  constructor
  · exact (C6_conditional_skip (machine [0x31, 0x05] [0, 0x05]) 1 0 0 (by decide) (by decide)
      (by decide) (by decide)).2.2.2.2.1 (by decide) (by decide)
  · obtain ⟨s1, h1, h2, h3⟩ := (C6_conditional_skip (machine [0x91, 0x20] [0, 0x05, 0x05]) 1 2 0
      (by decide) (by decide) (by decide) (by decide)).2.2.2.1 (by decide)
    exact ⟨s1, h1, h2, h3⟩

/-! ## Call and return -/

theorem dispatch0_E0 (s : Chip8) : dispatch0 (14 * 16 + 0) s = op_00E0 s := by
  unfold dispatch0
  rw [if_pos (by decide)]

theorem dispatch0_EE (s : Chip8) : dispatch0 (14 * 16 + 14) s = op_00EE s := by
  unfold dispatch0
  rw [if_neg (by decide), if_pos (by decide)]

theorem op_00EE_spec (u : Chip8) (h0 : 0 < u.sp_) (h16 : u.sp_ ≤ 16) :
    op_00EE u = .ok (advance { u with sp_ := u.sp_ - 1, pc_ := u.stack_ (u.sp_ - 1) }) := by
  unfold op_00EE
  have e : (u.sp_ + 65535) % 65536 = u.sp_ - 1 := by omega
  simp only [e]
  rw [if_pos (by show u.sp_ - 1 < STACK_LIMIT; simp only [STACK_LIMIT]; omega)]

theorem return_after_call (s1 : Chip8) (p sp NNN : Nat) (hpc1 : s1.pc_ = NNN)
    (hsp1 : s1.sp_ = sp + 1) (hst1 : s1.stack_ sp = p) (hsp : sp < 16) (hp : p + 1 < 4096)
    (hN1 : NNN + 1 < 4096) (hret : wordAt s1.mem_ NNN = 0x00EE) :
    ∃ s2, Step s1 = .ok s2 ∧ s2.pc_ = p + 2 ∧ s2.sp_ = sp := by
  have hf1 : fetch s1 = 0x00EE := by
    unfold fetch; rw [hpc1]; exact hret
  have hex1 : execute { s1 with opcode_ := fetch s1 } =
      op_00EE { s1 with opcode_ := fetch s1 } := by
    rw [execute_nibbles _ 0 0 14 14 (by omega) (by omega) (by omega) (by omega)
      (by show fetch s1 = _; omega), dispatch_fam0, dispatch0_EE]
  have hret1 := op_00EE_spec { s1 with opcode_ := fetch s1 }
    (by show 0 < s1.sp_; omega) (by show s1.sp_ ≤ 16; omega)
  refine ⟨_, Step_of_execute s1 _ (by omega) (hex1.trans hret1), ?_, ?_⟩
  · rw [updateTimers_pc]
    show (s1.stack_ (s1.sp_ - 1) + 2) % 65536 = _
    rw [hsp1, Nat.add_sub_cancel, hst1]
    omega
  · rw [updateTimers_sp]
    show s1.sp_ - 1 = _
    omega

/-- Claim C7: with `sp_ < 16`, `2NNN` stores `pc_` in `stack_[sp_]`, increments `sp_` and sets
`pc_` to `NNN`; when the word at `NNN` is `00EE`, the next step leaves `pc_` two past the call
and `sp_` as it was before the call. -/
theorem C7_call_return (s : Chip8) (NNN : Nat) (hN : NNN < 4096) (hsp : s.sp_ < 16)
    (hpc : s.pc_ + 1 < 4096) (hop : fetch s = 0x2000 + NNN) :
    ∃ s1, Step s = .ok s1 ∧ s1.stack_ s.sp_ = s.pc_ ∧ s1.sp_ = s.sp_ + 1 ∧ s1.pc_ = NNN ∧
      (NNN + 1 < 4096 → wordAt s.mem_ NNN = 0x00EE →
        ∃ s2, Step s1 = .ok s2 ∧ s2.pc_ = s.pc_ + 2 ∧ s2.sp_ = s.sp_) := by
  have hex : execute { s with opcode_ := fetch s } =
      op_2NNN NNN { s with opcode_ := fetch s } := by
    rw [execute_nibbles _ 2 (NNN / 256) (NNN / 16 % 16) (NNN % 16) (by omega) (by omega)
      (by omega) (by omega) (by show fetch s = _; omega), dispatch_fam2,
      show NNN / 256 * 256 + NNN / 16 % 16 * 16 + NNN % 16 = NNN by omega]
  have hcall : op_2NNN NNN { s with opcode_ := fetch s } =
      .ok { s with opcode_ := fetch s, stack_ := store s.stack_ s.sp_ s.pc_,
                   sp_ := (s.sp_ + 1) % 65536, pc_ := NNN } := by
    unfold op_2NNN
    rw [if_pos (by show s.sp_ < STACK_LIMIT; simpa only [STACK_LIMIT] using hsp)]
  refine ⟨_, Step_of_execute s _ hpc (hex.trans hcall), ?_, ?_, ?_, ?_⟩
  · rw [updateTimers_stack]; exact store_same _ _ _
  · rw [updateTimers_sp]; show (s.sp_ + 1) % 65536 = _; omega
  · rw [updateTimers_pc]
  · intro hN1 hret
    refine return_after_call _ s.pc_ s.sp_ NNN ?_ ?_ ?_ hsp hpc hN1 ?_
    · rw [updateTimers_pc]
    · rw [updateTimers_sp]; show (s.sp_ + 1) % 65536 = _; omega
    · rw [updateTimers_stack]; exact store_same _ _ _
    · rw [updateTimers_mem]; exact hret

/-- Instance of C7: the call `2204` at `0x200` enters the subroutine at `0x204`, whose first
word is `00EE`, and the return resumes at `0x202` with an empty stack. -/
theorem C7_call_return_witness :
    ∃ s1, Step (loaded [0x22, 0x04, 0x00, 0x00, 0x00, 0xEE]) = .ok s1 ∧ s1.pc_ = 0x204 ∧
      ∃ s2, Step s1 = .ok s2 ∧ s2.pc_ = 0x202 ∧ s2.sp_ = 0 := by
  obtain ⟨s1, h1, _, _, h4, h5⟩ := C7_call_return (loaded [0x22, 0x04, 0x00, 0x00, 0x00, 0xEE])
    0x204 (by decide) (by decide) (by decide) (by decide)
  exact ⟨s1, h1, h4, h5 (by decide) (by decide)⟩

/-! ## Waiting for a key -/

theorem find_range (p : Nat → Bool) :
    ∀ n, (∃ k, k < n ∧ p k = true) →
      ∃ k, (List.range n).find? p = some k ∧ k < n ∧ p k = true ∧ ∀ j, j < k → p j = false := by
  intro n
  induction n with
  | zero => rintro ⟨k, hk, _⟩; omega
  | succ n ih =>
    intro hex
    rw [List.range_succ, List.find?_append]
    by_cases hlow : ∃ k, k < n ∧ p k = true
    · obtain ⟨k, hk, hlt, hp, hmin⟩ := ih hlow
      exact ⟨k, by rw [hk]; rfl, by omega, hp, hmin⟩
    · have hnone : (List.range n).find? p = none := by
        rw [List.find?_eq_none]
        intro x hx hpx
        exact hlow ⟨x, List.mem_range.mp hx, hpx⟩
      have hn : p n = true := by
        obtain ⟨k, hk, hp⟩ := hex
        by_cases hkn : k = n
        · rw [← hkn]; exact hp
        · exact absurd ⟨k, by omega, hp⟩ hlow
      refine ⟨n, ?_, by omega, hn, ?_⟩
      · rw [hnone]; simp [hn]
      · intro j hj
        by_contra hc
        exact hlow ⟨j, hj, by simpa using hc⟩

theorem execute_FX0A (s : Chip8) (X : Nat) (hX : X < 16) (hop : s.opcode_ = 0xF00A + 256 * X) :
    execute s = op_FX0A X s := by
  rw [execute_nibbles _ 15 X 0 10 (by omega) (by omega) (by omega) (by omega)
    (by omega), dispatch_famF]
  unfold dispatchF
  rw [if_neg (by decide), if_pos (by decide)]

theorem wait_no_key (s : Chip8) (X : Nat) (hX : X < 16) (hpc : s.pc_ + 1 < 4096)
    (hop : fetch s = 0xF00A + 256 * X) (hk : ∀ k, k < 16 → s.keys_ k = false) :
    ∃ s1, Step s = .ok s1 ∧ s1.pc_ = s.pc_ ∧ sameData s s1 ∧ s1.sp_ = s.sp_ ∧
      s1.keys_ = s.keys_ := by
  have hany : (List.range NUM_KEYS).any s.keys_ = false := by
    rw [List.any_eq_false]
    intro x hx
    rw [hk x (by simpa [NUM_KEYS] using hx)]
    simp
  have hex : execute { s with opcode_ := fetch s } = .ok { s with opcode_ := fetch s } := by
    rw [execute_FX0A _ X hX hop]
    unfold op_FX0A
    rw [show (List.range NUM_KEYS).any ({ s with opcode_ := fetch s } : Chip8).keys_
      = (List.range NUM_KEYS).any s.keys_ from rfl, hany]
    rfl
  refine ⟨_, Step_of_execute s _ hpc hex, ?_, ?_, ?_, ?_⟩
  · rw [updateTimers_pc]
  · unfold sameData
    rw [updateTimers_V, updateTimers_I, updateTimers_mem, updateTimers_stack, updateTimers_gfx]
    exact ⟨rfl, rfl, rfl, rfl, rfl⟩
  · rw [updateTimers_sp]
  · rw [updateTimers_keys]

theorem wait_no_key_steps (X : Nat) (hX : X < 16) :
    ∀ (n : Nat) (s : Chip8), s.pc_ + 1 < 4096 → fetch s = 0xF00A + 256 * X →
      (∀ k, k < 16 → s.keys_ k = false) →
      ∃ sn, steps n s = .ok sn ∧ sn.pc_ = s.pc_ ∧ sameData s sn ∧ sn.sp_ = s.sp_ ∧
        fetch sn = fetch s := by
  intro n
  induction n with
  | zero =>
    intro s _ _ _
    exact ⟨s, rfl, rfl, ⟨rfl, rfl, rfl, rfl, rfl⟩, rfl, rfl⟩
  | succ n ih =>
    intro s hpc hop hk
    obtain ⟨s1, h1, hpc1, hd1, hsp1, hk1⟩ := wait_no_key s X hX hpc hop hk
    have hf1 : fetch s1 = fetch s := by
      unfold fetch; rw [hd1.2.2.1, hpc1]
    obtain ⟨sn, hn, hpcn, hdn, hspn, hfn⟩ := ih s1 (by omega) (by omega)
      (by intro k hk'; rw [hk1]; exact hk k hk')
    refine ⟨sn, ?_, by omega, ?_, by omega, by omega⟩
    · show (match Step s with
        | .ok s1 => steps n s1
        | .error e => .error e) = _
      rw [h1]; exact hn
    · obtain ⟨a1, a2, a3, a4, a5⟩ := hd1
      obtain ⟨b1, b2, b3, b4, b5⟩ := hdn
      exact ⟨b1.trans a1, b2.trans a2, b3.trans a3, b4.trans a4, b5.trans a5⟩

/-- Claim C8: on `FX0A` with no key pressed a step leaves `pc_`, the registers, `I_`, memory,
stack, `sp_` and frame buffer unchanged, so the same word is fetched again, for any number of
steps; with a key pressed it stores the smallest pressed index in `V[X]` and advances `pc_`
by 2. -/
theorem C8_wait_for_key (s : Chip8) (X : Nat) (hX : X < 16) (hpc : s.pc_ + 1 < 4096)
    (hop : fetch s = 0xF00A + 256 * X) :
    ((∀ k, k < 16 → s.keys_ k = false) →
      (∃ s1, Step s = .ok s1 ∧ s1.pc_ = s.pc_ ∧ sameData s s1 ∧ s1.sp_ = s.sp_ ∧
        fetch s1 = fetch s) ∧
      ∀ n, ∃ sn, steps n s = .ok sn ∧ sn.pc_ = s.pc_ ∧ sameData s sn ∧ sn.sp_ = s.sp_ ∧
        fetch sn = fetch s) ∧
    ((∃ k, k < 16 ∧ s.keys_ k = true) →
      ∃ s1 k, Step s = .ok s1 ∧ k < 16 ∧ s.keys_ k = true ∧ (∀ j, j < k → s.keys_ j = false) ∧
        s1.V_ X = k ∧ s1.pc_ = s.pc_ + 2) := by
  constructor
  · intro hk
    refine ⟨?_, fun n => wait_no_key_steps X hX n s hpc hop hk⟩
    obtain ⟨s1, h1, hpc1, hd1, hsp1, _⟩ := wait_no_key s X hX hpc hop hk
    refine ⟨s1, h1, hpc1, hd1, hsp1, ?_⟩
    unfold fetch; rw [hd1.2.2.1, hpc1]
  · intro hk
    obtain ⟨k, hfind, hlt, hp, hmin⟩ := find_range s.keys_ 16 hk
    have hany : (List.range NUM_KEYS).any s.keys_ = true := by
      rw [List.any_eq_true]
      exact ⟨k, by simpa [NUM_KEYS] using hlt, hp⟩
    have hex : execute { s with opcode_ := fetch s } =
        .ok (advance { s with opcode_ := fetch s, V_ := store s.V_ X k }) := by
      rw [execute_FX0A _ X hX hop]
      unfold op_FX0A
      rw [show (List.range NUM_KEYS).any ({ s with opcode_ := fetch s } : Chip8).keys_
        = (List.range NUM_KEYS).any s.keys_ from rfl, hany, if_pos rfl]
      rw [show (List.range NUM_KEYS).find? ({ s with opcode_ := fetch s } : Chip8).keys_
        = (List.range 16).find? s.keys_ from rfl, hfind]
    refine ⟨_, k, Step_of_execute s _ hpc hex, hlt, hp, hmin, ?_, ?_⟩
    · rw [updateTimers_V]; exact store_same _ _ _
    · rw [updateTimers_pc]; show (s.pc_ + 2) % 65536 = _; omega


/-- Instances of C8: `F10A` with no key down still has `pc_ = 0x200` after three steps; with
the keys 3 and 7 down one step leaves `V1 = 3` and `pc_ = 0x202`. -/
theorem C8_wait_for_key_witness :
    (∃ sn, steps 3 (loaded [0xF1, 0x0A]) = .ok sn ∧ sn.pc_ = 0x200) ∧
    (∃ s1, Step (withKeys [3, 7] (loaded [0xF1, 0x0A])) = .ok s1 ∧ s1.V_ 1 = 3 ∧
      s1.pc_ = 0x202) := by
  constructor
  · obtain ⟨sn, h1, h2, _⟩ := ((C8_wait_for_key (loaded [0xF1, 0x0A]) 1 (by decide) (by decide)
      (by decide)).1 (by intro k _; rfl)).2 3
    exact ⟨sn, h1, h2⟩
  · obtain ⟨s1, k, h1, hk, hp, hmin, hv, hpc⟩ :=
      (C8_wait_for_key (withKeys [3, 7] (loaded [0xF1, 0x0A])) 1 (by decide) (by decide)
        (by decide)).2 ⟨3, by decide, by decide⟩
    have hk3 : k = 3 := by
      have h3 : ¬ 3 < k := fun h => by
        have := hmin 3 h
        revert this; decide
      have hle : k ≤ 3 := by omega
      interval_cases k
      · revert hp; decide
      · revert hp; decide
      · revert hp; decide
      · rfl
    exact ⟨s1, h1, by rw [hv, hk3], hpc⟩

/-! ## Timers -/

theorem foldlM_invariant {α : Type} (P : Chip8 → Prop) (f : Chip8 → α → Except Fault Chip8)
    (hf : ∀ s a s1, f s a = .ok s1 → P s → P s1) :
    ∀ (l : List α) (s s1 : Chip8), l.foldlM f s = .ok s1 → P s → P s1 := by
  intro l
  induction l with
  | nil =>
    intro s s1 h hp
    simp only [List.foldlM, pure, Except.pure] at h
    cases h
    exact hp
  | cons a l ih =>
    intro s s1 h hp
    rw [List.foldlM_cons] at h
    cases hfa : f s a with
    | error e =>
      rw [hfa] at h
      simp only [bind, Except.bind] at h
      cases h
    | ok s2 =>
      rw [hfa] at h
      exact ih s2 s1 h (hf s a s2 hfa hp)

theorem drawSprite_invariant (P : Chip8 → Prop)
    (hP : ∀ (s : Chip8) (idx : Nat), P s → P (togglePixel idx s))
    (X Y N : Nat) (s s1 : Chip8) (h : drawSprite X Y N s = .ok s1) (hs : P s) : P s1 := by
  refine foldlM_invariant P (drawRow X Y) ?_ _ s s1 h hs
  intro u yl u1 hrow hu
  unfold drawRow at hrow
  split_ifs at hrow
  refine foldlM_invariant P _ ?_ _ u u1 hrow hu
  intro v xl v1 hpix hv
  unfold drawPixel at hpix
  split_ifs at hpix
  · cases hpix; exact hP v _ hv
  · cases hpix; exact hv

theorem op_DXYN_timers (X Y N : Nat) (s s1 : Chip8) (h : op_DXYN X Y N s = .ok s1) :
    s1.delay_timer_ = s.delay_timer_ ∧ s1.sound_timer_ = s.sound_timer_ := by
  unfold op_DXYN at h
  split at h
  · next s2 h2 =>
    cases h
    exact drawSprite_invariant
      (fun u => u.delay_timer_ = s.delay_timer_ ∧ u.sound_timer_ = s.sound_timer_)
      (fun u idx hu => hu) X Y N _ s2 h2 ⟨rfl, rfl⟩
  · cases h

theorem decoded_timers (s : Chip8) (r : Except Fault Chip8) (h : Decoded s r) (s1 : Chip8)
    (hr : r = .ok s1) :
    s1.delay_timer_ = (if s.opcode_ / 4096 = 0xF ∧ s.opcode_ % 256 = 0x15
      then s.V_ (s.opcode_ / 256 % 16) else s.delay_timer_) ∧
    s1.sound_timer_ = (if s.opcode_ / 4096 = 0xF ∧ s.opcode_ % 256 = 0x18
      then s.V_ (s.opcode_ / 256 % 16) else s.sound_timer_) := by
  cases h
  case undefined h => cases hr
  case iDXYN h =>
    rw [if_neg (by omega), if_neg (by omega)]
    exact op_DXYN_timers _ _ _ _ _ hr
  case iFX0A h1 h2 =>
    rw [if_neg (by omega), if_neg (by omega)]
    unfold op_FX0A at hr
    split_ifs at hr
    · split at hr <;> cases hr <;> exact ⟨rfl, rfl⟩
    · cases hr; exact ⟨rfl, rfl⟩
  case iFX15 h1 h2 =>
    rw [if_pos ⟨h1, h2⟩, if_neg (by omega)]
    cases hr; exact ⟨rfl, rfl⟩
  case iFX18 h1 h2 =>
    rw [if_neg (by omega), if_pos ⟨h1, h2⟩]
    cases hr; exact ⟨rfl, rfl⟩
  case i00EE =>
    rw [if_neg (by omega), if_neg (by omega)]
    simp only [op_00EE] at hr
    split_ifs at hr
    cases hr
    exact ⟨by simp only [advance], by simp only [advance]⟩
  case i2NNN =>
    rw [if_neg (by omega), if_neg (by omega)]
    simp only [op_2NNN] at hr
    split_ifs at hr
    cases hr
    exact ⟨by simp only [advance], by simp only [advance]⟩
  case iEX9E =>
    rw [if_neg (by omega), if_neg (by omega)]
    simp only [op_EX9E] at hr
    split_ifs at hr <;> (cases hr; exact ⟨by simp only [advance], by simp only [advance]⟩)
  case iEXA1 =>
    rw [if_neg (by omega), if_neg (by omega)]
    simp only [op_EXA1] at hr
    split_ifs at hr <;> (cases hr; exact ⟨by simp only [advance], by simp only [advance]⟩)
  case iFX33 =>
    rw [if_neg (by omega), if_neg (by omega)]
    simp only [op_FX33] at hr
    split_ifs at hr
    cases hr
    exact ⟨by simp only [advance], by simp only [advance]⟩
  case iFX55 =>
    rw [if_neg (by omega), if_neg (by omega)]
    simp only [op_FX55] at hr
    split_ifs at hr
    cases hr
    exact ⟨by simp only [advance], by simp only [advance]⟩
  case iFX65 =>
    rw [if_neg (by omega), if_neg (by omega)]
    simp only [op_FX65] at hr
    split_ifs at hr
    cases hr
    exact ⟨by simp only [advance], by simp only [advance]⟩
  all_goals
    rw [if_neg (by omega), if_neg (by omega)]
    cases hr
    first
    | exact ⟨rfl, rfl⟩
    | (split_ifs <;> exact ⟨rfl, rfl⟩)


theorem Step_ok_inv (s s1 : Chip8) (h : Step s = .ok s1) :
    s.pc_ + 1 < 4096 ∧
      ∃ s0, execute { s with opcode_ := fetch s } = .ok s0 ∧ s1 = updateTimers s0 := by
  by_cases hpc : s.pc_ + 1 < 4096
  · refine ⟨hpc, ?_⟩
    rw [Step_eq s hpc] at h
    cases hex : execute { s with opcode_ := fetch s } with
    | ok s0 =>
      rw [hex] at h
      cases h
      exact ⟨s0, rfl, rfl⟩
    | error e =>
      rw [hex] at h
      cases h
  · unfold Step at h
    rw [if_neg (by simpa only [MEMORY_LIMIT] using hpc)] at h
    cases h

theorem Step_timers (s s1 : Chip8) (h : Step s = .ok s1) :
    s1.delay_timer_ = (if fetch s / 4096 = 0xF ∧ fetch s % 256 = 0x15
      then s.V_ (fetch s / 256 % 16) else s.delay_timer_) - 1 ∧
    s1.sound_timer_ = (if fetch s / 4096 = 0xF ∧ fetch s % 256 = 0x18
      then s.V_ (fetch s / 256 % 16) else s.sound_timer_) - 1 := by
  obtain ⟨_, s0, hex, hs1⟩ := Step_ok_inv s s1 h
  have hd := decoded_timers _ _ (execute_decoded { s with opcode_ := fetch s } (fetch_lt s))
    s0 hex
  rw [hs1, updateTimers_delay, updateTimers_sound, hd.1, hd.2]
  exact ⟨rfl, rfl⟩

theorem steps_succ (n : Nat) (s s1 : Chip8) (h : Step s = .ok s1) :
    steps (n + 1) s = steps n s1 := by
  show (match Step s with
    | .ok s1 => steps n s1
    | .error e => .error e) = _
  rw [h]

theorem steps_delay_zero :
    ∀ (n : Nat) (s sn : Chip8), steps n s = .ok sn → s.delay_timer_ = 0 →
      (∀ k sk, k < n → steps k s = .ok sk → ¬ (fetch sk / 4096 = 0xF ∧ fetch sk % 256 = 0x15)) →
      sn.delay_timer_ = 0 := by
  intro n
  induction n with
  | zero =>
    intro s sn h h0 _
    cases h
    exact h0
  | succ n ih =>
    intro s sn h h0 hno
    cases hs : Step s with
    | error e =>
      have : steps (n + 1) s = .error e := by
        show (match Step s with
          | .ok s1 => steps n s1
          | .error e => .error e) = _
        rw [hs]
      rw [this] at h
      cases h
    | ok s1 =>
      rw [steps_succ n s s1 hs] at h
      have h1 := (Step_timers s s1 hs).1
      rw [if_neg (hno 0 s (by omega) rfl), h0] at h1
      refine ih s1 sn h h1 ?_
      intro k sk hk hsk
      exact hno (k + 1) sk (by omega) (by rw [steps_succ k s s1 hs]; exact hsk)

theorem steps_sound_zero :
    ∀ (n : Nat) (s sn : Chip8), steps n s = .ok sn → s.sound_timer_ = 0 →
      (∀ k sk, k < n → steps k s = .ok sk → ¬ (fetch sk / 4096 = 0xF ∧ fetch sk % 256 = 0x18)) →
      sn.sound_timer_ = 0 := by
  intro n
  induction n with
  | zero =>
    intro s sn h h0 _
    cases h
    exact h0
  | succ n ih =>
    intro s sn h h0 hno
    cases hs : Step s with
    | error e =>
      have : steps (n + 1) s = .error e := by
        show (match Step s with
          | .ok s1 => steps n s1
          | .error e => .error e) = _
        rw [hs]
      rw [this] at h
      cases h
    | ok s1 =>
      rw [steps_succ n s s1 hs] at h
      have h1 := (Step_timers s s1 hs).2
      rw [if_neg (hno 0 s (by omega) rfl), h0] at h1
      refine ih s1 sn h h1 ?_
      intro k sk hk hsk
      exact hno (k + 1) sk (by omega) (by rw [steps_succ k s s1 hs]; exact hsk)

/-- Claim C9: a completed step whose word is not `FX15` leaves the delay timer one lower when
it was nonzero and at 0 when it was 0, and likewise the sound timer when the word is not
`FX18`; hence a timer at 0 stays at 0 through any number of such steps.  On `FX15` (`FX18`)
the timer ends at `V[X] - 1` when `V[X] > 0` and at 0 when `V[X] = 0`. -/
theorem C9_timer_decrement (s : Chip8) :
    (∀ s1, Step s = .ok s1 →
      (¬ (fetch s / 4096 = 0xF ∧ fetch s % 256 = 0x15) →
        s1.delay_timer_ = (if s.delay_timer_ = 0 then 0 else s.delay_timer_ - 1)) ∧
      (¬ (fetch s / 4096 = 0xF ∧ fetch s % 256 = 0x18) →
        s1.sound_timer_ = (if s.sound_timer_ = 0 then 0 else s.sound_timer_ - 1)) ∧
      (fetch s / 4096 = 0xF ∧ fetch s % 256 = 0x15 →
        s1.delay_timer_ = (if s.V_ (fetch s / 256 % 16) = 0 then 0
          else s.V_ (fetch s / 256 % 16) - 1)) ∧
      (fetch s / 4096 = 0xF ∧ fetch s % 256 = 0x18 →
        s1.sound_timer_ = (if s.V_ (fetch s / 256 % 16) = 0 then 0
          else s.V_ (fetch s / 256 % 16) - 1))) ∧
    (∀ n sn, steps n s = .ok sn → s.delay_timer_ = 0 →
      (∀ k sk, k < n → steps k s = .ok sk →
        ¬ (fetch sk / 4096 = 0xF ∧ fetch sk % 256 = 0x15)) →
      sn.delay_timer_ = 0) ∧
    (∀ n sn, steps n s = .ok sn → s.sound_timer_ = 0 →
      (∀ k sk, k < n → steps k s = .ok sk →
        ¬ (fetch sk / 4096 = 0xF ∧ fetch sk % 256 = 0x18)) →
      sn.sound_timer_ = 0) := by
  refine ⟨?_, fun n sn => steps_delay_zero n s sn, fun n sn => steps_sound_zero n s sn⟩
  intro s1 h
  obtain ⟨hd, hs⟩ := Step_timers s s1 h
  refine ⟨?_, ?_, ?_, ?_⟩
  · intro hn
    rw [hd, if_neg hn]
    split_ifs <;> omega
  · intro hn
    rw [hs, if_neg hn]
    split_ifs <;> omega
  · intro hy
    rw [hd, if_pos hy]
    split_ifs <;> omega
  · intro hy
    rw [hs, if_pos hy]
    split_ifs <;> omega

/-- Instances of C9: the jump `1200` with the timers at 2 and 0 leaves them at 1 and 0, and
`F115` with `V1 = 7` leaves the delay timer at 6. -/
theorem C9_timer_decrement_witness :
    (∃ s1, Step (withTimers 2 0 (loaded [0x12, 0x00])) = .ok s1 ∧
      s1.delay_timer_ = 1 ∧ s1.sound_timer_ = 0) ∧
    (∃ s1, Step (machine [0xF1, 0x15] [0, 7]) = .ok s1 ∧ s1.delay_timer_ = 6) := by
  refine ⟨⟨_, rfl, ?_⟩, ⟨_, rfl, ?_⟩⟩
  · obtain ⟨h1, h2, _, _⟩ :=
      (C9_timer_decrement (withTimers 2 0 (loaded [0x12, 0x00]))).1 _ rfl
    exact ⟨h1 (by decide), h2 (by decide)⟩
  · obtain ⟨_, _, h3, _⟩ := (C9_timer_decrement (machine [0xF1, 0x15] [0, 7])).1 _ rfl
    exact h3 (by decide)

/-! ## Sprite rows -/

theorem drawn_self (s : Chip8) : drawn s s.gfx_ s.V_ = s := by
  cases s; rfl

theorem togglePixel_drawn (s : Chip8) (g v : Nat → Nat) (idx : Nat) :
    togglePixel idx (drawn s g v) =
      drawn s (store g idx ((g idx ^^^ 1) % 256)) (if g idx = 1 then store v 0xF 1 else v) :=
  rfl

theorem rowGfx_zero (g : Nat → Nat) (base pixel : Nat) : rowGfx g base pixel 0 = g := by
  funext k
  show (if base ≤ k ∧ k < base + 0 ∧ pixel &&& (0x80 >>> (k - base)) ≠ 0
      then (g k ^^^ 1) % 256 else g k) = g k
  rw [if_neg (by omega)]

theorem rowV_zero (v g : Nat → Nat) (base pixel : Nat) : rowV v g base pixel 0 = v := by
  unfold rowV
  exact if_neg (by rintro ⟨xl, h, _⟩; omega)

theorem rowGfx_apply (g : Nat → Nat) (base pixel n k : Nat) :
    rowGfx g base pixel n k = if base ≤ k ∧ k < base + n ∧ pixel &&& (0x80 >>> (k - base)) ≠ 0
      then (g k ^^^ 1) % 256 else g k :=
  rfl

theorem rowGfx_at (g : Nat → Nat) (base pixel n : Nat) :
    rowGfx g base pixel n (base + n) = g (base + n) := by
  rw [rowGfx_apply, if_neg (by omega)]

theorem rowGfx_succ_set (g : Nat → Nat) (base pixel n : Nat)
    (hb : pixel &&& (0x80 >>> n) ≠ 0) :
    rowGfx g base pixel (n + 1) =
      store (rowGfx g base pixel n) (base + n) ((rowGfx g base pixel n (base + n) ^^^ 1) % 256) := by
  funext k
  by_cases hk : k = base + n
  · subst hk
    rw [store_same, rowGfx_at, rowGfx_apply, if_pos ⟨by omega, by omega, by
      rw [Nat.add_sub_cancel_left]; exact hb⟩]
  · rw [store_other _ _ _ _ hk, rowGfx_apply, rowGfx_apply]
    by_cases hc : base ≤ k ∧ k < base + n ∧ pixel &&& (0x80 >>> (k - base)) ≠ 0
    · rw [if_pos hc, if_pos ⟨hc.1, by omega, hc.2.2⟩]
    · rw [if_neg hc, if_neg (by
        rintro ⟨h1, h2, h3⟩
        exact hc ⟨h1, by omega, h3⟩)]

theorem rowGfx_succ_clear (g : Nat → Nat) (base pixel n : Nat)
    (hb : ¬ pixel &&& (0x80 >>> n) ≠ 0) :
    rowGfx g base pixel (n + 1) = rowGfx g base pixel n := by
  funext k
  rw [rowGfx_apply, rowGfx_apply]
  by_cases hc : base ≤ k ∧ k < base + n ∧ pixel &&& (0x80 >>> (k - base)) ≠ 0
  · rw [if_pos hc, if_pos ⟨hc.1, by omega, hc.2.2⟩]
  · rw [if_neg hc, if_neg (by
      rintro ⟨h1, h2, h3⟩
      by_cases hk : k = base + n
      · subst hk
        rw [Nat.add_sub_cancel_left] at h3
        exact hb h3
      · exact hc ⟨h1, by omega, h3⟩)]

theorem rowV_pos (v g : Nat → Nat) (base pixel n : Nat)
    (h : ∃ xl, xl < n ∧ pixel &&& (0x80 >>> xl) ≠ 0 ∧ g (base + xl) = 1) :
    rowV v g base pixel n = store v 0xF 1 := by
  unfold rowV; exact if_pos h

theorem rowV_neg (v g : Nat → Nat) (base pixel n : Nat)
    (h : ¬ ∃ xl, xl < n ∧ pixel &&& (0x80 >>> xl) ≠ 0 ∧ g (base + xl) = 1) :
    rowV v g base pixel n = v := by
  unfold rowV; exact if_neg h

theorem rowV_succ_set (v g : Nat → Nat) (base pixel n : Nat)
    (hb : pixel &&& (0x80 >>> n) ≠ 0) :
    rowV v g base pixel (n + 1) =
      if g (base + n) = 1 then store (rowV v g base pixel n) 0xF 1 else rowV v g base pixel n := by
  by_cases hn : ∃ xl, xl < n ∧ pixel &&& (0x80 >>> xl) ≠ 0 ∧ g (base + xl) = 1
  · have hn1 : ∃ xl, xl < n + 1 ∧ pixel &&& (0x80 >>> xl) ≠ 0 ∧ g (base + xl) = 1 := by
      obtain ⟨xl, h1, h2, h3⟩ := hn
      exact ⟨xl, by omega, h2, h3⟩
    have e : store (store v 0xF 1) 0xF 1 = store v 0xF 1 := by
      funext k; unfold store; split_ifs <;> rfl
    rw [rowV_pos _ _ _ _ _ hn, rowV_pos _ _ _ _ _ hn1, e, ite_self]
  · rw [rowV_neg _ _ _ _ _ hn]
    by_cases hg : g (base + n) = 1
    · rw [if_pos hg, rowV_pos _ _ _ _ _ ⟨n, by omega, hb, hg⟩]
    · rw [if_neg hg, rowV_neg]
      rintro ⟨xl, h1, h2, h3⟩
      by_cases hk : xl = n
      · subst hk; exact hg h3
      · exact hn ⟨xl, by omega, h2, h3⟩

theorem rowV_succ_clear (v g : Nat → Nat) (base pixel n : Nat)
    (hb : ¬ pixel &&& (0x80 >>> n) ≠ 0) :
    rowV v g base pixel (n + 1) = rowV v g base pixel n := by
  by_cases hn : ∃ xl, xl < n ∧ pixel &&& (0x80 >>> xl) ≠ 0 ∧ g (base + xl) = 1
  · have hn1 : ∃ xl, xl < n + 1 ∧ pixel &&& (0x80 >>> xl) ≠ 0 ∧ g (base + xl) = 1 := by
      obtain ⟨xl, h1, h2, h3⟩ := hn
      exact ⟨xl, by omega, h2, h3⟩
    rw [rowV_pos _ _ _ _ _ hn, rowV_pos _ _ _ _ _ hn1]
  · rw [rowV_neg _ _ _ _ _ hn, rowV_neg]
    rintro ⟨xl, h1, h2, h3⟩
    by_cases hk : xl = n
    · subst hk; exact hb h2
    · exact hn ⟨xl, by omega, h2, h3⟩

theorem rowV_other (v g : Nat → Nat) (base pixel n i : Nat) (hi : i ≠ 15) :
    rowV v g base pixel n i = v i := by
  by_cases hn : ∃ xl, xl < n ∧ pixel &&& (0x80 >>> xl) ≠ 0 ∧ g (base + xl) = 1
  · rw [rowV_pos _ _ _ _ _ hn]; exact store_other _ _ _ _ hi
  · rw [rowV_neg _ _ _ _ _ hn]


theorem drawPixel_drawn (X Y yl pixel n : Nat) (s : Chip8) (g v : Nat → Nat)
    (hvX : v X = s.V_ X) (hvY : v Y = s.V_ Y)
    (hin : s.V_ X + (s.V_ Y + yl) * 64 + n < 2048) :
    drawPixel X Y yl pixel (drawn s g v) n =
      if pixel &&& (0x80 >>> n) ≠ 0
      then .ok (togglePixel (s.V_ X + (s.V_ Y + yl) * 64 + n) (drawn s g v))
      else .ok (drawn s g v) := by
  unfold drawPixel
  have hidx : (drawn s g v).V_ X + n + ((drawn s g v).V_ Y + yl) * 64 =
      s.V_ X + (s.V_ Y + yl) * 64 + n := by
    show v X + n + (v Y + yl) * 64 = _
    rw [hvX, hvY]; omega
  rw [hidx, if_pos (show s.V_ X + (s.V_ Y + yl) * 64 + n < SCREEN_WIDTH * SCREEN_HEIGHT from hin)]

theorem drawRow_loop (X Y yl pixel : Nat) (s : Chip8) (hX : X ≠ 15) (hY : Y ≠ 15)
    (hin : s.V_ X + (s.V_ Y + yl) * 64 + 7 < 2048) :
    ∀ n, n ≤ 8 → (List.range n).foldlM (drawPixel X Y yl pixel) s =
      .ok (drawn s (rowGfx s.gfx_ (s.V_ X + (s.V_ Y + yl) * 64) pixel n)
        (rowV s.V_ s.gfx_ (s.V_ X + (s.V_ Y + yl) * 64) pixel n)) := by
  intro n
  induction n with
  | zero =>
    intro _
    rw [rowGfx_zero, rowV_zero, drawn_self]
    rfl
  | succ n ih =>
    intro hn
    rw [List.range_succ, List.foldlM_append, ih (by omega)]
    show List.foldlM (drawPixel X Y yl pixel) _ [n] = _
    rw [List.foldlM_cons, drawPixel_drawn X Y yl pixel n s _ _ (rowV_other _ _ _ _ _ _ hX)
      (rowV_other _ _ _ _ _ _ hY) (by omega)]
    by_cases hb : pixel &&& (0x80 >>> n) ≠ 0
    · rw [if_pos hb, togglePixel_drawn, rowGfx_succ_set _ _ _ _ hb, rowV_succ_set _ _ _ _ _ hb,
        rowGfx_at]
      rfl
    · rw [if_neg hb, rowGfx_succ_clear _ _ _ _ hb, rowV_succ_clear _ _ _ _ _ hb]
      rfl

theorem drawRow_eq (X Y yl : Nat) (s : Chip8) (hX : X ≠ 15) (hY : Y ≠ 15)
    (hI : s.I_ + yl < 4096) (hin : s.V_ X + (s.V_ Y + yl) * 64 + 7 < 2048) :
    drawRow X Y s yl =
      .ok (drawn s (rowGfx s.gfx_ (s.V_ X + (s.V_ Y + yl) * 64) (s.mem_ (s.I_ + yl)) 8)
        (rowV s.V_ s.gfx_ (s.V_ X + (s.V_ Y + yl) * 64) (s.mem_ (s.I_ + yl)) 8)) := by
  unfold drawRow
  rw [if_pos (show s.I_ + yl < MEMORY_LIMIT from hI)]
  exact drawRow_loop X Y yl _ s hX hY hin 8 (by omega)

set_option maxRecDepth 100000 in
theorem byte_has_bit : ∀ q, q < 256 → q ≠ 0 → ∃ xl, xl < 8 ∧ q &&& (0x80 >>> xl) ≠ 0 := by
  decide

theorem and_mask_mod (p xl : Nat) (hxl : xl < 8) :
    p &&& (0x80 >>> xl) = p % 256 &&& (0x80 >>> xl) := by
  have h : (255 &&& (0x80 >>> xl) : Nat) = 0x80 >>> xl := by
    interval_cases xl <;> decide
  rw [← Nat.and_pow_two_sub_one_eq_mod p 8, Nat.and_assoc]
  show _ = p &&& (255 &&& (0x80 >>> xl))
  rw [h]

theorem sprite_bit_iff (p : Nat) :
    (∃ xl, xl < 8 ∧ p &&& (0x80 >>> xl) ≠ 0) ↔ p % 256 ≠ 0 := by
  constructor
  · rintro ⟨xl, hxl, hb⟩ h0
    rw [and_mask_mod p xl hxl, h0, Nat.zero_and] at hb
    exact hb rfl
  · intro h0
    obtain ⟨xl, hxl, hb⟩ := byte_has_bit (p % 256) (Nat.mod_lt _ (by decide)) h0
    exact ⟨xl, hxl, by rw [and_mask_mod p xl hxl]; exact hb⟩


theorem op_DXY1_eq (u : Chip8) (X Y : Nat) (hX : X ≠ 15) (hY : Y ≠ 15) (hI : u.I_ < 4096)
    (hin : u.V_ X + u.V_ Y * 64 + 7 < 2048) :
    op_DXYN X Y 1 u = .ok (advance { drawn u
      (rowGfx u.gfx_ (u.V_ X + u.V_ Y * 64) (u.mem_ u.I_) 8)
      (rowV (store u.V_ 0xF 0) u.gfx_ (u.V_ X + u.V_ Y * 64) (u.mem_ u.I_) 8)
      with should_redraw_ := true }) := by
  have hx : store u.V_ 0xF 0 X = u.V_ X := store_other _ _ _ _ hX
  have hy : store u.V_ 0xF 0 Y = u.V_ Y := store_other _ _ _ _ hY
  have e := drawRow_eq X Y 0 { u with V_ := store u.V_ 0xF 0 } hX hY
    (by show u.I_ + 0 < 4096; omega)
    (by show store u.V_ 0xF 0 X + (store u.V_ 0xF 0 Y + 0) * 64 + 7 < 2048
        rw [hx, hy]; omega)
  have e1 : drawRow X Y { u with V_ := store u.V_ 0xF 0 } 0 =
      .ok (drawn { u with V_ := store u.V_ 0xF 0 }
        (rowGfx u.gfx_ (u.V_ X + u.V_ Y * 64) (u.mem_ u.I_) 8)
        (rowV (store u.V_ 0xF 0) u.gfx_ (u.V_ X + u.V_ Y * 64) (u.mem_ u.I_) 8)) := by
    rw [e]
    show Except.ok (drawn _ (rowGfx u.gfx_ (store u.V_ 0xF 0 X + (store u.V_ 0xF 0 Y + 0) * 64)
      (u.mem_ (u.I_ + 0)) 8) (rowV (store u.V_ 0xF 0) u.gfx_
      (store u.V_ 0xF 0 X + (store u.V_ 0xF 0 Y + 0) * 64) (u.mem_ (u.I_ + 0)) 8)) = _
    rw [hx, hy, Nat.add_zero, Nat.add_zero]
  unfold op_DXYN drawSprite
  rw [show List.range 1 = [0] from rfl, List.foldlM_cons, e1]
  rfl

theorem Step_DXY1 (s : Chip8) (X Y : Nat) (hX : X < 15) (hY : Y < 15) (hpc : s.pc_ + 1 < 4096)
    (hop : fetch s = 0xD001 + 256 * X + 16 * Y) (hI : s.I_ < 4096)
    (hin : s.V_ X + s.V_ Y * 64 + 7 < 2048) :
    ∃ s1, Step s = .ok s1 ∧
      s1.gfx_ = rowGfx s.gfx_ (s.V_ X + s.V_ Y * 64) (s.mem_ s.I_) 8 ∧
      s1.V_ = rowV (store s.V_ 0xF 0) s.gfx_ (s.V_ X + s.V_ Y * 64) (s.mem_ s.I_) 8 ∧
      s1.pc_ = s.pc_ + 2 ∧ s1.I_ = s.I_ ∧ s1.mem_ = s.mem_ ∧ s1.should_redraw_ = true := by
  have hex : execute { s with opcode_ := fetch s } =
      op_DXYN X Y 1 { s with opcode_ := fetch s } := by
    rw [execute_nibbles _ 13 X Y 1 (by omega) (by omega) (by omega) (by omega)
      (by show fetch s = _; omega), dispatch_famD]
  have hd := op_DXY1_eq { s with opcode_ := fetch s } X Y (by omega) (by omega) hI hin
  refine ⟨_, Step_of_execute s _ hpc (hex.trans hd), ?_, ?_, ?_, ?_, ?_, ?_⟩
  · rw [updateTimers_gfx]; rfl
  · rw [updateTimers_V]; rfl
  · rw [updateTimers_pc]; show (s.pc_ + 2) % 65536 = _; omega
  · rw [updateTimers_I]; rfl
  · rw [updateTimers_mem]; rfl
  · rw [updateTimers_should_redraw]; rfl

theorem draw_twice (s : Chip8) (X Y : Nat) (hX : X < 15) (hY : Y < 15)
    (hpc : s.pc_ + 3 < 4096) (hop1 : fetch s = 0xD001 + 256 * X + 16 * Y)
    (hop2 : wordAt s.mem_ (s.pc_ + 2) = 0xD001 + 256 * X + 16 * Y) (hI : s.I_ < 4096)
    (hx : s.V_ X ≤ 56) (hy : s.V_ Y ≤ 31) (hclear : ∀ k, k < 2048 → s.gfx_ k = 0) :
    ∃ s1 s2, Step s = .ok s1 ∧ Step s1 = .ok s2 ∧ s1.V_ 15 = 0 ∧
      s2.V_ 15 = (if s.mem_ s.I_ % 256 = 0 then 0 else 1) ∧
      ∀ k, k < 2048 → s2.gfx_ k = 0 := by
  obtain ⟨s1, h1, hg1, hv1, hpc1, hI1, hm1, _⟩ :=
    Step_DXY1 s X Y hX hY (by omega) hop1 hI (by omega)
  have hno : ¬ ∃ xl, xl < 8 ∧ s.mem_ s.I_ &&& (0x80 >>> xl) ≠ 0 ∧
      s.gfx_ (s.V_ X + s.V_ Y * 64 + xl) = 1 := by
    rintro ⟨xl, hxl, _, h⟩
    rw [hclear _ (by omega)] at h
    exact absurd h (by decide)
  rw [rowV_neg _ _ _ _ _ hno] at hv1
  have hx1 : s1.V_ X = s.V_ X := by rw [hv1]; exact store_other _ _ _ _ (by omega)
  have hy1 : s1.V_ Y = s.V_ Y := by rw [hv1]; exact store_other _ _ _ _ (by omega)
  obtain ⟨s2, h2, hg2, hv2, _, _, _, _⟩ :=
    Step_DXY1 s1 X Y hX hY (by omega) (by unfold fetch; rw [hm1, hpc1]; exact hop2)
      (by omega) (by rw [hx1, hy1]; omega)
  rw [hx1, hy1, hI1, hm1, hg1] at hg2 hv2
  refine ⟨s1, s2, h1, h2, by rw [hv1]; exact store_same _ _ _, ?_, ?_⟩
  · rw [hv2]
    by_cases hz : s.mem_ s.I_ % 256 = 0
    · rw [if_pos hz, rowV_neg, store_same]
      rintro ⟨xl, hxl, hb, _⟩
      exact (sprite_bit_iff _).mp ⟨xl, hxl, hb⟩ hz
    · rw [if_neg hz]
      obtain ⟨xl, hxl, hb⟩ := (sprite_bit_iff _).mpr hz
      rw [rowV_pos _ _ _ _ _ ⟨xl, hxl, hb, by
        rw [rowGfx_apply, if_pos ⟨by omega, by omega, by
          rw [Nat.add_sub_cancel_left]; exact hb⟩, hclear _ (by omega)]
        decide⟩, store_same]
  · intro k hk
    rw [hg2, rowGfx_apply, rowGfx_apply]
    by_cases hc : s.V_ X + s.V_ Y * 64 ≤ k ∧ k < s.V_ X + s.V_ Y * 64 + 8 ∧
        s.mem_ s.I_ &&& (0x80 >>> (k - (s.V_ X + s.V_ Y * 64))) ≠ 0
    · rw [if_pos hc, if_pos hc, hclear k hk]
      decide
    · rw [if_neg hc, if_neg hc, hclear k hk]

theorem Step_00E0 (s : Chip8) (hpc : s.pc_ + 1 < 4096) (hop : fetch s = 0x00E0) :
    ∃ s1, Step s = .ok s1 ∧ (∀ k, s1.gfx_ k = 0) ∧ s1.should_redraw_ = true ∧
      s1.pc_ = s.pc_ + 2 := by
  have hex : execute { s with opcode_ := fetch s } =
      op_00E0 { s with opcode_ := fetch s } := by
    rw [execute_nibbles _ 0 0 14 0 (by omega) (by omega) (by omega) (by omega)
      (by show fetch s = _; omega), dispatch_fam0, dispatch0_E0]
  refine ⟨_, Step_of_execute s _ hpc (hex.trans rfl), ?_, ?_, ?_⟩
  · intro k; rw [updateTimers_gfx]; rfl
  · rw [updateTimers_should_redraw]; rfl
  · rw [updateTimers_pc]; show (s.pc_ + 2) % 65536 = _; omega

/-- Claim C10, amended: `00E0` leaves every pixel off; and from a frame buffer with every pixel
off, with `X`, `Y` below 15, `V[X] <= 56`, `V[Y] <= 31` and `I_` inside memory, two successive
`DXY1` leave `V[15] = 0` after the first draw, `V[15] = 1` after the second when the sprite
byte `mem[I]` is nonzero and `V[15] = 0` when it is zero, and every pixel off again. -/
theorem C10_draw_twice_cleared (s : Chip8) (X Y : Nat) (hX : X < 15) (hY : Y < 15)
    (hpc : s.pc_ + 3 < 4096) (hop1 : fetch s = 0xD001 + 256 * X + 16 * Y)
    (hop2 : wordAt s.mem_ (s.pc_ + 2) = 0xD001 + 256 * X + 16 * Y) (hI : s.I_ < 4096)
    (hx : s.V_ X ≤ 56) (hy : s.V_ Y ≤ 31) (hclear : ∀ k, k < 2048 → s.gfx_ k = 0) :
    (∀ s0 : Chip8, s0.pc_ + 1 < 4096 → fetch s0 = 0x00E0 →
      ∃ s', Step s0 = .ok s' ∧ ∀ k, k < 2048 → s'.gfx_ k = 0) ∧
    ∃ s1 s2, Step s = .ok s1 ∧ Step s1 = .ok s2 ∧ s1.V_ 15 = 0 ∧
      s2.V_ 15 = (if s.mem_ s.I_ % 256 = 0 then 0 else 1) ∧
      ∀ k, k < 2048 → s2.gfx_ k = 0 := by
  refine ⟨?_, draw_twice s X Y hX hY hpc hop1 hop2 hI hx hy hclear⟩
  intro s0 hpc0 hop0
  obtain ⟨s', h, hg, _⟩ := Step_00E0 s0 hpc0 hop0
  exact ⟨s', h, fun k _ => hg k⟩

/-- Instance of C10: drawing the first row of the glyph `0` (byte `0xF0` at address 0) twice
at the origin leaves `VF = 0`, then `VF = 1`. -/
theorem C10_draw_twice_cleared_witness :
    ∃ s1 s2, Step (loaded [0xD0, 0x11, 0xD0, 0x11]) = .ok s1 ∧ Step s1 = .ok s2 ∧
      s1.V_ 15 = 0 ∧ s2.V_ 15 = 1 ∧ ∀ k, k < 2048 → s2.gfx_ k = 0 :=
  (C10_draw_twice_cleared (loaded [0xD0, 0x11, 0xD0, 0x11]) 0 1 (by decide) (by decide)
    (by decide) (by decide) (by decide) (by decide) (by decide) (by decide)
    (fun _ _ => rfl)).2

/-- Claim C10 as stated fails: on the machine whose sprite byte `mem[0x300]` is zero, with a
frame buffer that is all off, `V0 = V1 = 0` and `D011` at `0x200` and `0x202`, the second draw
does not leave `V[15] = 1`. -/
theorem C10_counterexample :
    (fetch (withI 0x300 (loaded [0xD0, 0x11, 0xD0, 0x11])) = 0xD001 + 256 * 0 + 16 * 1 ∧
      wordAt (withI 0x300 (loaded [0xD0, 0x11, 0xD0, 0x11])).mem_ 0x202 = 0xD011 ∧
      (withI 0x300 (loaded [0xD0, 0x11, 0xD0, 0x11])).I_ < 4096 ∧
      (withI 0x300 (loaded [0xD0, 0x11, 0xD0, 0x11])).V_ 0 ≤ 56 ∧
      (withI 0x300 (loaded [0xD0, 0x11, 0xD0, 0x11])).V_ 1 ≤ 31 ∧
      ∀ k, k < 2048 → (withI 0x300 (loaded [0xD0, 0x11, 0xD0, 0x11])).gfx_ k = 0) ∧
    ¬ ∃ s1 s2, Step (withI 0x300 (loaded [0xD0, 0x11, 0xD0, 0x11])) = .ok s1 ∧
      Step s1 = .ok s2 ∧ s1.V_ 15 = 0 ∧ s2.V_ 15 = 1 ∧ ∀ k, k < 2048 → s2.gfx_ k = 0 := by
  refine ⟨⟨by decide, by decide, by decide, by decide, by decide, fun _ _ => rfl⟩, ?_⟩
  rintro ⟨s1, s2, h1, h2, _, h4, _⟩
  obtain ⟨t1, t2, g1, g2, _, g4, _⟩ := draw_twice (withI 0x300 (loaded [0xD0, 0x11, 0xD0, 0x11]))
    0 1 (by decide) (by decide) (by decide) (by decide) (by decide) (by decide) (by decide)
    (by decide) (fun _ _ => rfl)
  rw [h1] at g1
  cases g1
  rw [h2] at g2
  cases g2
  rw [h4] at g4
  revert g4
  decide

/-! ## Binary-coded decimal -/

theorem execute_Fsub (s : Chip8) (X hi lo : Nat) (hX : X < 16) (hhi : hi < 16) (hlo : lo < 16)
    (hop : s.opcode_ = 0xF000 + 256 * X + 16 * hi + lo) :
    execute s = dispatchF X (hi * 16 + lo) s := by
  rw [execute_nibbles _ 15 X hi lo (by omega) (by omega) (by omega) (by omega)
    (by omega), dispatch_famF]

theorem dispatchF_33 (X : Nat) (s : Chip8) : dispatchF X (3 * 16 + 3) s = op_FX33 X s := by
  unfold dispatchF
  rw [if_neg (by decide), if_neg (by decide), if_neg (by decide), if_neg (by decide),
    if_neg (by decide), if_neg (by decide), if_pos (by decide)]

theorem op_FX33_spec (u : Chip8) (X : Nat) (hI : u.I_ + 2 < 4096) :
    ∃ u1, op_FX33 X u = .ok u1 ∧
      u1.mem_ u.I_ = u.V_ X / 100 % 256 ∧ u1.mem_ (u.I_ + 1) = u.V_ X / 10 % 10 % 256 ∧
      u1.mem_ (u.I_ + 2) = u.V_ X % 100 % 10 % 256 ∧
      (∀ a, a ≠ u.I_ → a ≠ u.I_ + 1 → a ≠ u.I_ + 2 → u1.mem_ a = u.mem_ a) ∧
      u1.V_ = u.V_ ∧ u1.I_ = u.I_ := by
  refine ⟨_, (by simp only [op_FX33]; rw [if_pos (show u.I_ + 2 < MEMORY_LIMIT from hI)]),
    ?_, ?_, ?_, ?_, ?_, ?_⟩
  · show store (store (store u.mem_ u.I_ _) (u.I_ + 1) _) (u.I_ + 2) _ u.I_ = _
    rw [store_other _ _ _ _ (by omega), store_other _ _ _ _ (by omega), store_same]
  · show store (store (store u.mem_ u.I_ _) (u.I_ + 1) _) (u.I_ + 2) _ (u.I_ + 1) = _
    rw [store_other _ _ _ _ (by omega), store_same]
  · show store (store (store u.mem_ u.I_ _) (u.I_ + 1) _) (u.I_ + 2) _ (u.I_ + 2) = _
    rw [store_same]
  · intro a ha0 ha1 ha2
    show store (store (store u.mem_ u.I_ _) (u.I_ + 1) _) (u.I_ + 2) _ a = _
    rw [store_other _ _ _ _ ha2, store_other _ _ _ _ ha1, store_other _ _ _ _ ha0]
  · rfl
  · rfl

/-- Claim C11: `FX33` on a byte `v = V[X]` with `I + 2 < 4096` leaves `v / 100`,
`(v / 10) mod 10` and `v mod 10` at `I`, `I + 1`, `I + 2`, three digits of at most 9 whose
decimal value is `v`; every other memory byte, every register and `I_` are unchanged.  So
`v = 234` writes 2, 3, 4. -/
theorem C11_bcd (s : Chip8) (X : Nat) (hX : X < 16) (hpc : s.pc_ + 1 < 4096)
    (hop : fetch s = 0xF033 + 256 * X) (hv : s.V_ X < 256) (hI : s.I_ + 2 < 4096) :
    ∃ s1, Step s = .ok s1 ∧
      s1.mem_ s.I_ = s.V_ X / 100 ∧ s1.mem_ (s.I_ + 1) = s.V_ X / 10 % 10 ∧
      s1.mem_ (s.I_ + 2) = s.V_ X % 10 ∧
      100 * s1.mem_ s.I_ + 10 * s1.mem_ (s.I_ + 1) + s1.mem_ (s.I_ + 2) = s.V_ X ∧
      s1.mem_ s.I_ ≤ 9 ∧ s1.mem_ (s.I_ + 1) ≤ 9 ∧ s1.mem_ (s.I_ + 2) ≤ 9 ∧
      (∀ a, a ≠ s.I_ → a ≠ s.I_ + 1 → a ≠ s.I_ + 2 → s1.mem_ a = s.mem_ a) ∧
      s1.V_ = s.V_ ∧ s1.I_ = s.I_ ∧
      (s.V_ X = 234 → s1.mem_ s.I_ = 2 ∧ s1.mem_ (s.I_ + 1) = 3 ∧ s1.mem_ (s.I_ + 2) = 4) := by
  have hex : execute { s with opcode_ := fetch s } =
      op_FX33 X { s with opcode_ := fetch s } := by
    rw [execute_Fsub _ X 3 3 hX (by omega) (by omega) (by show fetch s = _; omega),
      dispatchF_33]
  obtain ⟨u1, hu, m0, m1, m2, mo, hV, hI1⟩ := op_FX33_spec { s with opcode_ := fetch s } X hI
  have h0 : (updateTimers u1).mem_ s.I_ = s.V_ X / 100 := by
    rw [updateTimers_mem]
    have : u1.mem_ s.I_ = s.V_ X / 100 % 256 := m0
    omega
  have h1 : (updateTimers u1).mem_ (s.I_ + 1) = s.V_ X / 10 % 10 := by
    rw [updateTimers_mem]
    have : u1.mem_ (s.I_ + 1) = s.V_ X / 10 % 10 % 256 := m1
    omega
  have h2 : (updateTimers u1).mem_ (s.I_ + 2) = s.V_ X % 10 := by
    rw [updateTimers_mem]
    have : u1.mem_ (s.I_ + 2) = s.V_ X % 100 % 10 % 256 := m2
    omega
  refine ⟨updateTimers u1, Step_of_execute s _ hpc (hex.trans hu), h0, h1, h2, ?_, ?_, ?_, ?_,
    ?_, ?_, ?_, ?_⟩
  · rw [h0, h1, h2]; omega
  · rw [h0]; omega
  · rw [h1]; omega
  · rw [h2]; omega
  · intro a ha0 ha1 ha2
    rw [updateTimers_mem]
    exact mo a ha0 ha1 ha2
  · rw [updateTimers_V]; exact hV
  · rw [updateTimers_I]; exact hI1
  · intro hv234
    rw [h0, h1, h2, hv234]
    exact ⟨by decide, by decide, by decide⟩

/-- Instance of C11: `F133` with `V1 = 234` and `I_ = 0x300` writes 2, 3, 4 at `0x300`. -/
theorem C11_bcd_witness :
    ∃ s1, Step (withI 0x300 (machine [0xF1, 0x33] [0, 234])) = .ok s1 ∧
      s1.mem_ 0x300 = 2 ∧ s1.mem_ 0x301 = 3 ∧ s1.mem_ 0x302 = 4 := by
  obtain ⟨s1, h, _, _, _, _, _, _, _, _, _, _, h234⟩ :=
    C11_bcd (withI 0x300 (machine [0xF1, 0x33] [0, 234])) 1 (by decide) (by decide)
      (by decide) (by decide) (by decide)
  exact ⟨s1, h, h234 (by decide)⟩

/-! ## Bulk store and load -/

theorem copy_n_apply (src : Nat → Nat) :
    ∀ (n first : Nat) (dst : Nat → Nat) (result a : Nat),
      copy_n src first n dst result a =
        if result ≤ a ∧ a < result + n then src (first + (a - result)) else dst a := by
  intro n
  induction n with
  | zero =>
    intro first dst result a
    rw [if_neg (by omega)]
    rfl
  | succ n ih =>
    intro first dst result a
    show copy_n src (first + 1) n (store dst result (src first)) (result + 1) a = _
    rw [ih]
    by_cases h1 : result + 1 ≤ a ∧ a < result + 1 + n
    · rw [if_pos h1, if_pos (by omega)]
      congr 1
      omega
    · rw [if_neg h1]
      by_cases h2 : a = result
      · rw [h2, store_same, if_pos (by omega), Nat.sub_self, Nat.add_zero]
      · rw [store_other _ _ _ _ h2, if_neg (by omega)]

theorem dispatchF_55 (X : Nat) (s : Chip8) : dispatchF X (5 * 16 + 5) s = op_FX55 s := by
  unfold dispatchF
  rw [if_neg (by decide), if_neg (by decide), if_neg (by decide), if_neg (by decide),
    if_neg (by decide), if_neg (by decide), if_neg (by decide), if_pos (by decide)]

theorem dispatchF_65 (X : Nat) (s : Chip8) : dispatchF X (6 * 16 + 5) s = op_FX65 s := by
  unfold dispatchF
  rw [if_neg (by decide), if_neg (by decide), if_neg (by decide), if_neg (by decide),
    if_neg (by decide), if_neg (by decide), if_neg (by decide), if_neg (by decide),
    if_pos (by decide)]

theorem op_FX55_spec (u : Chip8) (X : Nat) (hX : u.opcode_ / 256 % 16 = X)
    (hI : u.I_ + X < 4096) :
    ∃ u1, op_FX55 u = .ok u1 ∧
      (∀ a, u1.mem_ a = if u.I_ ≤ a ∧ a ≤ u.I_ + X then u.V_ (a - u.I_) else u.mem_ a) ∧
      u1.V_ = u.V_ ∧ u1.I_ = u.I_ + X + 1 ∧ u1.pc_ = (u.pc_ + 2) % 65536 := by
  refine ⟨_, (by
    simp only [op_FX55]
    rw [and_0F00, hX, if_pos (show u.I_ + X + 1 ≤ MEMORY_LIMIT by
      simp only [MEMORY_LIMIT]; omega)]), ?_, ?_, ?_, ?_⟩
  · intro a
    show copy_n u.V_ 0 (X + 1) u.mem_ u.I_ a = _
    rw [copy_n_apply, Nat.zero_add]
    by_cases h : u.I_ ≤ a ∧ a ≤ u.I_ + X
    · rw [if_pos h, if_pos (by omega)]
    · rw [if_neg h, if_neg (by omega)]
  · rfl
  · show (u.I_ + X + 1) % 65536 = _
    omega
  · rfl

theorem op_FX65_spec (u : Chip8) (X : Nat) (hX : u.opcode_ / 256 % 16 = X)
    (hI : u.I_ + X < 4096) :
    ∃ u1, op_FX65 u = .ok u1 ∧
      (∀ i, u1.V_ i = if i ≤ X then u.mem_ (u.I_ + i) else u.V_ i) ∧
      u1.mem_ = u.mem_ ∧ u1.I_ = u.I_ + X + 1 ∧ u1.pc_ = (u.pc_ + 2) % 65536 := by
  refine ⟨_, (by
    simp only [op_FX65]
    rw [and_0F00, hX, if_pos (show u.I_ + X + 1 ≤ MEMORY_LIMIT by
      simp only [MEMORY_LIMIT]; omega)]), ?_, ?_, ?_, ?_⟩
  · intro i
    show copy_n u.mem_ u.I_ (X + 1) u.V_ 0 i = _
    rw [copy_n_apply, Nat.sub_zero]
    by_cases h : i ≤ X
    · rw [if_pos h, if_pos (by omega)]
    · rw [if_neg h, if_neg (by omega)]
  · rfl
  · show (u.I_ + X + 1) % 65536 = _
    omega
  · rfl

theorem Step_FX55 (s : Chip8) (X : Nat) (hX : X < 16) (hpc : s.pc_ + 1 < 4096)
    (hop : fetch s = 0xF055 + 256 * X) (hI : s.I_ + X < 4096) :
    ∃ s1, Step s = .ok s1 ∧
      (∀ a, s1.mem_ a = if s.I_ ≤ a ∧ a ≤ s.I_ + X then s.V_ (a - s.I_) else s.mem_ a) ∧
      s1.V_ = s.V_ ∧ s1.I_ = s.I_ + X + 1 ∧ s1.pc_ = s.pc_ + 2 := by
  have hex : execute { s with opcode_ := fetch s } = op_FX55 { s with opcode_ := fetch s } := by
    rw [execute_Fsub _ X 5 5 hX (by omega) (by omega) (by show fetch s = _; omega),
      dispatchF_55]
  obtain ⟨u1, hu, hm, hV, hI1, hp⟩ := op_FX55_spec { s with opcode_ := fetch s } X
    (by show fetch s / 256 % 16 = X; omega) hI
  refine ⟨updateTimers u1, Step_of_execute s _ hpc (hex.trans hu), ?_, ?_, ?_, ?_⟩
  · intro a; rw [updateTimers_mem]; exact hm a
  · rw [updateTimers_V]; exact hV
  · rw [updateTimers_I]; exact hI1
  · rw [updateTimers_pc, hp]; show (s.pc_ + 2) % 65536 = _; omega

theorem Step_FX65 (s : Chip8) (X : Nat) (hX : X < 16) (hpc : s.pc_ + 1 < 4096)
    (hop : fetch s = 0xF065 + 256 * X) (hI : s.I_ + X < 4096) :
    ∃ s1, Step s = .ok s1 ∧
      (∀ i, s1.V_ i = if i ≤ X then s.mem_ (s.I_ + i) else s.V_ i) ∧
      s1.mem_ = s.mem_ ∧ s1.I_ = s.I_ + X + 1 ∧ s1.pc_ = s.pc_ + 2 := by
  have hex : execute { s with opcode_ := fetch s } = op_FX65 { s with opcode_ := fetch s } := by
    rw [execute_Fsub _ X 6 5 hX (by omega) (by omega) (by show fetch s = _; omega),
      dispatchF_65]
  obtain ⟨u1, hu, hv, hM, hI1, hp⟩ := op_FX65_spec { s with opcode_ := fetch s } X
    (by show fetch s / 256 % 16 = X; omega) hI
  refine ⟨updateTimers u1, Step_of_execute s _ hpc (hex.trans hu), ?_, ?_, ?_, ?_⟩
  · intro i; rw [updateTimers_V]; exact hv i
  · rw [updateTimers_mem]; exact hM
  · rw [updateTimers_I]; exact hI1
  · rw [updateTimers_pc, hp]; show (s.pc_ + 2) % 65536 = _; omega


/-- Claim C12: with `X` in 0..15 and `I + X < 4096`, `FX55` leaves `mem[I + i] = V[i]` for
`i <= X`, every other memory byte and every register unchanged and `I_ = I + X + 1`; `FX65`
leaves `V[i] = mem[I + i]` for `i <= X`, the registers above `X` and all of memory unchanged
and `I_ = I + X + 1`.  So `FX65` run from the starting `I` on the memory that `FX55` left
reloads the stored register values. -/
theorem C12_store_load (s : Chip8) (X : Nat) (hX : X < 16) (hpc : s.pc_ + 1 < 4096)
    (hI : s.I_ + X < 4096) :
    (fetch s = 0xF055 + 256 * X →
      ∃ s1, Step s = .ok s1 ∧
        (∀ i, i ≤ X → s1.mem_ (s.I_ + i) = s.V_ i) ∧
        (∀ a, (a < s.I_ ∨ s.I_ + X < a) → s1.mem_ a = s.mem_ a) ∧
        s1.V_ = s.V_ ∧ s1.I_ = s.I_ + X + 1 ∧
        ∀ t : Chip8, t.mem_ = s1.mem_ → t.I_ = s.I_ → t.pc_ + 1 < 4096 →
          fetch t = 0xF065 + 256 * X →
          ∃ t1, Step t = .ok t1 ∧ ∀ i, i ≤ X → t1.V_ i = s.V_ i) ∧
    (fetch s = 0xF065 + 256 * X →
      ∃ s1, Step s = .ok s1 ∧
        (∀ i, i ≤ X → s1.V_ i = s.mem_ (s.I_ + i)) ∧
        (∀ i, X < i → s1.V_ i = s.V_ i) ∧
        s1.mem_ = s.mem_ ∧ s1.I_ = s.I_ + X + 1) := by
  constructor
  · intro hop
    obtain ⟨s1, h1, hm, hV, hI1, _⟩ := Step_FX55 s X hX hpc hop hI
    have hst : ∀ i, i ≤ X → s1.mem_ (s.I_ + i) = s.V_ i := by
      intro i hi
      rw [hm, if_pos (by omega), Nat.add_sub_cancel_left]
    refine ⟨s1, h1, hst, ?_, hV, hI1, ?_⟩
    · intro a ha
      rw [hm, if_neg (by omega)]
    · intro t htm htI htpc htop
      obtain ⟨t1, g1, gv, _, _, _⟩ := Step_FX65 t X hX htpc htop (by omega)
      refine ⟨t1, g1, ?_⟩
      intro i hi
      rw [gv, if_pos hi, htm, htI]
      exact hst i hi
  · intro hop
    obtain ⟨s1, h1, hv, hM, hI1, _⟩ := Step_FX65 s X hX hpc hop hI
    refine ⟨s1, h1, ?_, ?_, hM, hI1⟩
    · intro i hi
      rw [hv, if_pos hi]
    · intro i hi
      rw [hv, if_neg (by omega)]

/-- Instances of C12: `F255` with `V0, V1, V2 = 7, 8, 9` and `I_ = 0x300` stores them at
`0x300..0x302` and leaves `I_ = 0x303`; `F165` with `I_ = 0` loads the font bytes `0xF0`,
`0x90` into `V0`, `V1` and keeps `V2`. -/
theorem C12_store_load_witness :
    (∃ s1, Step (withI 0x300 (machine [0xF2, 0x55] [7, 8, 9])) = .ok s1 ∧
      s1.mem_ 0x300 = 7 ∧ s1.mem_ 0x301 = 8 ∧ s1.mem_ 0x302 = 9 ∧ s1.I_ = 0x303) ∧
    (∃ s1, Step (machine [0xF1, 0x65] [7, 8, 9]) = .ok s1 ∧
      s1.V_ 0 = 0xF0 ∧ s1.V_ 1 = 0x90 ∧ s1.V_ 2 = 9 ∧ s1.I_ = 2) := by
  constructor
  · obtain ⟨s1, h, hm, _, _, hI, _⟩ :=
      (C12_store_load (withI 0x300 (machine [0xF2, 0x55] [7, 8, 9])) 2 (by decide) (by decide)
        (by decide)).1 (by decide)
    exact ⟨s1, h, hm 0 (by decide), hm 1 (by decide), hm 2 (by decide), hI⟩
  · obtain ⟨s1, h, hv, hk, _, hI⟩ :=
      (C12_store_load (machine [0xF1, 0x65] [7, 8, 9]) 1 (by decide) (by decide)
        (by decide)).2 (by decide)
    exact ⟨s1, h, hv 0 (by decide), hv 1 (by decide), hk 2 (by decide), hI⟩

/-! ## Shifts -/

theorem dispatch8_6 (X Y : Nat) (s : Chip8) : dispatch8 X Y 6 s = op_8XY6 X s := rfl

theorem dispatch8_E (X Y : Nat) (s : Chip8) : dispatch8 X Y 14 s = op_8XYE X s := rfl

theorem op_8XY6_spec (u : Chip8) (X : Nat) (hX : X ≠ 15) :
    ∃ u1, op_8XY6 X u = .ok u1 ∧ u1.V_ X = u.V_ X / 2 ∧ u1.V_ 15 = u.V_ X % 2 ∧
      ∀ i, i ≠ X → i ≠ 15 → u1.V_ i = u.V_ i := by
  refine ⟨_, rfl, ?_, ?_, ?_⟩
  · show store (store u.V_ 15 _) X _ X = _
    rw [store_same, store_other _ _ _ _ hX, Nat.shiftRight_eq_div_pow]
  · show store (store u.V_ 15 _) X _ 15 = _
    rw [store_other _ _ _ _ (Ne.symm hX), store_same]
    have h := Nat.and_pow_two_sub_one_eq_mod (u.V_ X) 1
    have h' : u.V_ X &&& 1 = u.V_ X % 2 := h
    rw [h']
    omega
  · intro i hi hi15
    show store (store u.V_ 15 _) X _ i = _
    rw [store_other _ _ _ _ hi, store_other _ _ _ _ hi15]

theorem op_8XYE_spec (u : Chip8) (X : Nat) (hX : X ≠ 15) :
    ∃ u1, op_8XYE X u = .ok u1 ∧ u1.V_ X = 2 * u.V_ X % 256 ∧
      u1.V_ 15 = u.V_ X / 128 % 256 ∧
      ∀ i, i ≠ X → i ≠ 15 → u1.V_ i = u.V_ i := by
  refine ⟨_, rfl, ?_, ?_, ?_⟩
  · show store (store u.V_ 15 _) X _ X = _
    rw [store_same, store_other _ _ _ _ hX, Nat.shiftLeft_eq]
    omega
  · show store (store u.V_ 15 _) X _ 15 = _
    rw [store_other _ _ _ _ (Ne.symm hX), store_same, Nat.shiftRight_eq_div_pow]
  · intro i hi hi15
    show store (store u.V_ 15 _) X _ i = _
    rw [store_other _ _ _ _ hi, store_other _ _ _ _ hi15]


theorem Step_8XY6 (s : Chip8) (X Y : Nat) (hX : X < 15) (hY : Y < 16) (hpc : s.pc_ + 1 < 4096)
    (hop : fetch s = 0x8006 + 256 * X + 16 * Y) :
    ∃ s1, Step s = .ok s1 ∧ s1.V_ X = s.V_ X / 2 ∧ s1.V_ 15 = s.V_ X % 2 ∧
      ∀ i, i ≠ X → i ≠ 15 → s1.V_ i = s.V_ i := by
  have hex : execute { s with opcode_ := fetch s } =
      op_8XY6 X { s with opcode_ := fetch s } := by
    rw [execute_nibbles _ 8 X Y 6 (by omega) (by omega) (by omega) (by omega)
      (by show fetch s = _; omega), dispatch_fam8, dispatch8_6]
  obtain ⟨u1, hu, hx, hf, ho⟩ := op_8XY6_spec { s with opcode_ := fetch s } X (by omega)
  refine ⟨updateTimers u1, Step_of_execute s _ hpc (hex.trans hu), ?_, ?_, ?_⟩
  · rw [updateTimers_V]; exact hx
  · rw [updateTimers_V]; exact hf
  · intro i h1 h2; rw [updateTimers_V]; exact ho i h1 h2

theorem Step_8XYE (s : Chip8) (X Y : Nat) (hX : X < 15) (hY : Y < 16) (hpc : s.pc_ + 1 < 4096)
    (hop : fetch s = 0x800E + 256 * X + 16 * Y) :
    ∃ s1, Step s = .ok s1 ∧ s1.V_ X = 2 * s.V_ X % 256 ∧ s1.V_ 15 = s.V_ X / 128 % 256 ∧
      ∀ i, i ≠ X → i ≠ 15 → s1.V_ i = s.V_ i := by
  have hex : execute { s with opcode_ := fetch s } =
      op_8XYE X { s with opcode_ := fetch s } := by
    rw [execute_nibbles _ 8 X Y 14 (by omega) (by omega) (by omega) (by omega)
      (by show fetch s = _; omega), dispatch_fam8, dispatch8_E]
  obtain ⟨u1, hu, hx, hf, ho⟩ := op_8XYE_spec { s with opcode_ := fetch s } X (by omega)
  refine ⟨updateTimers u1, Step_of_execute s _ hpc (hex.trans hu), ?_, ?_, ?_⟩
  · rw [updateTimers_V]; exact hx
  · rw [updateTimers_V]; exact hf
  · intro i h1 h2; rw [updateTimers_V]; exact ho i h1 h2

/-- Claim C13: with `X` below 15, any `Y` and a byte `vx = V[X]`, `8XY6` leaves
`V[X] = vx div 2` and `V[15] = vx mod 2`, and `8XYE` leaves `V[X] = (2 * vx) mod 256` and
`V[15] = vx div 128`.  Both are functions of `vx` alone: a second machine with the same word and
the same `V[X]` gets the same two values; `V[Y]` is unchanged when `Y` is neither `X` nor 15. -/
theorem C13_shifts (s : Chip8) (X Y : Nat) (hX : X < 15) (hY : Y < 16) (hpc : s.pc_ + 1 < 4096)
    (hv : s.V_ X < 256) :
    (fetch s = 0x8006 + 256 * X + 16 * Y →
      ∃ s1, Step s = .ok s1 ∧ s1.V_ X = s.V_ X / 2 ∧ s1.V_ 15 = s.V_ X % 2 ∧
        (Y ≠ X → Y ≠ 15 → s1.V_ Y = s.V_ Y) ∧
        ∀ t : Chip8, t.pc_ + 1 < 4096 → fetch t = fetch s → t.V_ X = s.V_ X →
          ∃ t1, Step t = .ok t1 ∧ t1.V_ X = s1.V_ X ∧ t1.V_ 15 = s1.V_ 15) ∧
    (fetch s = 0x800E + 256 * X + 16 * Y →
      ∃ s1, Step s = .ok s1 ∧ s1.V_ X = 2 * s.V_ X % 256 ∧ s1.V_ 15 = s.V_ X / 128 ∧
        (Y ≠ X → Y ≠ 15 → s1.V_ Y = s.V_ Y) ∧
        ∀ t : Chip8, t.pc_ + 1 < 4096 → fetch t = fetch s → t.V_ X = s.V_ X →
          ∃ t1, Step t = .ok t1 ∧ t1.V_ X = s1.V_ X ∧ t1.V_ 15 = s1.V_ 15) := by
  constructor
  · intro hop
    obtain ⟨s1, h1, hx, hf, ho⟩ := Step_8XY6 s X Y hX hY hpc hop
    refine ⟨s1, h1, hx, hf, ho Y, ?_⟩
    intro t htpc htop htv
    obtain ⟨t1, g1, gx, gf, _⟩ := Step_8XY6 t X Y hX hY htpc (htop.trans hop)
    exact ⟨t1, g1, by rw [gx, hx, htv], by rw [gf, hf, htv]⟩
  · intro hop
    obtain ⟨s1, h1, hx, hf, ho⟩ := Step_8XYE s X Y hX hY hpc hop
    refine ⟨s1, h1, hx, by rw [hf]; omega, ho Y, ?_⟩
    intro t htpc htop htv
    obtain ⟨t1, g1, gx, gf, _⟩ := Step_8XYE t X Y hX hY htpc (htop.trans hop)
    exact ⟨t1, g1, by rw [gx, hx, htv], by rw [gf, hf, htv]⟩

/-- Instances of C13: `8126` on `V1 = 5`, `V2 = 9` leaves `V1 = 2`, `VF = 1`, `V2 = 9`;
`812E` on `V1 = 0x81` leaves `V1 = 2`, `VF = 1`. -/
theorem C13_shifts_witness :
    (∃ s1, Step (machine [0x81, 0x26] [0, 5, 9]) = .ok s1 ∧
      s1.V_ 1 = 2 ∧ s1.V_ 15 = 1 ∧ s1.V_ 2 = 9) ∧
    (∃ s1, Step (machine [0x81, 0x2E] [0, 0x81, 9]) = .ok s1 ∧ s1.V_ 1 = 2 ∧ s1.V_ 15 = 1) := by
  constructor
  · obtain ⟨s1, h, hx, hf, hy, _⟩ := (C13_shifts (machine [0x81, 0x26] [0, 5, 9]) 1 2
      (by decide) (by decide) (by decide) (by decide)).1 (by decide)
    exact ⟨s1, h, hx, hf, hy (by decide) (by decide)⟩
  · obtain ⟨s1, h, hx, hf, _, _⟩ := (C13_shifts (machine [0x81, 0x2E] [0, 0x81, 9]) 1 2
      (by decide) (by decide) (by decide) (by decide)).2 (by decide)
    exact ⟨s1, h, hx, hf⟩

/-! ## The flag register as destination -/

/-- Claim C14 fails on the code: with `X = 15` each of `8XY4`, `8XY5`, `8XY6`, `8XY7`, `8XYE`
writes the flag first and the result second, both into `V[15]`, so the result is what stays.
`8F04` on `V0 = 5`, `VF = 0` (no carry) leaves `VF = 5`; `8F05` on `V0 = 1`, `VF = 5` (no
borrow) leaves `VF = 0`; `8F06` on `VF = 1` (bit 1 shifted out) leaves `VF = 0`; `8F07` on
`V0 = 5`, `VF = 0` (no borrow) leaves `VF = 4`; `8F0E` on `VF = 0x80` (bit 1 shifted out)
leaves `VF = 2`. -/
theorem C14_flag_overwritten :
    (∃ s1, Step (machine [0x8F, 0x04] [5]) = .ok s1 ∧ s1.V_ 15 = 5) ∧
    (∃ s1, Step (machine [0x8F, 0x05] [1, 0, 0, 0, 0, 0, 0, 0, 0, 0, 0, 0, 0, 0, 0, 5]) = .ok s1 ∧
      s1.V_ 15 = 0) ∧
    (∃ s1, Step (machine [0x8F, 0x06] [0, 0, 0, 0, 0, 0, 0, 0, 0, 0, 0, 0, 0, 0, 0, 1]) = .ok s1 ∧
      s1.V_ 15 = 0) ∧
    (∃ s1, Step (machine [0x8F, 0x07] [5]) = .ok s1 ∧ s1.V_ 15 = 4) ∧
    (∃ s1, Step (machine [0x8F, 0x0E] [0, 0, 0, 0, 0, 0, 0, 0, 0, 0, 0, 0, 0, 0, 0, 0x80]) =
      .ok s1 ∧ s1.V_ 15 = 2) :=
  ⟨⟨_, rfl, by decide⟩, ⟨_, rfl, by decide⟩, ⟨_, rfl, by decide⟩, ⟨_, rfl, by decide⟩,
    ⟨_, rfl, by decide⟩⟩

/-! ## The stack pointer -/

theorem op_DXYN_frame (X Y N : Nat) (s s1 : Chip8) (h : op_DXYN X Y N s = .ok s1) :
    s1.sp_ = s.sp_ ∧ s1.stack_ = s.stack_ ∧ s1.mem_ = s.mem_ ∧ s1.I_ = s.I_ ∧
      s1.keys_ = s.keys_ ∧ s1.should_redraw_ = true ∧ s1.pc_ = (s.pc_ + 2) % 65536 := by
  unfold op_DXYN at h
  split at h
  · next s2 h2 =>
    cases h
    have hinv := drawSprite_invariant
      (fun u => u.sp_ = s.sp_ ∧ u.stack_ = s.stack_ ∧ u.mem_ = s.mem_ ∧ u.I_ = s.I_ ∧
        u.keys_ = s.keys_ ∧ u.pc_ = s.pc_)
      (fun u idx hu => hu) X Y N _ s2 h2 ⟨rfl, rfl, rfl, rfl, rfl, rfl⟩
    obtain ⟨a1, a2, a3, a4, a5, a6⟩ := hinv
    refine ⟨a1, a2, a3, a4, a5, rfl, ?_⟩
    show (s2.pc_ + 2) % 65536 = _
    rw [a6]
  · cases h

theorem decoded_sp (s : Chip8) (r : Except Fault Chip8) (h : Decoded s r) (s1 : Chip8)
    (hr : r = .ok s1) (hsp : s.sp_ ≤ 16) :
    s1.sp_ ≤ 16 ∧ ∀ k, 16 ≤ k → s1.stack_ k = s.stack_ k := by
  cases h
  case undefined h => cases hr
  case iDXYN h =>
    obtain ⟨a1, a2, _⟩ := op_DXYN_frame _ _ _ _ _ hr
    exact ⟨by rw [a1]; exact hsp, fun k _ => by rw [a2]⟩
  case iFX0A h1 h2 =>
    unfold op_FX0A at hr
    split_ifs at hr
    · split at hr <;> cases hr <;> exact ⟨hsp, fun _ _ => rfl⟩
    · cases hr; exact ⟨hsp, fun _ _ => rfl⟩
  case i00EE =>
    simp only [op_00EE] at hr
    split_ifs at hr with hg
    cases hr
    simp only [STACK_LIMIT] at hg
    refine ⟨?_, fun _ _ => by simp only [advance]⟩
    simp only [advance]
    omega
  case i2NNN =>
    simp only [op_2NNN] at hr
    split_ifs at hr with hg
    cases hr
    simp only [STACK_LIMIT] at hg
    refine ⟨?_, fun k hk => ?_⟩
    · show (s.sp_ + 1) % 65536 ≤ 16
      omega
    · show store s.stack_ s.sp_ s.pc_ k = s.stack_ k
      exact store_other _ _ _ _ (by omega)
  case iEX9E =>
    simp only [op_EX9E] at hr
    split_ifs at hr <;> (cases hr; exact ⟨by simp only [advance]; exact hsp, fun _ _ => by simp only [advance]⟩)
  case iEXA1 =>
    simp only [op_EXA1] at hr
    split_ifs at hr <;> (cases hr; exact ⟨by simp only [advance]; exact hsp, fun _ _ => by simp only [advance]⟩)
  case iFX33 =>
    simp only [op_FX33] at hr
    split_ifs at hr
    cases hr
    exact ⟨by simp only [advance]; exact hsp, fun _ _ => by simp only [advance]⟩
  case iFX55 =>
    simp only [op_FX55] at hr
    split_ifs at hr
    cases hr
    exact ⟨by simp only [advance]; exact hsp, fun _ _ => by simp only [advance]⟩
  case iFX65 =>
    simp only [op_FX65] at hr
    split_ifs at hr
    cases hr
    exact ⟨by simp only [advance]; exact hsp, fun _ _ => by simp only [advance]⟩
  all_goals
    cases hr
    first
    | exact ⟨hsp, fun _ _ => rfl⟩
    | (split_ifs <;> exact ⟨hsp, fun _ _ => rfl⟩)


theorem Step_2NNN_overflow (s : Chip8) (hpc : s.pc_ + 1 < 4096) (hop : fetch s / 4096 = 2)
    (hsp : 16 ≤ s.sp_) : Step s = .error .outOfBounds := by
  rw [Step_eq s hpc]
  have hex : execute { s with opcode_ := fetch s } =
      op_2NNN (fetch s % 4096) { s with opcode_ := fetch s } := by
    unfold execute
    rw [and_F000 _ (fetch_lt s), and_0F00, and_00F0, and_0FFF, and_00FF, and_000F]
    show dispatch (fetch s / 4096 * 4096) _ _ _ _ _ _ = _
    rw [hop, dispatch_fam2]
  rw [hex]
  simp only [op_2NNN]
  rw [if_neg (by show ¬ s.sp_ < STACK_LIMIT; simp only [STACK_LIMIT]; omega)]

theorem Step_00EE_underflow (s : Chip8) (hpc : s.pc_ + 1 < 4096) (hop : fetch s = 0x00EE)
    (hsp : s.sp_ = 0) : Step s = .error .outOfBounds := by
  rw [Step_eq s hpc]
  have hex : execute { s with opcode_ := fetch s } =
      op_00EE { s with opcode_ := fetch s } := by
    rw [execute_nibbles _ 0 0 14 14 (by omega) (by omega) (by omega) (by omega)
      (by show fetch s = _; omega), dispatch_fam0, dispatch0_EE]
  rw [hex]
  simp only [op_00EE]
  rw [if_neg (by show ¬ (s.sp_ + 65535) % 65536 < STACK_LIMIT; simp only [STACK_LIMIT]; omega)]

/-- Claim C15, amended: from `sp_ <= 16`, a step that completes (no array is indexed outside
its bounds, no `assert` fails) leaves `sp_ <= 16` and writes no stack slot outside 0..15.  A
call `2NNN` at `sp_ = 16` and a return `00EE` at `sp_ = 0` are not such steps: they index
`stack_[16]` and `stack_[0xFFFF]`, which the code does without a check or a report. -/
theorem C15_stack_pointer (s : Chip8) (hsp : s.sp_ ≤ 16) :
    (∀ s1, Step s = .ok s1 → s1.sp_ ≤ 16 ∧ ∀ k, 16 ≤ k → s1.stack_ k = s.stack_ k) ∧
    (s.pc_ + 1 < 4096 → fetch s / 4096 = 2 → s.sp_ = 16 →
      Step s = .error .outOfBounds ∧ Step s ≠ .error .unimplemented) ∧
    (s.pc_ + 1 < 4096 → fetch s = 0x00EE → s.sp_ = 0 →
      Step s = .error .outOfBounds ∧ Step s ≠ .error .unimplemented) := by
  refine ⟨?_, ?_, ?_⟩
  · intro s1 h
    obtain ⟨_, s0, hex, hs1⟩ := Step_ok_inv s s1 h
    have hd := decoded_sp _ _ (execute_decoded { s with opcode_ := fetch s } (fetch_lt s))
      s0 hex hsp
    rw [hs1, updateTimers_sp, updateTimers_stack]
    exact hd
  · intro hpc hop h16
    have h := Step_2NNN_overflow s hpc hop (by omega)
    exact ⟨h, by rw [h]; intro h'; cases h'⟩
  · intro hpc hop h0
    have h := Step_00EE_underflow s hpc hop h0
    exact ⟨h, by rw [h]; intro h'; cases h'⟩

/-- Instance of C15: the first call of the ROM `2200`, which calls itself, leaves `sp_ = 1`. -/
theorem C15_stack_pointer_witness :
    ∃ s1, Step (loaded [0x22, 0x00]) = .ok s1 ∧ s1.sp_ ≤ 16 :=
  ⟨_, rfl, ((C15_stack_pointer (loaded [0x22, 0x00]) (by decide)).1 _ rfl).1⟩

theorem Step_2NNN_ok (s : Chip8) (NNN : Nat) (hN : NNN < 4096) (hsp : s.sp_ < 16)
    (hpc : s.pc_ + 1 < 4096) (hop : fetch s = 0x2000 + NNN) :
    ∃ s1, Step s = .ok s1 ∧ s1.sp_ = s.sp_ + 1 ∧ s1.pc_ = NNN ∧ s1.mem_ = s.mem_ := by
  have hex : execute { s with opcode_ := fetch s } =
      op_2NNN NNN { s with opcode_ := fetch s } := by
    rw [execute_nibbles _ 2 (NNN / 256) (NNN / 16 % 16) (NNN % 16) (by omega) (by omega)
      (by omega) (by omega) (by show fetch s = _; omega), dispatch_fam2,
      show NNN / 256 * 256 + NNN / 16 % 16 * 16 + NNN % 16 = NNN by omega]
  refine ⟨_, Step_of_execute s _ hpc (hex.trans (by
    simp only [op_2NNN]
    rw [if_pos (show s.sp_ < STACK_LIMIT from hsp)])), ?_, ?_, ?_⟩
  · rw [updateTimers_sp]; show (s.sp_ + 1) % 65536 = _; omega
  · rw [updateTimers_pc]
  · rw [updateTimers_mem]

theorem self_call_steps :
    ∀ (n : Nat) (s : Chip8), s.pc_ = 0x200 → wordAt s.mem_ 0x200 = 0x2200 → s.sp_ + n ≤ 16 →
      ∃ sn, steps n s = .ok sn ∧ sn.pc_ = 0x200 ∧ sn.mem_ = s.mem_ ∧ sn.sp_ = s.sp_ + n := by
  intro n
  induction n with
  | zero => intro s hpc _ _; exact ⟨s, rfl, hpc, rfl, rfl⟩
  | succ n ih =>
    intro s hpc hw hsp
    obtain ⟨s1, h1, hsp1, hpc1, hm1⟩ := Step_2NNN_ok s 0x200 (by decide) (by omega)
      (by omega) (by unfold fetch; rw [hpc]; exact hw)
    obtain ⟨sn, hn, hpcn, hmn, hspn⟩ := ih s1 hpc1 (by rw [hm1]; exact hw) (by omega)
    exact ⟨sn, by rw [steps_succ n s s1 h1]; exact hn, hpcn, hmn.trans hm1, by omega⟩

/-- Claim C15 as stated fails.  The ROM `00EE` returns with an empty stack on its first step:
the code indexes `stack_[0xFFFF]`.  The ROM `2200` calls itself: after 16 steps `sp_ = 16` and
the 17th call indexes `stack_[16]`.  Neither step is reported (it is not the `assert(false)`
fault); each is an unchecked access outside the array. -/
theorem C15_counterexample :
    ((loaded [0x00, 0xEE]).sp_ ≤ 16 ∧ fetch (loaded [0x00, 0xEE]) = 0x00EE ∧
      Step (loaded [0x00, 0xEE]) = .error .outOfBounds ∧
      Step (loaded [0x00, 0xEE]) ≠ .error .unimplemented) ∧
    ∃ c, steps 16 (loaded [0x22, 0x00]) = .ok c ∧ c.sp_ = 16 ∧ fetch c / 4096 = 2 ∧
      Step c = .error .outOfBounds ∧ Step c ≠ .error .unimplemented := by
  have hu : Step (loaded [0x00, 0xEE]) = .error .outOfBounds :=
    Step_00EE_underflow _ (by decide) (by decide) (by decide)
  refine ⟨⟨by decide, by decide, hu, by rw [hu]; intro h; cases h⟩, ?_⟩
  obtain ⟨c, hc, hpc, hm, hsp⟩ := self_call_steps 16 (loaded [0x22, 0x00]) (by decide)
    (by decide) (by decide)
  have hsp16 : c.sp_ = 16 := by rw [hsp]; decide
  have hf : fetch c / 4096 = 2 := by
    unfold fetch; rw [hm, hpc]; decide
  have ho := Step_2NNN_overflow c (by omega) hf (by omega)
  exact ⟨c, hc, hsp16, hf, ho, by rw [ho]; intro h; cases h⟩

/-! ## Writes to memory -/

theorem decoded_mem (s : Chip8) (r : Except Fault Chip8) (h : Decoded s r) (s1 : Chip8)
    (hr : r = .ok s1) :
    (¬ (s.opcode_ / 4096 = 0xF ∧ (s.opcode_ % 256 = 0x33 ∨ s.opcode_ % 256 = 0x55)) →
      s1.mem_ = s.mem_) ∧
    ∀ a, a < s.I_ → s1.mem_ a = s.mem_ a := by
  cases h
  case undefined h => cases hr
  case iDXYN h =>
    obtain ⟨_, _, a3, _⟩ := op_DXYN_frame _ _ _ _ _ hr
    exact ⟨fun _ => a3, fun a _ => by rw [a3]⟩
  case iFX0A h1 h2 =>
    unfold op_FX0A at hr
    split_ifs at hr
    · split at hr <;> cases hr <;> exact ⟨fun _ => rfl, fun _ _ => rfl⟩
    · cases hr; exact ⟨fun _ => rfl, fun _ _ => rfl⟩
  case iFX33 h1 h2 =>
    simp only [op_FX33] at hr
    split_ifs at hr
    cases hr
    refine ⟨fun hn => absurd ⟨h1, Or.inl h2⟩ hn, fun a ha => ?_⟩
    show store (store (store s.mem_ s.I_ _) (s.I_ + 1) _) (s.I_ + 2) _ a = _
    rw [store_other _ _ _ _ (by omega), store_other _ _ _ _ (by omega),
      store_other _ _ _ _ (by omega)]
  case iFX55 h1 h2 =>
    simp only [op_FX55] at hr
    split_ifs at hr
    cases hr
    refine ⟨fun hn => absurd ⟨h1, Or.inr h2⟩ hn, fun a ha => ?_⟩
    show copy_n s.V_ 0 _ s.mem_ s.I_ a = _
    rw [copy_n_apply, if_neg (by omega)]
  case i00EE =>
    simp only [op_00EE] at hr
    split_ifs at hr
    cases hr
    exact ⟨fun _ => by simp only [advance], fun _ _ => by simp only [advance]⟩
  case i2NNN =>
    simp only [op_2NNN] at hr
    split_ifs at hr
    cases hr
    exact ⟨fun _ => by simp only [advance], fun _ _ => by simp only [advance]⟩
  case iFX65 =>
    simp only [op_FX65] at hr
    split_ifs at hr
    cases hr
    exact ⟨fun _ => by simp only [advance], fun _ _ => by simp only [advance]⟩
  case iEX9E =>
    simp only [op_EX9E] at hr
    split_ifs at hr <;>
      (cases hr; exact ⟨fun _ => by simp only [advance], fun _ _ => by simp only [advance]⟩)
  case iEXA1 =>
    simp only [op_EXA1] at hr
    split_ifs at hr <;>
      (cases hr; exact ⟨fun _ => by simp only [advance], fun _ _ => by simp only [advance]⟩)
  all_goals
    cases hr
    first
    | exact ⟨fun _ => rfl, fun _ _ => rfl⟩
    | (split_ifs <;> exact ⟨fun _ => rfl, fun _ _ => rfl⟩)

theorem Step_mem (s s1 : Chip8) (h : Step s = .ok s1) :
    (¬ (fetch s / 4096 = 0xF ∧ (fetch s % 256 = 0x33 ∨ fetch s % 256 = 0x55)) →
      s1.mem_ = s.mem_) ∧
    ∀ a, a < s.I_ → s1.mem_ a = s.mem_ a := by
  obtain ⟨_, s0, hex, hs1⟩ := Step_ok_inv s s1 h
  have hd := decoded_mem _ _ (execute_decoded { s with opcode_ := fetch s } (fetch_lt s))
    s0 hex
  rw [hs1, updateTimers_mem]
  exact hd

theorem Step_font (s s1 : Chip8) (h : Step s = .ok s1)
    (hfont : ∀ a, a < 80 → FONTSET[a]? = some (s.mem_ a))
    (hok : ¬ (fetch s / 4096 = 0xF ∧ (fetch s % 256 = 0x33 ∨ fetch s % 256 = 0x55) ∧
      s.I_ < 80)) :
    ∀ a, a < 80 → FONTSET[a]? = some (s1.mem_ a) := by
  intro a ha
  obtain ⟨h1, h2⟩ := Step_mem s s1 h
  by_cases hw : fetch s / 4096 = 0xF ∧ (fetch s % 256 = 0x33 ∨ fetch s % 256 = 0x55)
  · have hI : ¬ s.I_ < 80 := fun hI => hok ⟨hw.1, hw.2, hI⟩
    rw [h2 a (by omega)]
    exact hfont a ha
  · rw [h1 hw]
    exact hfont a ha

theorem steps_font :
    ∀ (n : Nat) (s sn : Chip8), steps n s = .ok sn →
      (∀ a, a < 80 → FONTSET[a]? = some (s.mem_ a)) →
      (∀ k sk, k < n → steps k s = .ok sk →
        ¬ (fetch sk / 4096 = 0xF ∧ (fetch sk % 256 = 0x33 ∨ fetch sk % 256 = 0x55) ∧
          sk.I_ < 80)) →
      ∀ a, a < 80 → FONTSET[a]? = some (sn.mem_ a) := by
  intro n
  induction n with
  | zero =>
    intro s sn h hfont _
    cases h
    exact hfont
  | succ n ih =>
    intro s sn h hfont hno
    cases hs : Step s with
    | error e =>
      have : steps (n + 1) s = .error e := by
        show (match Step s with
          | .ok s1 => steps n s1
          | .error e => .error e) = _
        rw [hs]
      rw [this] at h
      cases h
    | ok s1 =>
      rw [steps_succ n s s1 hs] at h
      refine ih s1 sn h (Step_font s s1 hs hfont (hno 0 s (by omega) rfl)) ?_
      intro k sk hk hsk
      exact hno (k + 1) sk (by omega) (by rw [steps_succ k s s1 hs]; exact hsk)


theorem Reset_font (rd : Nat → Nat) (s : Chip8) :
    ∀ a, a < 80 → FONTSET[a]? = some ((Reset rd s).mem_ a) := by
  intro a ha
  have hlen : FONTSET.length = 80 := rfl
  have h := copy_at FONTSET (fun _ => 0) 0 a (by omega)
  rw [Nat.zero_add] at h
  show FONTSET[a]? = some (copy FONTSET (fun _ => 0) 0 a)
  rw [h]
  exact List.getElem?_eq_getElem (by omega)

theorem Load_font (rd : Nat → Nat) (file : Option (List Nat)) (s : Chip8) :
    ∀ a, a < 80 → FONTSET[a]? = some ((Load rd file s).2.mem_ a) := by
  intro a ha
  cases file with
  | none => exact Reset_font rd s a ha
  | some rom =>
    by_cases hlen : rom.length > MEMORY_LIMIT - ROM_LOCATION
    · have e : Load rd (some rom) s = (false, Reset rd s) := by
        simp only [Load, hlen, if_true]
      rw [e]
      exact Reset_font rd s a ha
    · have e : Load rd (some rom) s =
          (true, { Reset rd s with mem_ := copy rom (Reset rd s).mem_ ROM_LOCATION }) := by
        simp only [Load, hlen, if_false]
      rw [e]
      show FONTSET[a]? = some (copy rom (Reset rd s).mem_ ROM_LOCATION a)
      rw [copy_below rom _ _ _ (by simp only [ROM_LOCATION]; omega)]
      exact Reset_font rd s a ha

/-- Claim C16, amended: `mem[0..80)` equals `FONTSET` after every `Reset` and `Load`; from a
state in which it does, a step that completes keeps it so unless the word is `FX33` or `FX55`
with `I_ < 80`, and so does any run of steps none of which is such a word.  (`FX33` and `FX55`
with `I_ < 80` write into the font: memory has no write protection.) -/
theorem C16_font_table (s : Chip8) (hfont : ∀ a, a < 80 → FONTSET[a]? = some (s.mem_ a)) :
    (∀ (rd : Nat → Nat) (file : Option (List Nat)) (s0 : Chip8),
      (∀ a, a < 80 → FONTSET[a]? = some ((Reset rd s0).mem_ a)) ∧
      (∀ a, a < 80 → FONTSET[a]? = some ((Load rd file s0).2.mem_ a))) ∧
    (∀ s1, Step s = .ok s1 →
      ¬ (fetch s / 4096 = 0xF ∧ (fetch s % 256 = 0x33 ∨ fetch s % 256 = 0x55) ∧ s.I_ < 80) →
      ∀ a, a < 80 → FONTSET[a]? = some (s1.mem_ a)) ∧
    (∀ n sn, steps n s = .ok sn →
      (∀ k sk, k < n → steps k s = .ok sk →
        ¬ (fetch sk / 4096 = 0xF ∧ (fetch sk % 256 = 0x33 ∨ fetch sk % 256 = 0x55) ∧
          sk.I_ < 80)) →
      ∀ a, a < 80 → FONTSET[a]? = some (sn.mem_ a)) :=
  ⟨fun rd file s0 => ⟨Reset_font rd s0, Load_font rd file s0⟩,
    fun s1 h hok => Step_font s s1 h hfont hok,
    fun n sn h hno => steps_font n s sn h hfont hno⟩

/-- Instance of C16: after `F033` with `I_ = 0x300` the font is still in place. -/
theorem C16_font_table_witness :
    ∃ s1, Step (withI 0x300 (loaded [0xF0, 0x33])) = .ok s1 ∧
      ∀ a, a < 80 → FONTSET[a]? = some (s1.mem_ a) :=
  ⟨_, rfl, (C16_font_table (withI 0x300 (loaded [0xF0, 0x33]))
    (Load_font (fun _ => 0) (some [0xF0, 0x33]) (Reset (fun _ => 0) blank))).2.1 _ rfl
    (by decide)⟩

/-- Claim C16 as stated fails: on the freshly loaded ROM `F033` (`I_ = 0`, `V0 = 0`) the font
is in place before the step, and the step writes 0 over the font byte `0xF0` at address 0. -/
theorem C16_counterexample :
    (∀ a, a < 80 → FONTSET[a]? = some ((loaded [0xF0, 0x33]).mem_ a)) ∧
    ∃ s1, Step (loaded [0xF0, 0x33]) = .ok s1 ∧ s1.mem_ 0 = 0 ∧
      ¬ ∀ a, a < 80 → FONTSET[a]? = some (s1.mem_ a) := by
  refine ⟨Load_font (fun _ => 0) (some [0xF0, 0x33]) (Reset (fun _ => 0) blank), _, rfl,
    by decide, ?_⟩
  intro h
  have h0 := h 0 (by decide)
  revert h0
  decide

/-! ## The frame buffer and the redraw flag -/

theorem decoded_gfx (s : Chip8) (r : Except Fault Chip8) (h : Decoded s r) (s1 : Chip8)
    (hr : r = .ok s1) :
    ((s.opcode_ / 4096 = 0 ∧ s.opcode_ % 256 = 0xE0) ∨ s.opcode_ / 4096 = 0xD →
      s1.should_redraw_ = true) ∧
    (¬ ((s.opcode_ / 4096 = 0 ∧ s.opcode_ % 256 = 0xE0) ∨ s.opcode_ / 4096 = 0xD) →
      s1.gfx_ = s.gfx_ ∧ s1.should_redraw_ = s.should_redraw_) := by
  cases h
  case undefined h => cases hr
  case iDXYN h =>
    obtain ⟨_, _, _, _, _, a6, _⟩ := op_DXYN_frame _ _ _ _ _ hr
    exact ⟨fun _ => a6, fun hn => absurd (Or.inr h) hn⟩
  case i00E0 h1 h2 =>
    cases hr
    exact ⟨fun _ => rfl, fun hn => absurd (Or.inl ⟨h1, h2⟩) hn⟩
  case iFX0A h1 h2 =>
    refine ⟨fun hy => by omega, fun _ => ?_⟩
    unfold op_FX0A at hr
    split_ifs at hr
    · split at hr <;> cases hr <;> exact ⟨rfl, rfl⟩
    · cases hr; exact ⟨rfl, rfl⟩
  case i00EE =>
    refine ⟨fun hy => by omega, fun _ => ?_⟩
    simp only [op_00EE] at hr
    split_ifs at hr
    cases hr
    exact ⟨by simp only [advance], by simp only [advance]⟩
  case i2NNN =>
    refine ⟨fun hy => by omega, fun _ => ?_⟩
    simp only [op_2NNN] at hr
    split_ifs at hr
    cases hr
    exact ⟨by simp only [advance], by simp only [advance]⟩
  case iFX33 =>
    refine ⟨fun hy => by omega, fun _ => ?_⟩
    simp only [op_FX33] at hr
    split_ifs at hr
    cases hr
    exact ⟨by simp only [advance], by simp only [advance]⟩
  case iFX55 =>
    refine ⟨fun hy => by omega, fun _ => ?_⟩
    simp only [op_FX55] at hr
    split_ifs at hr
    cases hr
    exact ⟨by simp only [advance], by simp only [advance]⟩
  case iFX65 =>
    refine ⟨fun hy => by omega, fun _ => ?_⟩
    simp only [op_FX65] at hr
    split_ifs at hr
    cases hr
    exact ⟨by simp only [advance], by simp only [advance]⟩
  case iEX9E =>
    refine ⟨fun hy => by omega, fun _ => ?_⟩
    simp only [op_EX9E] at hr
    split_ifs at hr <;> (cases hr; exact ⟨by simp only [advance], by simp only [advance]⟩)
  case iEXA1 =>
    refine ⟨fun hy => by omega, fun _ => ?_⟩
    simp only [op_EXA1] at hr
    split_ifs at hr <;> (cases hr; exact ⟨by simp only [advance], by simp only [advance]⟩)
  all_goals
    refine ⟨fun hy => by omega, fun _ => ?_⟩
    cases hr
    first
    | exact ⟨rfl, rfl⟩
    | (split_ifs <;> exact ⟨rfl, rfl⟩)

theorem Step_gfx (s s1 : Chip8) (h : Step s = .ok s1) :
    ((fetch s / 4096 = 0 ∧ fetch s % 256 = 0xE0) ∨ fetch s / 4096 = 0xD →
      s1.should_redraw_ = true) ∧
    (¬ ((fetch s / 4096 = 0 ∧ fetch s % 256 = 0xE0) ∨ fetch s / 4096 = 0xD) →
      s1.gfx_ = s.gfx_ ∧ s1.should_redraw_ = s.should_redraw_) := by
  obtain ⟨_, s0, hex, hs1⟩ := Step_ok_inv s s1 h
  have hd := decoded_gfx _ _ (execute_decoded { s with opcode_ := fetch s } (fetch_lt s))
    s0 hex
  rw [hs1, updateTimers_gfx, updateTimers_should_redraw]
  exact hd


theorem Load_should_redraw (rd : Nat → Nat) (file : Option (List Nat)) (s : Chip8) :
    (Load rd file s).2.should_redraw_ = true := by
  cases file with
  | none => rfl
  | some rom =>
    by_cases hlen : rom.length > MEMORY_LIMIT - ROM_LOCATION
    · have e : Load rd (some rom) s = (false, Reset rd s) := by
        simp only [Load, hlen, if_true]
      rw [e]; rfl
    · have e : Load rd (some rom) s =
          (true, { Reset rd s with mem_ := copy rom (Reset rd s).mem_ ROM_LOCATION }) := by
        simp only [Load, hlen, if_false]
      rw [e]; rfl

/-- Claim C17: in a step that completes, a changed pixel implies the redraw flag is true
afterwards, and a true flag stays true; the frame buffer changes only on `00E0` and `DXYN`.
Of the other operations `Redraw` sets the flag to false, `Reset` and `Load` set it to true and
`KeyDown` and `KeyUp` leave it alone, so `Redraw` alone sets it to false. -/
theorem C17_redraw_flag (s s1 : Chip8) (h : Step s = .ok s1) :
    ((∃ k, s1.gfx_ k ≠ s.gfx_ k) → s1.should_redraw_ = true) ∧
    (s.should_redraw_ = true → s1.should_redraw_ = true) ∧
    ((∃ k, s1.gfx_ k ≠ s.gfx_ k) →
      (fetch s / 4096 = 0 ∧ fetch s % 256 = 0xE0) ∨ fetch s / 4096 = 0xD) ∧
    (∀ buf, (Redraw s buf).2.should_redraw_ = false) ∧
    (∀ rd, (Reset rd s).should_redraw_ = true) ∧
    (∀ rd file, (Load rd file s).2.should_redraw_ = true) ∧
    (∀ k s', KeyDown k s = .ok s' → s'.should_redraw_ = s.should_redraw_) ∧
    (∀ k s', KeyUp k s = .ok s' → s'.should_redraw_ = s.should_redraw_) := by
  obtain ⟨hy, hn⟩ := Step_gfx s s1 h
  have hchg : (∃ k, s1.gfx_ k ≠ s.gfx_ k) →
      (fetch s / 4096 = 0 ∧ fetch s % 256 = 0xE0) ∨ fetch s / 4096 = 0xD := by
    rintro ⟨k, hk⟩
    by_contra hc
    exact hk (by rw [(hn hc).1])
  refine ⟨fun hk => hy (hchg hk), ?_, hchg, fun _ => rfl, fun _ => rfl,
    fun rd file => Load_should_redraw rd file s, ?_, ?_⟩
  · intro ht
    by_cases hc : (fetch s / 4096 = 0 ∧ fetch s % 256 = 0xE0) ∨ fetch s / 4096 = 0xD
    · exact hy hc
    · rw [(hn hc).2]; exact ht
  · intro k s' hk
    unfold KeyDown at hk
    split_ifs at hk
    cases hk
    rfl
  · intro k s' hk
    unfold KeyUp at hk
    split_ifs at hk
    cases hk
    rfl

/-- Instance of C17: the draw `D011` on a freshly loaded machine lights pixels of the glyph row
`0xF0` and leaves the redraw flag true. -/
theorem C17_redraw_flag_witness :
    ∃ s1, Step (loaded [0xD0, 0x11]) = .ok s1 ∧ s1.gfx_ 0 ≠ (loaded [0xD0, 0x11]).gfx_ 0 ∧
      s1.should_redraw_ = true :=
  ⟨_, rfl, by decide, (C17_redraw_flag (loaded [0xD0, 0x11]) _ rfl).1 ⟨0, by decide⟩⟩

/-! ## Consuming the frame buffer -/

theorem steps_no_draw :
    ∀ (n : Nat) (s sn : Chip8), steps n s = .ok sn →
      (∀ k sk, k < n → steps k s = .ok sk →
        ¬ ((fetch sk / 4096 = 0 ∧ fetch sk % 256 = 0xE0) ∨ fetch sk / 4096 = 0xD)) →
      sn.gfx_ = s.gfx_ ∧ sn.should_redraw_ = s.should_redraw_ := by
  intro n
  induction n with
  | zero =>
    intro s sn h _
    cases h
    exact ⟨rfl, rfl⟩
  | succ n ih =>
    intro s sn h hno
    cases hs : Step s with
    | error e =>
      have : steps (n + 1) s = .error e := by
        show (match Step s with
          | .ok s1 => steps n s1
          | .error e => .error e) = _
        rw [hs]
      rw [this] at h
      cases h
    | ok s1 =>
      rw [steps_succ n s s1 hs] at h
      obtain ⟨g1, r1⟩ := (Step_gfx s s1 hs).2 (hno 0 s (by omega) rfl)
      obtain ⟨gn, rn⟩ := ih s1 sn h (fun k sk hk hsk =>
        hno (k + 1) sk (by omega) (by rw [steps_succ k s s1 hs]; exact hsk))
      exact ⟨gn.trans g1, rn.trans r1⟩

/-- Claim C18, amended: when every cell of the frame buffer is 0 or 1, `Redraw` writes
`0xFFFFFFFF` for each cell that is 1 and `0xFF000000` for each cell that is 0, at the same
index, changes nothing of the machine but the redraw flag, and leaves that flag false;
`ShouldRedraw` then returns false until a `00E0` or `DXYN` is executed, through any number of
steps. -/
theorem C18_redraw (s : Chip8) (buf : Nat → Nat)
    (hcells : ∀ i, i < 2048 → s.gfx_ i = 0 ∨ s.gfx_ i = 1) :
    (∀ i, i < 2048 → (s.gfx_ i = 1 → (Redraw s buf).1 i = 0xFFFFFFFF) ∧
      (s.gfx_ i = 0 → (Redraw s buf).1 i = 0xFF000000) ∧
      ((Redraw s buf).1 i = 0xFFFFFFFF ∨ (Redraw s buf).1 i = 0xFF000000)) ∧
    (Redraw s buf).2 = { s with should_redraw_ := false } ∧
    (Redraw s buf).2.gfx_ = s.gfx_ ∧
    ShouldRedraw (Redraw s buf).2 = false ∧
    (∀ n sn, steps n (Redraw s buf).2 = .ok sn →
      (∀ k sk, k < n → steps k (Redraw s buf).2 = .ok sk →
        ¬ ((fetch sk / 4096 = 0 ∧ fetch sk % 256 = 0xE0) ∨ fetch sk / 4096 = 0xD)) →
      ShouldRedraw sn = false ∧ sn.gfx_ = s.gfx_) := by
  have hout : ∀ i, i < 2048 → (Redraw s buf).1 i =
      ((0x00FFFFFF * s.gfx_ i) % 4294967296 ||| 0xFF000000) % 4294967296 := by
    intro i hi
    show (if i < SCREEN_WIDTH * SCREEN_HEIGHT then _ else buf i) = _
    rw [if_pos (show i < SCREEN_WIDTH * SCREEN_HEIGHT from hi)]
  have h1 : ∀ i, i < 2048 → s.gfx_ i = 1 → (Redraw s buf).1 i = 0xFFFFFFFF := by
    intro i hi hg
    rw [hout i hi, hg]
    decide
  have h0 : ∀ i, i < 2048 → s.gfx_ i = 0 → (Redraw s buf).1 i = 0xFF000000 := by
    intro i hi hg
    rw [hout i hi, hg]
    decide
  refine ⟨fun i hi => ⟨h1 i hi, h0 i hi, ?_⟩, rfl, rfl, rfl, ?_⟩
  · rcases hcells i hi with hg | hg
    · exact Or.inr (h0 i hi hg)
    · exact Or.inl (h1 i hi hg)
  · intro n sn hn hno
    obtain ⟨g, r⟩ := steps_no_draw n _ sn hn hno
    exact ⟨r, g⟩

/-- Instance of C18: on a freshly loaded machine every output pixel is `0xFF000000` and the
jump `1200` executed after `Redraw` keeps `ShouldRedraw` false. -/
theorem C18_redraw_witness :
    (Redraw (loaded [0x12, 0x00]) (fun _ => 7)).1 5 = 0xFF000000 ∧
    ShouldRedraw (Redraw (loaded [0x12, 0x00]) (fun _ => 7)).2 = false ∧
    ∃ s1, Step (Redraw (loaded [0x12, 0x00]) (fun _ => 7)).2 = .ok s1 ∧
      ShouldRedraw s1 = false := by
  have h := C18_redraw (loaded [0x12, 0x00]) (fun _ => 7) (fun _ _ => Or.inl rfl)
  refine ⟨(h.1 5 (by decide)).2.1 rfl, h.2.2.2.1, _, rfl, ?_⟩
  refine (h.2.2.2.2 1 _ rfl ?_).1
  intro k sk hk hsk
  have hk0 : k = 0 := by omega
  subst hk0
  cases hsk
  decide

/-- Claim C18 as stated fails in its last clause: after `Redraw`, the word `00E0` executed on a
frame buffer that is already all off changes no pixel, yet `ShouldRedraw` returns true. -/
theorem C18_counterexample :
    (∀ i, i < 2048 → (loaded [0x00, 0xE0]).gfx_ i = 0 ∨ (loaded [0x00, 0xE0]).gfx_ i = 1) ∧
    ShouldRedraw (Redraw (loaded [0x00, 0xE0]) (fun _ => 0)).2 = false ∧
    ∃ s1, Step (Redraw (loaded [0x00, 0xE0]) (fun _ => 0)).2 = .ok s1 ∧
      s1.gfx_ = (Redraw (loaded [0x00, 0xE0]) (fun _ => 0)).2.gfx_ ∧
      ShouldRedraw s1 = true :=
  ⟨fun _ _ => Or.inl rfl, rfl, _, rfl, rfl, rfl⟩

/-! ## Whole sprites -/

theorem and_two_pow_ne_zero (p i : Nat) : p &&& 2 ^ i ≠ 0 ↔ p.testBit i = true := by
  constructor
  · intro h
    by_contra hb
    apply h
    apply Nat.eq_of_testBit_eq
    intro j
    rw [Nat.testBit_and, Nat.testBit_two_pow, Nat.zero_testBit]
    by_cases hij : i = j
    · subst hij
      simp only [Bool.not_eq_true] at hb
      rw [hb]; rfl
    · simp [hij]
  · intro hb h0
    have h1 : (p &&& 2 ^ i).testBit i = true := by
      rw [Nat.testBit_and, hb, Nat.testBit_two_pow_self]; rfl
    rw [h0, Nat.zero_testBit] at h1
    cases h1

theorem mask_eq_two_pow (c : Nat) (hc : c < 8) : 0x80 >>> c = 2 ^ (7 - c) := by
  interval_cases c <;> rfl

theorem sprite_bit_testBit (p c : Nat) (hc : c < 8) :
    p &&& (0x80 >>> c) ≠ 0 ↔ p.testBit (7 - c) = true := by
  rw [mask_eq_two_pow c hc]
  exact and_two_pow_ne_zero p (7 - c)

theorem spriteV_other (v g : Nat → Nat) (x y : Nat) (mem : Nat → Nat) (I i : Nat)
    (hi : i ≠ 15) : ∀ n, spriteV v g x y mem I n i = v i := by
  intro n
  induction n with
  | zero => rfl
  | succ n ih =>
    show rowV _ _ _ _ 8 i = _
    rw [rowV_other _ _ _ _ _ _ hi, ih]

theorem drawSprite_loop (X Y : Nat) (u : Chip8) (hX : X ≠ 15) (hY : Y ≠ 15) :
    ∀ n, (∀ r, r < n → u.I_ + r < 4096 ∧ u.V_ X + (u.V_ Y + r) * 64 + 7 < 2048) →
      (List.range n).foldlM (drawRow X Y) u =
        .ok (drawn u (spriteGfx u.gfx_ (u.V_ X) (u.V_ Y) u.mem_ u.I_ n)
          (spriteV u.V_ u.gfx_ (u.V_ X) (u.V_ Y) u.mem_ u.I_ n)) := by
  intro n
  induction n with
  | zero =>
    intro _
    show Except.ok u = .ok (drawn u u.gfx_ u.V_)
    rw [drawn_self]
  | succ n ih =>
    intro hin
    rw [List.range_succ, List.foldlM_append, ih (fun r hr => hin r (by omega))]
    show List.foldlM (drawRow X Y) _ [n] = _
    rw [List.foldlM_cons]
    have hx : spriteV u.V_ u.gfx_ (u.V_ X) (u.V_ Y) u.mem_ u.I_ n X = u.V_ X :=
      spriteV_other _ _ _ _ _ _ _ hX n
    have hy : spriteV u.V_ u.gfx_ (u.V_ X) (u.V_ Y) u.mem_ u.I_ n Y = u.V_ Y :=
      spriteV_other _ _ _ _ _ _ _ hY n
    have e := drawRow_eq X Y n (drawn u (spriteGfx u.gfx_ (u.V_ X) (u.V_ Y) u.mem_ u.I_ n)
      (spriteV u.V_ u.gfx_ (u.V_ X) (u.V_ Y) u.mem_ u.I_ n)) hX hY (hin n (by omega)).1
      (by
        show spriteV u.V_ u.gfx_ (u.V_ X) (u.V_ Y) u.mem_ u.I_ n X +
          (spriteV u.V_ u.gfx_ (u.V_ X) (u.V_ Y) u.mem_ u.I_ n Y + n) * 64 + 7 < 2048
        rw [hx, hy]
        exact (hin n (by omega)).2)
    rw [e]
    show Except.ok (drawn u (rowGfx (spriteGfx u.gfx_ (u.V_ X) (u.V_ Y) u.mem_ u.I_ n)
      (spriteV u.V_ u.gfx_ (u.V_ X) (u.V_ Y) u.mem_ u.I_ n X +
        (spriteV u.V_ u.gfx_ (u.V_ X) (u.V_ Y) u.mem_ u.I_ n Y + n) * 64)
      (u.mem_ (u.I_ + n)) 8) (rowV (spriteV u.V_ u.gfx_ (u.V_ X) (u.V_ Y) u.mem_ u.I_ n)
      (spriteGfx u.gfx_ (u.V_ X) (u.V_ Y) u.mem_ u.I_ n)
      (spriteV u.V_ u.gfx_ (u.V_ X) (u.V_ Y) u.mem_ u.I_ n X +
        (spriteV u.V_ u.gfx_ (u.V_ X) (u.V_ Y) u.mem_ u.I_ n Y + n) * 64)
      (u.mem_ (u.I_ + n)) 8)) = _
    rw [hx, hy]
    rfl


theorem drawSprite_loop_at (X Y : Nat) (u : Chip8) (hX : X ≠ 15) (hY : Y ≠ 15) (x y : Nat)
    (hx : u.V_ X = x) (hy : u.V_ Y = y) (n : Nat)
    (hin : ∀ r, r < n → u.I_ + r < 4096 ∧ x + (y + r) * 64 + 7 < 2048) :
    (List.range n).foldlM (drawRow X Y) u =
      .ok (drawn u (spriteGfx u.gfx_ x y u.mem_ u.I_ n)
        (spriteV u.V_ u.gfx_ x y u.mem_ u.I_ n)) := by
  subst hx
  subst hy
  exact drawSprite_loop X Y u hX hY n hin

theorem op_DXYN_spec (u : Chip8) (X Y N : Nat) (hX : X ≠ 15) (hY : Y ≠ 15)
    (hin : ∀ r, r < N → u.I_ + r < 4096 ∧ u.V_ X + (u.V_ Y + r) * 64 + 7 < 2048) :
    ∃ u1, op_DXYN X Y N u = .ok u1 ∧
      u1.gfx_ = spriteGfx u.gfx_ (u.V_ X) (u.V_ Y) u.mem_ u.I_ N ∧
      u1.V_ = spriteV (store u.V_ 0xF 0) u.gfx_ (u.V_ X) (u.V_ Y) u.mem_ u.I_ N ∧
      u1.pc_ = (u.pc_ + 2) % 65536 ∧ u1.I_ = u.I_ ∧ u1.mem_ = u.mem_ ∧
      u1.should_redraw_ = true := by
  have e := drawSprite_loop_at X Y { u with V_ := store u.V_ 0xF 0 } hX hY (u.V_ X) (u.V_ Y)
    (store_other _ _ _ _ hX) (store_other _ _ _ _ hY) N hin
  refine ⟨_, (by unfold op_DXYN drawSprite; rw [e]), ?_, ?_, ?_, ?_, ?_, ?_⟩
  · rfl
  · rfl
  · rfl
  · rfl
  · rfl
  · rfl

theorem Step_DXYN (s : Chip8) (X Y N : Nat) (hX : X < 15) (hY : Y < 15) (hN : N < 16)
    (hpc : s.pc_ + 1 < 4096) (hop : fetch s = 0xD000 + 256 * X + 16 * Y + N)
    (hin : ∀ r, r < N → s.I_ + r < 4096 ∧ s.V_ X + (s.V_ Y + r) * 64 + 7 < 2048) :
    ∃ s1, Step s = .ok s1 ∧
      s1.gfx_ = spriteGfx s.gfx_ (s.V_ X) (s.V_ Y) s.mem_ s.I_ N ∧
      s1.V_ = spriteV (store s.V_ 0xF 0) s.gfx_ (s.V_ X) (s.V_ Y) s.mem_ s.I_ N ∧
      s1.pc_ = s.pc_ + 2 ∧ s1.I_ = s.I_ ∧ s1.mem_ = s.mem_ ∧ s1.should_redraw_ = true := by
  have hex : execute { s with opcode_ := fetch s } =
      op_DXYN X Y N { s with opcode_ := fetch s } := by
    rw [execute_nibbles _ 13 X Y N (by omega) (by omega) (by omega) (by omega)
      (by show fetch s = _; omega), dispatch_famD]
  obtain ⟨u1, hu, hg, hv, hp, hI, hm, hr⟩ :=
    op_DXYN_spec { s with opcode_ := fetch s } X Y N (by omega) (by omega) hin
  refine ⟨updateTimers u1, Step_of_execute s _ hpc (hex.trans hu), ?_, ?_, ?_, ?_, ?_, ?_⟩
  · rw [updateTimers_gfx]; exact hg
  · rw [updateTimers_V]; exact hv
  · rw [updateTimers_pc, hp]; show (s.pc_ + 2) % 65536 = _; omega
  · rw [updateTimers_I]; exact hI
  · rw [updateTimers_mem]; exact hm
  · rw [updateTimers_should_redraw]; exact hr

theorem rowPixel_disjoint (x y : Nat) (mem : Nat → Nat) (I r n k : Nat) (hr : r < n)
    (h1 : rowPixel x y mem I r k) (h2 : x + (y + n) * 64 ≤ k) : False := by
  obtain ⟨_, h, _⟩ := h1
  omega

theorem spriteGfx_apply (g : Nat → Nat) (x y : Nat) (mem : Nat → Nat) (I : Nat) :
    ∀ n k, ((∃ r, r < n ∧ rowPixel x y mem I r k) →
        spriteGfx g x y mem I n k = (g k ^^^ 1) % 256) ∧
      ((¬ ∃ r, r < n ∧ rowPixel x y mem I r k) → spriteGfx g x y mem I n k = g k) := by
  intro n
  induction n with
  | zero =>
    intro k
    exact ⟨fun ⟨r, hr, _⟩ => absurd hr (by omega), fun _ => rfl⟩
  | succ n ih =>
    intro k
    have hstep : spriteGfx g x y mem I (n + 1) k =
        if x + (y + n) * 64 ≤ k ∧ k < x + (y + n) * 64 + 8 ∧
          mem (I + n) &&& (0x80 >>> (k - (x + (y + n) * 64))) ≠ 0
        then (spriteGfx g x y mem I n k ^^^ 1) % 256 else spriteGfx g x y mem I n k :=
      rowGfx_apply _ _ _ _ _
    by_cases hrow : x + (y + n) * 64 ≤ k ∧ k < x + (y + n) * 64 + 8 ∧
        mem (I + n) &&& (0x80 >>> (k - (x + (y + n) * 64))) ≠ 0
    · have hprev : ¬ ∃ r, r < n ∧ rowPixel x y mem I r k := by
        rintro ⟨r, hr, hp⟩
        exact rowPixel_disjoint x y mem I r n k hr hp hrow.1
      rw [hstep, if_pos hrow, (ih k).2 hprev]
      exact ⟨fun _ => rfl, fun hn => absurd ⟨n, by omega, hrow⟩ hn⟩
    · rw [hstep, if_neg hrow]
      constructor
      · rintro ⟨r, hr, hp⟩
        have hrn : r ≠ n := fun e => hrow (e ▸ hp)
        exact (ih k).1 ⟨r, by omega, hp⟩
      · intro hn
        exact (ih k).2 (fun ⟨r, hr, hp⟩ => hn ⟨r, by omega, hp⟩)


theorem spriteV_apply (v g : Nat → Nat) (x y : Nat) (mem : Nat → Nat) (I : Nat) :
    ∀ n, ((∃ r, r < n ∧ ∃ k, rowPixel x y mem I r k ∧ g k = 1) →
        spriteV v g x y mem I n = store v 0xF 1) ∧
      ((¬ ∃ r, r < n ∧ ∃ k, rowPixel x y mem I r k ∧ g k = 1) →
        spriteV v g x y mem I n = v) := by
  intro n
  induction n with
  | zero => exact ⟨fun ⟨r, hr, _⟩ => absurd hr (by omega), fun _ => rfl⟩
  | succ n ih =>
    have hstep : spriteV v g x y mem I (n + 1) =
        rowV (spriteV v g x y mem I n) (spriteGfx g x y mem I n) (x + (y + n) * 64)
          (mem (I + n)) 8 := rfl
    have hsame : ∀ xl, spriteGfx g x y mem I n (x + (y + n) * 64 + xl) =
        g (x + (y + n) * 64 + xl) := fun xl =>
      (spriteGfx_apply g x y mem I n _).2 (by
        rintro ⟨r, hr, hp⟩
        exact rowPixel_disjoint x y mem I r n _ hr hp (by omega))
    have hiff : (∃ xl, xl < 8 ∧ mem (I + n) &&& (0x80 >>> xl) ≠ 0 ∧
        spriteGfx g x y mem I n (x + (y + n) * 64 + xl) = 1) ↔
        ∃ k, rowPixel x y mem I n k ∧ g k = 1 := by
      constructor
      · rintro ⟨xl, h1, h2, h3⟩
        rw [hsame] at h3
        refine ⟨x + (y + n) * 64 + xl, ⟨by omega, by omega, ?_⟩, h3⟩
        rw [Nat.add_sub_cancel_left]
        exact h2
      · rintro ⟨k, ⟨h1, h2, h3⟩, h4⟩
        have hk : x + (y + n) * 64 + (k - (x + (y + n) * 64)) = k := by omega
        refine ⟨k - (x + (y + n) * 64), by omega, h3, ?_⟩
        rw [hsame, hk]
        exact h4
    have hss : store (store v 0xF 1) 0xF 1 = store v 0xF 1 := by
      funext k; unfold store; split_ifs <;> rfl
    by_cases hR : ∃ k, rowPixel x y mem I n k ∧ g k = 1
    · have e1 : spriteV v g x y mem I (n + 1) = store (spriteV v g x y mem I n) 0xF 1 := by
        rw [hstep]
        exact rowV_pos _ _ _ _ _ (hiff.2 hR)
      have e2 : spriteV v g x y mem I (n + 1) = store v 0xF 1 := by
        rw [e1]
        by_cases hp : ∃ r, r < n ∧ ∃ k, rowPixel x y mem I r k ∧ g k = 1
        · rw [ih.1 hp, hss]
        · rw [ih.2 hp]
      exact ⟨fun _ => e2, fun hn => absurd ⟨n, by omega, hR⟩ hn⟩
    · have e1 : spriteV v g x y mem I (n + 1) = spriteV v g x y mem I n := by
        rw [hstep]
        exact rowV_neg _ _ _ _ _ (fun h => hR (hiff.1 h))
      rw [e1]
      constructor
      · rintro ⟨r, hr, hp⟩
        have hrn : r ≠ n := fun e => hR (e ▸ hp)
        exact ih.1 ⟨r, by omega, hp⟩
      · intro hn
        exact ih.2 (fun ⟨r, hr, hp⟩ => hn ⟨r, by omega, hp⟩)

theorem spritePixel_iff (s : Chip8) (X Y N k : Nat) :
    spritePixel s X Y N k ↔
      ∃ r, r < N ∧ rowPixel (s.V_ X) (s.V_ Y) s.mem_ s.I_ r k := by
  constructor
  · rintro ⟨r, c, hr, hc, hk, hb⟩
    have hc' : k - (s.V_ X + (s.V_ Y + r) * 64) = c := by omega
    refine ⟨r, hr, by omega, by omega, ?_⟩
    rw [hc']
    exact (sprite_bit_testBit _ c hc).2 hb
  · rintro ⟨r, hr, h1, h2, h3⟩
    exact ⟨r, k - (s.V_ X + (s.V_ Y + r) * 64), hr, by omega, by omega,
      (sprite_bit_testBit _ _ (by omega)).1 h3⟩

theorem xor_one_byte (a : Nat) (ha : a < 256) : (a ^^^ 1) % 256 = a ^^^ 1 := by
  have h : a ^^^ 1 < 2 ^ 8 := Nat.xor_lt_two_pow ha (by decide)
  exact Nat.mod_eq_of_lt h

theorem xor_one_twice (a : Nat) (ha : a < 256) : ((a ^^^ 1) % 256 ^^^ 1) % 256 = a := by
  rw [xor_one_byte a ha, Nat.xor_assoc, Nat.xor_self, Nat.xor_zero]
  exact Nat.mod_eq_of_lt ha

/-- Claim C19 (sprite draw as XOR). For `X, Y` in 0..14, height `N` in 0..15, an address with
`I + N ≤ 4096` and an origin with `V[X] + 7 + 64 * (V[Y] + N - 1) < 2048`, on a machine whose
frame buffer cells are bytes (the cell type), the step executing `DXYN` completes and, for every
flat index `k < 2048`, the cell becomes `fb[k] XOR 1` when `k = V[X] + c + 64 * (V[Y] + r)` for a
row `r < N` and a column `c < 8` with bit `7 - c` of `mem[I + r]` set, and is unchanged otherwise;
the pair `(r, c)` of an index is unique, so each cell is toggled at most once; `V[15]` is 1
exactly when one of the toggled cells held 1 before the draw, and 0 otherwise; the redraw flag is
true, `pc` has advanced by 2, and cells that were all 0 or 1 are still all 0 or 1. -/
theorem C19_sprite_xor (s : Chip8) (X Y N : Nat) (hX : X < 15) (hY : Y < 15) (hN : N < 16)
    (hpc : s.pc_ + 1 < 4096) (hop : fetch s = 0xD000 + 256 * X + 16 * Y + N)
    (hI : s.I_ + N ≤ 4096)
    (hfit : (s.V_ X : Int) + 7 + 64 * ((s.V_ Y : Int) + (N : Int) - 1) < 2048)
    (hbyte : ∀ k, k < 2048 → s.gfx_ k < 256) :
    ∃ s1, Step s = .ok s1 ∧
      (∀ k, k < 2048 →
        (spritePixel s X Y N k → s1.gfx_ k = s.gfx_ k ^^^ 1) ∧
        (¬ spritePixel s X Y N k → s1.gfx_ k = s.gfx_ k)) ∧
      (∀ r c r' c', r < N → c < 8 → r' < N → c' < 8 →
        s.V_ X + c + 64 * (s.V_ Y + r) = s.V_ X + c' + 64 * (s.V_ Y + r') →
        r = r' ∧ c = c') ∧
      (s1.V_ 15 = 1 ↔ ∃ k, spritePixel s X Y N k ∧ s.gfx_ k = 1) ∧
      ((¬ ∃ k, spritePixel s X Y N k ∧ s.gfx_ k = 1) → s1.V_ 15 = 0) ∧
      s1.should_redraw_ = true ∧ s1.pc_ = s.pc_ + 2 ∧
      ((∀ k, k < 2048 → s.gfx_ k = 0 ∨ s.gfx_ k = 1) →
        ∀ k, k < 2048 → s1.gfx_ k = 0 ∨ s1.gfx_ k = 1) := by
  obtain ⟨s1, h1, hg, hv, hp, _, _, hr⟩ := Step_DXYN s X Y N hX hY hN hpc hop
    (fun r hr => ⟨by omega, by omega⟩)
  have hgfx : ∀ k, k < 2048 →
      (spritePixel s X Y N k → s1.gfx_ k = s.gfx_ k ^^^ 1) ∧
      (¬ spritePixel s X Y N k → s1.gfx_ k = s.gfx_ k) := by
    intro k hk
    have h := spriteGfx_apply s.gfx_ (s.V_ X) (s.V_ Y) s.mem_ s.I_ N k
    rw [hg]
    constructor
    · intro hpix
      rw [h.1 ((spritePixel_iff s X Y N k).1 hpix)]
      exact xor_one_byte _ (hbyte k hk)
    · intro hpix
      exact h.2 (fun hc => hpix ((spritePixel_iff s X Y N k).2 hc))
  have hhit : (∃ k, spritePixel s X Y N k ∧ s.gfx_ k = 1) ↔
      ∃ r, r < N ∧ ∃ k, rowPixel (s.V_ X) (s.V_ Y) s.mem_ s.I_ r k ∧ s.gfx_ k = 1 := by
    constructor
    · rintro ⟨k, hpix, hk⟩
      obtain ⟨r, hr, hrow⟩ := (spritePixel_iff s X Y N k).1 hpix
      exact ⟨r, hr, k, hrow, hk⟩
    · rintro ⟨r, hr, k, hrow, hk⟩
      exact ⟨k, (spritePixel_iff s X Y N k).2 ⟨r, hr, hrow⟩, hk⟩
  have hV := spriteV_apply (store s.V_ 0xF 0) s.gfx_ (s.V_ X) (s.V_ Y) s.mem_ s.I_ N
  have hmiss : (¬ ∃ k, spritePixel s X Y N k ∧ s.gfx_ k = 1) → s1.V_ 15 = 0 := by
    intro hn
    rw [hv, hV.2 (fun hc => hn (hhit.2 hc))]
    exact store_same _ _ _
  refine ⟨s1, h1, hgfx, ?_, ?_, hmiss, hr, hp, ?_⟩
  · intro r c r' c' _ _ _ _ h
    omega
  · constructor
    · intro h15
      by_contra hn
      rw [hmiss hn] at h15
      exact absurd h15 (by decide)
    · intro hc
      rw [hv, hV.1 (hhit.1 hc)]
      exact store_same _ _ _
  · intro h01 k hk
    by_cases hpix : spritePixel s X Y N k
    · rw [(hgfx k hk).1 hpix]
      rcases h01 k hk with h | h <;> rw [h] <;> decide
    · rw [(hgfx k hk).2 hpix]
      exact h01 k hk

/-- Instance of C19: drawing the five rows of the glyph `0` at the origin of a blank screen
(`D015` with `V0 = V1 = 0`, `I = 0`) turns on the cell at index 0 (bit 7 of `0xF0`), leaves the
cell at index 4 off (bit 3 of `0xF0` is clear), and leaves `VF = 0`. -/
theorem C19_sprite_xor_witness :
    ∃ s1, Step (loaded [0xD0, 0x15]) = .ok s1 ∧ s1.gfx_ 0 = 1 ∧ s1.gfx_ 4 = 0 ∧
      s1.V_ 15 = 0 ∧ s1.should_redraw_ = true ∧ s1.pc_ = 0x202 := by
  obtain ⟨s1, h1, hg, _, _, hv, hr, hp, _⟩ :=
    C19_sprite_xor (loaded [0xD0, 0x15]) 0 1 5 (by decide) (by decide) (by decide)
      (by decide) (by decide) (by decide) (by decide) (fun k _ => show (0 : Nat) < 256 by decide)
  refine ⟨s1, h1, ?_, ?_, ?_, hr, hp⟩
  · exact (hg 0 (by decide)).1 ⟨0, 0, by decide, by decide, by decide, by decide⟩
  · refine (hg 4 (by decide)).2 ?_
    rintro ⟨r, c, hr, hc, hk, hb⟩
    have h4 : (4 : Nat) = 0 + c + 64 * (0 + r) := hk
    have hr0 : r = 0 := by omega
    have hc4 : c = 4 := by omega
    subst hr0
    subst hc4
    exact absurd hb (by decide)
  · refine hv ?_
    rintro ⟨k, _, hk⟩
    have h0 : (0 : Nat) = 1 := hk
    exact absurd h0 (by decide)

/-- Claim C20 (sprite draw is an involution on the frame buffer). For `X, Y` in 0..14, any
height `N` in 0..15, `I + N ≤ 4096` and `V[X] + 7 + 64 * (V[Y] + N - 1) < 2048`, on a machine
whose frame buffer cells are bytes (the cell type) and whose next two instruction words are the
same `DXYN`, the two steps complete (the first leaves `I`, `V[X]`, `V[Y]` and memory as they
were) and every one of the 2048 cells has after the second draw the value it had before the
first. -/
theorem C20_draw_involution (s : Chip8) (X Y N : Nat) (hX : X < 15) (hY : Y < 15)
    (hN : N < 16) (hpc : s.pc_ + 3 < 4096)
    (hop1 : fetch s = 0xD000 + 256 * X + 16 * Y + N)
    (hop2 : wordAt s.mem_ (s.pc_ + 2) = 0xD000 + 256 * X + 16 * Y + N)
    (hI : s.I_ + N ≤ 4096)
    (hfit : (s.V_ X : Int) + 7 + 64 * ((s.V_ Y : Int) + (N : Int) - 1) < 2048)
    (hbyte : ∀ k, k < 2048 → s.gfx_ k < 256) :
    ∃ s1 s2, Step s = .ok s1 ∧ Step s1 = .ok s2 ∧
      s1.I_ = s.I_ ∧ s1.V_ X = s.V_ X ∧ s1.V_ Y = s.V_ Y ∧ s1.mem_ = s.mem_ ∧
      ∀ k, k < 2048 → s2.gfx_ k = s.gfx_ k := by
  obtain ⟨s1, h1, hg1, hv1, hp1, hI1, hm1, _⟩ := Step_DXYN s X Y N hX hY hN (by omega) hop1
    (fun r hr => ⟨by omega, by omega⟩)
  have hx1 : s1.V_ X = s.V_ X := by
    rw [hv1, spriteV_other _ _ _ _ _ _ _ (by omega)]
    exact store_other _ _ _ _ (by omega)
  have hy1 : s1.V_ Y = s.V_ Y := by
    rw [hv1, spriteV_other _ _ _ _ _ _ _ (by omega)]
    exact store_other _ _ _ _ (by omega)
  obtain ⟨s2, h2, hg2, _⟩ := Step_DXYN s1 X Y N hX hY hN (by omega)
    (by unfold fetch; rw [hm1, hp1]; exact hop2)
    (fun r hr => ⟨by omega, by rw [hx1, hy1]; omega⟩)
  refine ⟨s1, s2, h1, h2, hI1, hx1, hy1, hm1, ?_⟩
  intro k hk
  rw [hg2, hx1, hy1, hm1, hI1, hg1]
  have ha := spriteGfx_apply s.gfx_ (s.V_ X) (s.V_ Y) s.mem_ s.I_ N k
  have hb := spriteGfx_apply (spriteGfx s.gfx_ (s.V_ X) (s.V_ Y) s.mem_ s.I_ N)
    (s.V_ X) (s.V_ Y) s.mem_ s.I_ N k
  by_cases hit : ∃ r, r < N ∧ rowPixel (s.V_ X) (s.V_ Y) s.mem_ s.I_ r k
  · rw [hb.1 hit, ha.1 hit]
    exact xor_one_twice _ (hbyte k hk)
  · rw [hb.2 hit, ha.2 hit]

/-- Instance of C20: drawing the glyph `0` twice at the origin (`D015` at `0x200` and `0x202`,
`V0 = V1 = 0`, `I = 0`) leaves every cell as it was before the first draw. -/
theorem C20_draw_involution_witness :
    ∃ s1 s2, Step (loaded [0xD0, 0x15, 0xD0, 0x15]) = .ok s1 ∧ Step s1 = .ok s2 ∧
      ∀ k, k < 2048 → s2.gfx_ k = 0 := by
  obtain ⟨s1, s2, h1, h2, _, _, _, _, hg⟩ :=
    C20_draw_involution (loaded [0xD0, 0x15, 0xD0, 0x15]) 0 1 5 (by decide) (by decide)
      (by decide) (by decide) (by decide) (by decide) (by decide) (by decide)
      (fun k _ => show (0 : Nat) < 256 by decide)
  exact ⟨s1, s2, h1, h2, hg⟩

/-! ## The flag register as operand -/

/-- Claim C21 fails on the code: the flag is written before the operands are read for the
result, so an operand named by `Y = 15` (or by `X = 15`, `Y = 15` in a draw) is the new flag, not
the value of `V[15]` before the step.  `80F4` on `V0 = 1`, `VF = 5` leaves `V0 = 1` (the flag 0
was added), not `(1 + 5) mod 256 = 6`; `80F5` on `V0 = 10`, `VF = 3` leaves `V0 = 9` (the flag 1
was subtracted), not 7; `80F7` on `V0 = 1`, `VF = 5` leaves `V0 = 0` (flag 1 minus 1), not 4;
`DF01` on `VF = 8`, `V0 = 0`, `I = 0` toggles the cell at index 0 and leaves the cell at index 8
(the origin given by the values before the step) off; `D0F1` on `V0 = 0`, `VF = 1` toggles the cell
at index 0 and leaves the cell at index 64 off. -/
theorem C21_operand_after_flag :
    (∃ s1, Step (machine [0x80, 0xF4] (flagRegs 1 5)) = .ok s1 ∧ s1.V_ 0 = 1 ∧
      s1.V_ 0 ≠ ((machine [0x80, 0xF4] (flagRegs 1 5)).V_ 0 +
        (machine [0x80, 0xF4] (flagRegs 1 5)).V_ 15) % 256) ∧
    (∃ s1, Step (machine [0x80, 0xF5] (flagRegs 10 3)) = .ok s1 ∧ s1.V_ 0 = 9 ∧
      (s1.V_ 0 : Int) ≠ (((machine [0x80, 0xF5] (flagRegs 10 3)).V_ 0 : Int) -
        ((machine [0x80, 0xF5] (flagRegs 10 3)).V_ 15 : Int)) % 256) ∧
    (∃ s1, Step (machine [0x80, 0xF7] (flagRegs 1 5)) = .ok s1 ∧ s1.V_ 0 = 0 ∧
      (s1.V_ 0 : Int) ≠ (((machine [0x80, 0xF7] (flagRegs 1 5)).V_ 15 : Int) -
        ((machine [0x80, 0xF7] (flagRegs 1 5)).V_ 0 : Int)) % 256) ∧
    (∃ s1, Step (machine [0xDF, 0x01] (flagRegs 0 8)) = .ok s1 ∧
      (machine [0xDF, 0x01] (flagRegs 0 8)).mem_ 0 = 0xF0 ∧
      (machine [0xDF, 0x01] (flagRegs 0 8)).gfx_ 0 = 0 ∧
      (machine [0xDF, 0x01] (flagRegs 0 8)).gfx_ 8 = 0 ∧
      s1.gfx_ 0 = 1 ∧ s1.gfx_ 8 = 0) ∧
    (∃ s1, Step (machine [0xD0, 0xF1] (flagRegs 0 1)) = .ok s1 ∧
      (machine [0xD0, 0xF1] (flagRegs 0 1)).mem_ 0 = 0xF0 ∧
      (machine [0xD0, 0xF1] (flagRegs 0 1)).gfx_ 0 = 0 ∧
      (machine [0xD0, 0xF1] (flagRegs 0 1)).gfx_ 64 = 0 ∧
      s1.gfx_ 0 = 1 ∧ s1.gfx_ 64 = 0) :=
  ⟨⟨_, rfl, by decide, by decide⟩, ⟨_, rfl, by decide, by decide⟩,
    ⟨_, rfl, by decide, by decide⟩, ⟨_, rfl, by decide, by decide, by decide, by decide, by decide⟩,
    ⟨_, rfl, by decide, by decide, by decide, by decide, by decide⟩⟩

/-! ## Adding a register to the address register -/

theorem dispatchF_1E (X : Nat) (s : Chip8) : dispatchF X (1 * 16 + 14) s = op_FX1E X s := by
  unfold dispatchF
  rw [if_neg (by decide), if_neg (by decide), if_neg (by decide), if_neg (by decide),
    if_pos (by decide)]

theorem op_FX1E_spec (u : Chip8) (X : Nat) (hX : X ≠ 15) :
    ∃ u1, op_FX1E X u = .ok u1 ∧ u1.I_ = (u.I_ + u.V_ X) % 65536 ∧
      u1.V_ 15 = (if u.I_ + u.V_ X > 0xFFF then 1 else 0) ∧
      (∀ i, i ≠ 15 → u1.V_ i = u.V_ i) ∧ u1.pc_ = (u.pc_ + 2) % 65536 := by
  refine ⟨_, rfl, ?_, ?_, ?_, ?_⟩
  · show (u.I_ + store u.V_ 15 _ X) % 65536 = _
    rw [store_other _ _ _ _ hX]
  · show store u.V_ 15 (if u.I_ + u.V_ X > 0xFFF then 1 else 0) 15 = _
    exact store_same _ _ _
  · intro i hi
    show store u.V_ 15 (if u.I_ + u.V_ X > 0xFFF then 1 else 0) i = _
    exact store_other _ _ _ _ hi
  · rfl

theorem Step_FX1E (s : Chip8) (X : Nat) (hX : X < 15) (hpc : s.pc_ + 1 < 4096)
    (hop : fetch s = 0xF01E + 256 * X) :
    ∃ s1, Step s = .ok s1 ∧ s1.I_ = (s.I_ + s.V_ X) % 65536 ∧
      s1.V_ 15 = (if s.I_ + s.V_ X > 0xFFF then 1 else 0) ∧
      (∀ i, i ≠ 15 → s1.V_ i = s.V_ i) ∧ s1.pc_ = s.pc_ + 2 := by
  have hex : execute { s with opcode_ := fetch s } =
      op_FX1E X { s with opcode_ := fetch s } := by
    rw [execute_Fsub _ X 1 14 (by omega) (by omega) (by omega)
      (by show fetch s = _; omega), dispatchF_1E]
  obtain ⟨u1, hu, hI, hf, ho, hp⟩ := op_FX1E_spec { s with opcode_ := fetch s } X (by omega)
  refine ⟨updateTimers u1, Step_of_execute s _ hpc (hex.trans hu), ?_, ?_, ?_, ?_⟩
  · rw [updateTimers_I]; exact hI
  · rw [updateTimers_V]; exact hf
  · intro i hi; rw [updateTimers_V]; exact ho i hi
  · rw [updateTimers_pc, hp]; show (s.pc_ + 2) % 65536 = _; omega

/-- Claim C22, amended: for `X` in 0..14, `FX1E` sets `I` to `(I + vx) mod 65536` with no 12-bit
masking, sets `V[15] = 1` exactly when the sum `I + vx`, taken before it is reduced to 16 bits,
exceeds `0xFFF`, and `V[15] = 0` otherwise; `pc` advances by 2 and `V[X]` keeps its value.  When
`I + vx` fits in 16 bits the new `I` is the sum and the flag says whether the new `I` exceeds
`0xFFF`; when it does not fit (a 16-bit `I`, a byte `vx`) the flag is 1 although the new `I` is at
most `0xFFF`. -/
theorem C22_add_to_I (s : Chip8) (X : Nat) (hX : X < 15) (hpc : s.pc_ + 1 < 4096)
    (hop : fetch s = 0xF01E + 256 * X) :
    ∃ s1, Step s = .ok s1 ∧ s1.I_ = (s.I_ + s.V_ X) % 65536 ∧
      (s1.V_ 15 = 1 ↔ s.I_ + s.V_ X > 0xFFF) ∧
      (s1.V_ 15 = 0 ↔ s.I_ + s.V_ X ≤ 0xFFF) ∧
      s1.pc_ = s.pc_ + 2 ∧ s1.V_ X = s.V_ X ∧
      (s.I_ + s.V_ X < 65536 →
        s1.I_ = s.I_ + s.V_ X ∧ (s1.V_ 15 = 1 ↔ s1.I_ > 0xFFF)) ∧
      (65536 ≤ s.I_ + s.V_ X → s.I_ < 65536 → s.V_ X < 256 →
        s1.V_ 15 = 1 ∧ s1.I_ ≤ 0xFFF) := by
  obtain ⟨s1, h1, hI, hf, ho, hp⟩ := Step_FX1E s X hX hpc hop
  refine ⟨s1, h1, hI, ?_, ?_, hp, ho X (by omega), ?_, ?_⟩
  · rw [hf]
    by_cases h : s.I_ + s.V_ X > 0xFFF
    · rw [if_pos h]; exact ⟨fun _ => h, fun _ => rfl⟩
    · rw [if_neg h]; exact ⟨fun e => absurd e (by decide), fun e => absurd e h⟩
  · rw [hf]
    by_cases h : s.I_ + s.V_ X > 0xFFF
    · rw [if_pos h]; exact ⟨fun e => absurd e (by decide), fun e => by omega⟩
    · rw [if_neg h]; exact ⟨fun _ => by omega, fun _ => rfl⟩
  · intro hfit
    have hI' : s1.I_ = s.I_ + s.V_ X := by rw [hI]; exact Nat.mod_eq_of_lt hfit
    refine ⟨hI', ?_⟩
    rw [hf, hI']
    by_cases h : s.I_ + s.V_ X > 0xFFF
    · rw [if_pos h]; exact ⟨fun _ => h, fun _ => rfl⟩
    · rw [if_neg h]; exact ⟨fun e => absurd e (by decide), fun e => absurd e h⟩
  · intro hwrap h16 h8
    constructor
    · rw [hf, if_pos (by omega)]
    · rw [hI]; omega

/-- Instance of C22: `F01E` on `I = 0xFFF`, `V0 = 1` leaves `I = 0x1000`, outside the 12-bit
range, and `VF = 1`, with `pc = 0x202`. -/
theorem C22_add_to_I_witness :
    ∃ s1, Step (withI 0xFFF (machine [0xF0, 0x1E] [1])) = .ok s1 ∧ s1.I_ = 0x1000 ∧
      s1.V_ 15 = 1 ∧ s1.pc_ = 0x202 := by
  obtain ⟨s1, h1, hI, hf, _, hp, _⟩ :=
    C22_add_to_I (withI 0xFFF (machine [0xF0, 0x1E] [1])) 0 (by decide) (by decide) (by decide)
  exact ⟨s1, h1, hI, hf.2 (by decide), hp⟩

/-- Claim C22 as stated fails when the sum leaves 16 bits: `F01E` on `I = 0xFFFF`, `V0 = 1`
leaves `I = 0`, which does not exceed `0xFFF`, and `VF = 1`. -/
theorem C22_counterexample :
    (withI 0xFFFF (machine [0xF0, 0x1E] [1])).I_ < 65536 ∧
    fetch (withI 0xFFFF (machine [0xF0, 0x1E] [1])) = 0xF01E + 256 * 0 ∧
    ∃ s1, Step (withI 0xFFFF (machine [0xF0, 0x1E] [1])) = .ok s1 ∧ s1.I_ = 0 ∧
      s1.V_ 15 = 1 ∧ ¬ (s1.V_ 15 = 1 ↔ s1.I_ > 0xFFF) :=
  ⟨by decide, by decide, _, rfl, by decide, by decide, by decide⟩

end chip8
